import Mathlib

/-!
# terraform-provider-kubecloud: the instance reconciler

A shallow embedding of `internal/provider/instance_resource.go`, of the
provider's `Configure` in `internal/provider/provider.go`, of the client cache
in `internal/conns/client.go`, and of the types they exchange with the plugin
framework and with the EC2-compatible SDK.

Conventions of the embedding

* A Go pointer `*T` is `Option T`; `none` is the nil pointer.  Dereferencing a
  nil pointer is a runtime panic, which the operations report as
  `Outcome.panicked`.
* A framework value (`types.String`, `types.Int64`, `types.List`, `types.Map`)
  is a `TfValue`: null, unknown, or a known value.
* A Go map is the list of its entries.  The order of that list is the order in
  which a `range` loop visits the entries; Go leaves it unspecified, so the
  results below are stated for every order.
* The remote API is a record of functions from a request to its response.  Each
  operation issues every remote call at most once, so this loses no
  generality; the calls issued are recorded, in order, in the outcome.
* Goroutines that share the client cache are a state with the place of every
  goroutine in `EC2Client`.  An interleaving is a schedule: the list of the
  goroutines in the order in which they run one statement each.
* The resource that the provider registers is the one of package
  `internal/service/ec2`, whose source file is not among the sources.  Its
  `Configure` is modelled from the specification and marked as such.
-/

namespace KubeCloud

/-! ## Plugin framework values -/

/-- The three states of a plugin-framework attribute value. -/
inductive TfValue (α : Type) where
  | null
  | unknown
  | known (v : α)
deriving DecidableEq

namespace TfValue

/-- The framework's `IsNull()`. -/
def IsNull {α : Type} : TfValue α → Bool
  | null => true
  | _ => false

/-- The framework's `IsUnknown()`. -/
def IsUnknown {α : Type} : TfValue α → Bool
  | unknown => true
  | _ => false

/-- The framework's `ValueString()`: the empty string for null and unknown. -/
def ValueString : TfValue String → String
  | known s => s
  | _ => ""

/-- The framework's `ValueInt64()`: zero for null and unknown. -/
def ValueInt64 : TfValue Int → Int
  | known n => n
  | _ => 0

end TfValue

/-- Severity of a diagnostic. -/
inductive Severity where
  | error
  | warning
deriving DecidableEq

/-- One diagnostic of the framework's `diag` package. -/
structure Diagnostic where
  severity : Severity
  summary : String
  detail : String
deriving DecidableEq

/-- The framework's `diag.Diagnostics`. -/
abbrev Diagnostics := List Diagnostic

/-- The framework's `Diagnostics.HasError()`. -/
def Diagnostics.HasError (ds : Diagnostics) : Bool :=
  ds.any (fun d => decide (d.severity = Severity.error))

/-- The framework's `Diagnostics.Append(in...)`: a diagnostic already present is
not added a second time. -/
def Diagnostics.Append (ds : Diagnostics) : Diagnostics → Diagnostics
  | [] => ds
  | d :: rest => Diagnostics.Append (if d ∈ ds then ds else ds ++ [d]) rest

/-- The framework's `Diagnostics.AddError(summary, detail)`. -/
def Diagnostics.AddError (ds : Diagnostics) (summary detail : String) : Diagnostics :=
  Diagnostics.Append ds [{ severity := Severity.error, summary := summary, detail := detail }]

/-- A Go slice; `none` is the nil slice. -/
abbrev GoSlice (α : Type) := Option (List α)

/-- The error the framework reports when a null or unknown value has to be
stored in a Go type that cannot hold it (text abbreviated). -/
def conversionError : Diagnostic :=
  { severity := Severity.error, summary := "Value Conversion Error", detail := "" }

/-- Conversion of the elements of a list to plain Go values: `none` when an
element is null or unknown. -/
def allKnown {α : Type} : List (TfValue α) → Option (List α)
  | [] => some []
  | .known v :: rest => (allKnown rest).map (fun vs => v :: vs)
  | _ :: _ => none

/-- Conversion of the entries of a map to plain Go values: `none` when an
element is null or unknown. -/
def allKnownValues : List (String × TfValue String) → Option (List (String × String))
  | [] => some []
  | (k, .known v) :: rest => (allKnownValues rest).map (fun kvs => (k, v) :: kvs)
  | _ :: _ => none

/-- The framework's `List.ElementsAs(ctx, &target, false)` for a slice target of
plain Go values: a null list gives the nil slice, an unknown list or a null or
unknown element is a conversion error. -/
def ElementsAs {α : Type} (l : TfValue (List (TfValue α))) : GoSlice α × Diagnostics :=
  match l with
  | .null => (none, [])
  | .unknown => (none, [conversionError])
  | .known es =>
    match allKnown es with
    | some xs => (some xs, [])
    | none => (none, [conversionError])

/-- The framework's `Map.ElementsAs(ctx, &target, false)` for a
`map[string]string` target. -/
def MapElementsAs (m : TfValue (List (String × TfValue String))) :
    List (String × String) × Diagnostics :=
  match m with
  | .null => ([], [])
  | .unknown => ([], [conversionError])
  | .known es =>
    match allKnownValues es with
    | some xs => (xs, [])
    | none => ([], [conversionError])

/-- The framework's `types.ListValueFrom` on a Go slice: the nil slice becomes
the null list. -/
def ListValueFrom {α : Type} (s : GoSlice α) : TfValue (List (TfValue α)) × Diagnostics :=
  match s with
  | none => (.null, [])
  | some xs => (.known (xs.map TfValue.known), [])

/-- The framework's `types.MapValueFrom` on a non-nil `map[string]string`. -/
def MapValueFrom (m : List (String × String)) :
    TfValue (List (String × TfValue String)) × Diagnostics :=
  (.known (m.map (fun kv => (kv.1, TfValue.known kv.2))), [])

/-- Assignment `m[k] = v` on a Go map. -/
def GoMap.set : List (String × String) → String → String → List (String × String)
  | [], k, v => [(k, v)]
  | (k0, v0) :: rest, k, v =>
    if k0 = k then (k, v) :: rest else (k0, v0) :: GoMap.set rest k v

/-! ## Resource models (`instance_resource.go`, lines 33-63) -/

/-- Source type `BlockDeviceMappingModel`. -/
structure BlockDeviceMappingModel where
  VolumeSize : TfValue Int
  VolumeType : TfValue String
  DeviceName : TfValue String
deriving DecidableEq

/-- Source type `InstanceResourceModel`. -/
structure InstanceResourceModel where
  ImageId : TfValue String
  InstanceType : TfValue String
  SubnetID : TfValue String
  Password : TfValue String
  BlockDeviceMappings : TfValue (List (TfValue BlockDeviceMappingModel))
  MinCount : TfValue Int
  InstanceName : TfValue String
  SecurityGroupIDs : TfValue (List (TfValue String))
  KeyName : TfValue String
  UserData : TfValue String
  Tags : TfValue (List (String × TfValue String))
  ID : TfValue String
  PrivateIP : TfValue String
  PublicIP : TfValue String
  State : TfValue String
  AvailabilityZone : TfValue String
deriving DecidableEq

/-! ## SDK types (`service/ec2` of the SDK), restricted to the fields used -/

/-- SDK function `aws.StringValue`: the empty string for a nil pointer. -/
def aws.StringValue : Option String → String
  | some s => s
  | none => ""

/-- SDK type `ec2.EbsBlockDevice`. -/
structure EbsBlockDevice where
  VolumeSize : Option Int
  VolumeType : Option String
  DeleteOnTermination : Option Bool
deriving DecidableEq

/-- SDK type `ec2.BlockDeviceMapping`. -/
structure BlockDeviceMapping where
  DeviceName : Option String
  Ebs : Option EbsBlockDevice
deriving DecidableEq

/-- SDK type `ec2.Tag`. -/
structure Tag where
  Key : Option String
  Value : Option String
deriving DecidableEq

/-- SDK type `ec2.TagSpecification`. -/
structure TagSpecification where
  ResourceType : Option String
  Tags : List (Option Tag)
deriving DecidableEq

/-- SDK type `ec2.RunInstancesInput`.  A slice that the code either leaves
nil or fills is a `GoSlice` where the difference is observable
(`SecurityGroupIds`), a list otherwise. -/
structure RunInstancesInput where
  ImageId : Option String
  InstanceType : Option String
  SubnetId : Option String
  MinCount : Option Int
  MaxCount : Option Int
  InstanceName : Option String
  Password : Option String
  BlockDeviceMappings : List (Option BlockDeviceMapping)
  SecurityGroupIds : GoSlice (Option String)
  KeyName : Option String
  UserData : Option String
  TagSpecifications : List (Option TagSpecification)
deriving DecidableEq

/-- SDK type `ec2.InstanceState`. -/
structure InstanceState where
  Name : Option String
deriving DecidableEq

/-- SDK type `ec2.Placement`. -/
structure Placement where
  AvailabilityZone : Option String
deriving DecidableEq

/-- SDK type `ec2.GroupIdentifier`. -/
structure GroupIdentifier where
  GroupId : Option String
deriving DecidableEq

/-- SDK type `ec2.Instance`. -/
structure Instance where
  InstanceId : Option String
  ImageId : Option String
  InstanceType : Option String
  SubnetId : Option String
  State : Option InstanceState
  Placement : Option Placement
  PrivateIpAddress : Option String
  PublicIpAddress : Option String
  KeyName : Option String
  SecurityGroups : List (Option GroupIdentifier)
  Tags : List (Option Tag)
deriving DecidableEq

/-- SDK type `ec2.Reservation`. -/
structure Reservation where
  Instances : List (Option Instance)
deriving DecidableEq

/-- SDK type `ec2.RunInstancesOutput`. -/
structure RunInstancesOutput where
  Instances : List (Option Instance)
deriving DecidableEq

/-- SDK type `ec2.DescribeInstancesInput`. -/
structure DescribeInstancesInput where
  InstanceIds : List (Option String)
deriving DecidableEq

/-- SDK type `ec2.DescribeInstancesOutput`. -/
structure DescribeInstancesOutput where
  Reservations : List (Option Reservation)
deriving DecidableEq

/-- SDK type `ec2.TerminateInstancesInput`. -/
structure TerminateInstancesInput where
  InstanceIds : List (Option String)
deriving DecidableEq

/-- A Go `error` value: either an `awserr.Error`, which has a code, or any
other error.  `text` is what `Error()` returns. -/
inductive GoError where
  | awsErr (code : String) (text : String)
  | other (text : String)
deriving DecidableEq

/-- The method `Error()` of a Go error. -/
def GoError.Error : GoError → String
  | .awsErr _ text => text
  | .other text => text

/-- The remote Compute API as seen through `*ec2.EC2`. -/
structure EC2 where
  RunInstancesWithContext : RunInstancesInput → Except GoError RunInstancesOutput
  WaitUntilInstanceRunningWithContext : DescribeInstancesInput → Option GoError
  DescribeInstancesWithContext : DescribeInstancesInput → Except GoError DescribeInstancesOutput
  TerminateInstancesWithContext : TerminateInstancesInput → Except GoError Unit

/-- A remote call, as issued. -/
inductive ApiCall where
  | runInstances (input : RunInstancesInput)
  | waitUntilInstanceRunning (input : DescribeInstancesInput)
  | describeInstances (input : DescribeInstancesInput)
  | terminateInstances (input : TerminateInstancesInput)
deriving DecidableEq

/-! ## The resource (`instance_resource.go`) -/

/-- Source type `BingoCloudClient` of package `provider` (`provider/client.go`). -/
structure BingoCloudClient where
  EC2Client : EC2

/-- Source type `InstanceResource`; `client` is a pointer and nil until `Configure` ran. -/
structure InstanceResource where
  client : Option BingoCloudClient

/-- The part of the framework's `CreateResponse`, `ReadResponse`,
`UpdateResponse` and `DeleteResponse` the resource touches.  `State` is `none`
for the null state, which is also what `State.RemoveResource` leaves. -/
structure Response where
  Diagnostics : Diagnostics
  State : Option InstanceResourceModel
deriving DecidableEq

/-- The plan handed to `Create` and `Update`, already decoded into the model
(`req.Plan.Get` reports no diagnostic for a well-typed plan). -/
structure PlanRequest where
  Plan : InstanceResourceModel

/-- The prior state handed to `Read` and `Delete`, already decoded. -/
structure StateRequest where
  State : InstanceResourceModel

/-- How a call of an operation ends: it returns, leaving `resp` behind, or it
panics on a nil dereference.  `calls` are the remote calls issued, in order. -/
inductive Outcome where
  | returned (resp : Response) (calls : List ApiCall)
  | panicked (calls : List ApiCall)
deriving DecidableEq

/-- The remote calls issued. -/
def Outcome.calls : Outcome → List ApiCall
  | .returned _ calls => calls
  | .panicked calls => calls

/-- Source function `isNotFoundError` (lines 578-584). -/
def isNotFoundError (err : GoError) : Bool :=
  match err with
  | .awsErr code _ => decide (code = "InvalidInstanceID.NotFound")
  | .other _ => false

/-- The loop over the security groups of an instance (lines 421-425 and
498-502): the ids of the entries whose `GroupId` is not nil, in order.  `none`
when an entry is a nil pointer, whose field access panics. -/
def securityGroupIds : List (Option GroupIdentifier) → Option (List String)
  | [] => some []
  | none :: _ => none
  | some sg :: rest =>
    match securityGroupIds rest with
    | none => none
    | some ids =>
      match sg.GroupId with
      | some id => some (id :: ids)
      | none => some ids

/-- The loop over `bdmList` (lines 266-283), from index `i` on: the request
entries appended to `blockDeviceMappings`, and the elements of `bdmList` after
the assignment to `bdmList[i].DeviceName`. -/
def Create.blockDevices (i : Nat) :
    List BlockDeviceMappingModel → List (Option BlockDeviceMapping) × List BlockDeviceMappingModel
  | [] => ([], [])
  | bdm :: rest =>
    let deviceName := bdm.DeviceName.ValueString
    let useDefault : Bool := decide (i = 0 ∧ deviceName = "")
    let deviceName := if useDefault then "/dev/vda" else deviceName
    let bdmAtI := if useDefault then { bdm with DeviceName := TfValue.known deviceName } else bdm
    let entry : BlockDeviceMapping :=
      { DeviceName := some deviceName
        Ebs := some
          { VolumeSize := some bdm.VolumeSize.ValueInt64
            VolumeType := some bdm.VolumeType.ValueString
            DeleteOnTermination := some true } }
    let tail := Create.blockDevices (i + 1) rest
    (some entry :: tail.1, bdmAtI :: tail.2)

/-- The tag list built before the user tags are read (lines 321-327). -/
def Create.nameTag (plan : InstanceResourceModel) : List (Option Tag) :=
  if !plan.InstanceName.IsNull then
    [some { Key := some "Name", Value := some plan.InstanceName.ValueString }]
  else []

/-- The tags appended by the loop over `tagMap` (lines 334-339). -/
def Create.userTags (tagMap : List (String × String)) : List (Option Tag) :=
  tagMap.map (fun kv => some { Key := some kv.1, Value := some kv.2 })

/-- The block that fills the computed attributes from the post-create
describe (lines 404-432), given the plan and the diagnostics so far.  `none` is
a panic. -/
def Create.fillComputed (plan : InstanceResourceModel) (diags : Diagnostics)
    (describeResult : DescribeInstancesOutput) : Option (InstanceResourceModel × Diagnostics) :=
  -- line 404
  match describeResult.Reservations with
  | [] => some (plan, diags)
  | none :: _ => none
  | some reservation :: _ =>
    match reservation.Instances with
    | [] => some (plan, diags)
    | none :: _ => none
    | some inst :: _ =>
      -- lines 405-409
      match inst.State, inst.Placement with
      | some state, some placement =>
        let filled : InstanceResourceModel :=
          { plan with
            State := TfValue.known (aws.StringValue state.Name)
            AvailabilityZone := TfValue.known (aws.StringValue placement.AvailabilityZone)
            -- lines 411-413
            PrivateIP :=
              if inst.PrivateIpAddress ≠ none then
                TfValue.known (aws.StringValue inst.PrivateIpAddress)
              else plan.PrivateIP
            -- lines 414-416
            PublicIP :=
              if inst.PublicIpAddress ≠ none then
                TfValue.known (aws.StringValue inst.PublicIpAddress)
              else plan.PublicIP }
        -- line 419
        if plan.SecurityGroupIDs.IsNull || plan.SecurityGroupIDs.IsUnknown then
          -- lines 420-425
          match securityGroupIds inst.SecurityGroups with
          | none => none
          | some sgIDs =>
            -- lines 426-430
            let sgList := ListValueFrom (some sgIDs)
            let diags := diags.Append sgList.2
            some
              ({ filled with
                  SecurityGroupIDs :=
                    if !diags.HasError then sgList.1 else plan.SecurityGroupIDs },
                diags)
        else some (filled, diags)
      | _, _ => none

/-- What the request-building part of `Create` leaves behind. -/
structure Create.Prepared where
  runInput : RunInstancesInput
  plan : InstanceResourceModel
  diags : Diagnostics

/-- The request-building part of `Create` (lines 235-348), given the plan and
the diagnostics so far.  `Except.error diags` is an early return, with the
diagnostics at that point. -/
def Create.prepare (plan : InstanceResourceModel) (diags : Diagnostics) :
    Except Diagnostics Create.Prepared :=
  -- lines 236-241
  let unset : Bool := plan.MinCount.IsNull
  let instanceCount : Int := if !unset then plan.MinCount.ValueInt64 else 1
  -- lines 258-263
  let bdmDecoded := ElementsAs plan.BlockDeviceMappings
  let diags := diags.Append bdmDecoded.2
  if diags.HasError then Except.error diags else
  -- lines 266-283
  let looped := Create.blockDevices 0 (bdmDecoded.1.getD [])
  let bdmList : GoSlice BlockDeviceMappingModel := bdmDecoded.1.map (fun _ => looped.2)
  -- lines 286-293
  let updatedBdmList := ListValueFrom bdmList
  let diags := diags.Append updatedBdmList.2
  let bdmStored : Bool := !diags.HasError
  -- lines 301-306
  let supplied : Bool := !plan.SecurityGroupIDs.IsNull && !plan.SecurityGroupIDs.IsUnknown
  let sgDecoded := ElementsAs plan.SecurityGroupIDs
  let diags := if supplied then diags.Append sgDecoded.2 else diags
  if supplied && diags.HasError then Except.error diags else
  -- lines 321-333
  let hasTags : Bool := !plan.Tags.IsNull
  let tagsDecoded := MapElementsAs plan.Tags
  let diags := if hasTags then diags.Append tagsDecoded.2 else diags
  if hasTags && diags.HasError then Except.error diags else
  -- lines 334-340
  let tags :=
    if hasTags then Create.nameTag plan ++ Create.userTags tagsDecoded.1 else Create.nameTag plan
  Except.ok
    { runInput :=
        -- lines 243-251
        { ImageId := some plan.ImageId.ValueString
          InstanceType := some plan.InstanceType.ValueString
          SubnetId := some plan.SubnetID.ValueString
          MinCount := some instanceCount
          MaxCount := some instanceCount
          InstanceName := some plan.InstanceName.ValueString
          Password := some plan.Password.ValueString
          -- line 298
          BlockDeviceMappings := looped.1
          -- line 307
          SecurityGroupIds := if supplied then some ((sgDecoded.1.getD []).map some) else none
          -- lines 311-313
          KeyName := if !plan.KeyName.IsNull then some plan.KeyName.ValueString else none
          -- lines 316-318
          UserData := if !plan.UserData.IsNull then some plan.UserData.ValueString else none
          -- lines 341-348
          TagSpecifications :=
            if tags.length > 0 then [some { ResourceType := some "instance", Tags := tags }]
            else [] }
      plan :=
        { plan with
          -- line 240
          MinCount := if !unset then plan.MinCount else TfValue.known instanceCount
          -- lines 294-296
          BlockDeviceMappings := if bdmStored then updatedBdmList.1 else plan.BlockDeviceMappings }
      diags := diags }

/-- Source function `InstanceResource.Create` (lines 225-437). -/
def InstanceResource.Create (r : InstanceResource) (req : PlanRequest) (resp : Response) :
    Outcome :=
  -- lines 227-233
  if resp.Diagnostics.HasError then Outcome.returned resp [] else
  -- lines 235-348
  match Create.prepare req.Plan resp.Diagnostics with
  | .error diags => Outcome.returned { Diagnostics := diags, State := resp.State } []
  | .ok prepared =>
  -- lines 356-363
  match r.client with
  | none => Outcome.panicked []
  | some client =>
  match client.EC2Client.RunInstancesWithContext prepared.runInput with
  | .error err =>
    Outcome.returned
      { Diagnostics := prepared.diags.AddError "创建实例失败" ("无法创建实例: " ++ err.Error)
        State := resp.State }
      [ApiCall.runInstances prepared.runInput]
  | .ok result =>
  -- lines 365-371
  match result.Instances with
  | [] =>
    Outcome.returned
      { Diagnostics := prepared.diags.AddError "创建实例失败" "API 返回空实例列表"
        State := resp.State }
      [ApiCall.runInstances prepared.runInput]
  -- lines 373-374
  | none :: _ => Outcome.panicked [ApiCall.runInstances prepared.runInput]
  | some created :: _ =>
  let plan := { prepared.plan with ID := TfValue.known (aws.StringValue created.InstanceId) }
  -- lines 381-390
  let waitInput : DescribeInstancesInput := { InstanceIds := [created.InstanceId] }
  match client.EC2Client.WaitUntilInstanceRunningWithContext waitInput with
  | some err =>
    Outcome.returned
      { Diagnostics := prepared.diags.AddError "等待实例运行失败"
          ("实例创建成功但未能进入运行状态: " ++ err.Error)
        State := resp.State }
      [ApiCall.runInstances prepared.runInput, ApiCall.waitUntilInstanceRunning waitInput]
  | none =>
  -- lines 393-402
  let describeInput : DescribeInstancesInput := { InstanceIds := [created.InstanceId] }
  let calls :=
    [ApiCall.runInstances prepared.runInput, ApiCall.waitUntilInstanceRunning waitInput,
      ApiCall.describeInstances describeInput]
  match client.EC2Client.DescribeInstancesWithContext describeInput with
  | .error err =>
    Outcome.returned
      { Diagnostics := prepared.diags.AddError "读取实例详情失败"
          ("实例创建成功但无法读取详细信息: " ++ err.Error)
        State := resp.State }
      calls
  | .ok describeResult =>
  -- lines 404-432
  match Create.fillComputed plan prepared.diags describeResult with
  | none => Outcome.panicked calls
  | some filled =>
  -- lines 434-436
  Outcome.returned { Diagnostics := filled.2, State := some filled.1 } calls

/-- The loop over the tags of the described instance (lines 511-520), threading
`tagMap` and `state.InstanceName`.  `none` is the panic on a nil entry. -/
def Read.tags :
    List (Option Tag) → List (String × String) × TfValue String →
      Option (List (String × String) × TfValue String)
  | [], acc => some acc
  | none :: _, _ => none
  | some tag :: rest, acc =>
    match tag.Key, tag.Value with
    | some key, some value =>
      if key = "Name" then Read.tags rest (acc.1, TfValue.known value)
      else Read.tags rest (GoMap.set acc.1 key value, acc.2)
    | _, _ => Read.tags rest acc

/-- The part of `Read` that overwrites the state from the described instance
(lines 476-526), given the prior state and the diagnostics so far.  `none` is a
panic. -/
def Read.refresh (state : InstanceResourceModel) (diags : Diagnostics) (inst : Instance) :
    Option (InstanceResourceModel × Diagnostics) :=
  -- lines 480-481
  match inst.State, inst.Placement with
  | some instanceState, some placement =>
    -- lines 497-502
    match securityGroupIds inst.SecurityGroups with
    | none => none
    | some sgIDs =>
      -- lines 503-504
      let sgList := ListValueFrom (some sgIDs)
      let diags := diags.Append sgList.2
      let sgStored : Bool := !diags.HasError
      -- lines 510-520
      match Read.tags inst.Tags ([], state.InstanceName) with
      | none => none
      | some looped =>
        -- lines 522-523
        let tagsValue := MapValueFrom looped.1
        let diags := diags.Append tagsValue.2
        some
          ({ state with
              -- lines 477-481
              ImageId := TfValue.known (aws.StringValue inst.ImageId)
              InstanceType := TfValue.known (aws.StringValue inst.InstanceType)
              SubnetID := TfValue.known (aws.StringValue inst.SubnetId)
              State := TfValue.known (aws.StringValue instanceState.Name)
              AvailabilityZone := TfValue.known (aws.StringValue placement.AvailabilityZone)
              -- lines 484-486
              PrivateIP :=
                if inst.PrivateIpAddress ≠ none then
                  TfValue.known (aws.StringValue inst.PrivateIpAddress)
                else state.PrivateIP
              -- lines 487-489
              PublicIP :=
                if inst.PublicIpAddress ≠ none then
                  TfValue.known (aws.StringValue inst.PublicIpAddress)
                else state.PublicIP
              -- lines 492-494
              KeyName :=
                if inst.KeyName ≠ none ∧ aws.StringValue inst.KeyName ≠ "" then
                  TfValue.known (aws.StringValue inst.KeyName)
                else state.KeyName
              -- lines 505-507
              SecurityGroupIDs := if sgStored then sgList.1 else state.SecurityGroupIDs
              -- line 515
              InstanceName := looped.2
              -- lines 524-526
              Tags := if !diags.HasError then tagsValue.1 else state.Tags },
            diags)
  | _, _ => none

/-- Source function `InstanceResource.Read` (lines 439-532). -/
def InstanceResource.Read (r : InstanceResource) (req : StateRequest) (resp : Response) :
    Outcome :=
  -- lines 441-447
  let state := req.State
  if resp.Diagnostics.HasError then Outcome.returned resp [] else
  -- lines 450-454
  let input : DescribeInstancesInput := { InstanceIds := [some state.ID.ValueString] }
  let calls := [ApiCall.describeInstances input]
  match r.client with
  | none => Outcome.panicked []
  | some client =>
  match client.EC2Client.DescribeInstancesWithContext input with
  -- lines 455-466
  | .error err =>
    if isNotFoundError err then
      Outcome.returned { Diagnostics := resp.Diagnostics, State := none } calls
    else
      Outcome.returned
        { Diagnostics := resp.Diagnostics.AddError "读取实例失败"
            ("无法读取实例 " ++ state.ID.ValueString ++ ": " ++ err.Error)
          State := resp.State }
        calls
  | .ok result =>
  -- lines 468-472
  match result.Reservations with
  | [] => Outcome.returned { Diagnostics := resp.Diagnostics, State := none } calls
  | none :: _ => Outcome.panicked calls
  | some reservation :: _ =>
  match reservation.Instances with
  | [] => Outcome.returned { Diagnostics := resp.Diagnostics, State := none } calls
  -- line 474
  | none :: _ => Outcome.panicked calls
  | some inst :: _ =>
  -- lines 476-526
  match Read.refresh state resp.Diagnostics inst with
  | none => Outcome.panicked calls
  | some refreshed =>
  -- line 531
  Outcome.returned { Diagnostics := refreshed.2, State := some refreshed.1 } calls

/-- Source function `InstanceResource.Update` (lines 534-546). -/
def InstanceResource.Update (_r : InstanceResource) (req : PlanRequest) (resp : Response) :
    Outcome :=
  let plan := req.Plan
  if resp.Diagnostics.HasError then Outcome.returned resp [] else
  Outcome.returned { Diagnostics := resp.Diagnostics, State := some plan } []

/-- Source function `InstanceResource.Delete` (lines 548-571). -/
def InstanceResource.Delete (r : InstanceResource) (req : StateRequest) (resp : Response) :
    Outcome :=
  let state := req.State
  if resp.Diagnostics.HasError then Outcome.returned resp [] else
  let input : TerminateInstancesInput := { InstanceIds := [some state.ID.ValueString] }
  match r.client with
  | none => Outcome.panicked []
  | some client =>
  match client.EC2Client.TerminateInstancesWithContext input with
  | .error err =>
    Outcome.returned
      { Diagnostics := resp.Diagnostics.AddError "删除实例失败"
          ("无法删除实例 " ++ state.ID.ValueString ++ ": " ++ err.Error)
        State := resp.State }
      [ApiCall.terminateInstances input]
  | .ok _ => Outcome.returned resp [ApiCall.terminateInstances input]

/-! ## The example scenario of the specification -/

/-- The instance the sample API reports: id `i-abc123`, running, no public
address, one security group, and the tags of the sample plan. -/
def sampleInstance : Instance :=
  { InstanceId := some "i-abc123"
    ImageId := some "img-1"
    InstanceType := some "m1.small"
    SubnetId := some "subnet-1"
    State := some { Name := some "running" }
    Placement := some { AvailabilityZone := some "az-1" }
    PrivateIpAddress := some "10.0.0.5"
    PublicIpAddress := none
    KeyName := none
    SecurityGroups := [some { GroupId := some "sg-default" }]
    Tags :=
      [some { Key := some "Environment", Value := some "test" },
        some { Key := some "Name", Value := some "test-instance" }] }

/-- A remote API on which every call succeeds and which reports
`sampleInstance`. -/
def sampleEC2 : EC2 :=
  { RunInstancesWithContext := fun _ => Except.ok { Instances := [some sampleInstance] }
    WaitUntilInstanceRunningWithContext := fun _ => none
    DescribeInstancesWithContext := fun _ =>
      Except.ok { Reservations := [some { Instances := [some sampleInstance] }] }
    TerminateInstancesWithContext := fun _ => Except.ok () }

/-- A configured resource talking to `sampleEC2`. -/
def sampleResource : InstanceResource :=
  { client := some { EC2Client := sampleEC2 } }

/-- The plan of the example: image `img-1`, type `m1.small`, subnet
`subnet-1`, one 20 GB `gp2` boot volume without a device name, display name
`test-instance` and the tag `Environment = test`.  The attributes the user left
out are null when they are optional only, and unknown when they are computed. -/
def samplePlan : InstanceResourceModel :=
  { ImageId := TfValue.known "img-1"
    InstanceType := TfValue.known "m1.small"
    SubnetID := TfValue.known "subnet-1"
    Password := TfValue.known "Test@123456"
    BlockDeviceMappings :=
      TfValue.known
        [TfValue.known
          { VolumeSize := TfValue.known 20
            VolumeType := TfValue.known "gp2"
            DeviceName := TfValue.unknown }]
    MinCount := TfValue.known 1
    InstanceName := TfValue.known "test-instance"
    SecurityGroupIDs := TfValue.unknown
    KeyName := TfValue.null
    UserData := TfValue.null
    Tags := TfValue.known [("Environment", TfValue.known "test")]
    ID := TfValue.unknown
    PrivateIP := TfValue.unknown
    PublicIP := TfValue.unknown
    State := TfValue.unknown
    AvailabilityZone := TfValue.unknown }

/-- The response object as the framework hands it to `Create`: no diagnostics,
null state. -/
def freshResponse : Response :=
  { Diagnostics := [], State := none }

/-- The tracked state of the example after `Create`. -/
def sampleState : InstanceResourceModel :=
  { samplePlan with
    BlockDeviceMappings :=
      TfValue.known
        [TfValue.known
          { VolumeSize := TfValue.known 20
            VolumeType := TfValue.known "gp2"
            DeviceName := TfValue.known "/dev/vda" }]
    SecurityGroupIDs := TfValue.known [TfValue.known "sg-default"]
    ID := TfValue.known "i-abc123"
    PrivateIP := TfValue.known "10.0.0.5"
    State := TfValue.known "running"
    AvailabilityZone := TfValue.known "az-1" }

/-- The response object as the framework hands it to `Read`, `Update` and
`Delete` in the example: no diagnostics, the tracked state. -/
def trackedResponse : Response :=
  { Diagnostics := [], State := some sampleState }

/-- A remote API that rejects the create call. -/
def rejectingEC2 : EC2 :=
  { sampleEC2 with
    RunInstancesWithContext := fun _ => Except.error (GoError.other "quota exceeded") }

/-- A remote API on which the created instance never becomes ready. -/
def neverReadyEC2 : EC2 :=
  { sampleEC2 with
    WaitUntilInstanceRunningWithContext := fun _ => some (GoError.other "timeout") }

/-- A remote API that no longer knows the instance. -/
def notFoundEC2 : EC2 :=
  { sampleEC2 with
    DescribeInstancesWithContext := fun _ =>
      Except.error (GoError.awsErr "InvalidInstanceID.NotFound"
        "InvalidInstanceID.NotFound: The instance ID 'i-abc123' does not exist") }

/-- A remote API on which the post-create describe fails. -/
def describeFailingEC2 : EC2 :=
  { sampleEC2 with
    DescribeInstancesWithContext := fun _ =>
      Except.error (GoError.other "connection reset") }

/-- Whether the text `sub` occurs in the text `s`. -/
def occursIn (sub s : String) : Bool :=
  decide (sub.data <:+: s.data)

/-- The request tag for a key and a value, as `Create` builds it. -/
def tagOf (kv : String × String) : Option Tag :=
  some { Key := some kv.1, Value := some kv.2 }

/-- The key and the value of a tag in which neither is nil. -/
def pairOf : Option Tag → Option (String × String)
  | some { Key := some k, Value := some v } => some (k, v)
  | _ => none

/-- A remote API that reports both addresses of the instance as empty
strings. -/
def emptyAddressEC2 : EC2 :=
  { sampleEC2 with
    DescribeInstancesWithContext := fun _ =>
      Except.ok
        { Reservations :=
            [some
              { Instances :=
                  [some
                    { sampleInstance with
                      PrivateIpAddress := some ""
                      PublicIpAddress := some "" }] }] } }

/-- A remote API whose describe call succeeds with no reservation. -/
def emptyDescribeEC2 : EC2 :=
  { sampleEC2 with
    DescribeInstancesWithContext := fun _ => Except.ok { Reservations := [] } }

/-- The plan of the example with a second volume, where the user supplied
neither a display name nor security groups nor device names. -/
def omittedPlan : InstanceResourceModel :=
  { samplePlan with
    BlockDeviceMappings :=
      TfValue.known
        [TfValue.known
          { VolumeSize := TfValue.known 20
            VolumeType := TfValue.known "gp2"
            DeviceName := TfValue.unknown },
         TfValue.known
          { VolumeSize := TfValue.known 100
            VolumeType := TfValue.known "io1"
            DeviceName := TfValue.unknown }]
    InstanceName := TfValue.unknown
    SecurityGroupIDs := TfValue.unknown }

/-! ## Resource configuration (`instance_resource.go`, lines 75-91) -/

/-- SDK type `aws.Config`, restricted to the fields `NewBingoCloudClient`
sets.  `Credentials` holds the access key and the secret key of the static
credentials; `HTTPClient` is `none` for the nil client and `some b` for a
client whose transport has `InsecureSkipVerify = b`. -/
structure aws.Config where
  Endpoint : Option String
  Region : Option String
  Credentials : String × String
  DisableSSL : Option Bool
  S3ForcePathStyle : Option Bool
  HTTPClient : Option Bool
deriving DecidableEq

/-- SDK type `session.Session`, as far as the code looks at it: a session
remembers the configuration it was made from. -/
structure Session where
  Config : aws.Config
deriving DecidableEq

/-- A pointer to an `ec2.EC2` as `ec2.New` returns it.  Two calls of `ec2.New`
return different pointers: `address` is the number of clients constructed
before this one. -/
structure EC2Ptr where
  address : Nat
  session : Session
deriving DecidableEq

/-- The state of a `sync.RWMutex`: the number of read locks held and whether
the write lock is held. -/
structure RWMutex where
  readers : Nat
  writer : Bool
deriving DecidableEq

/-- The method `RLock`; `none` when the call has to wait, which in a
sequential run it does forever. -/
def RWMutex.RLock (m : RWMutex) : Option RWMutex :=
  if m.writer then none else some { m with readers := m.readers + 1 }

/-- The method `RUnlock`. -/
def RWMutex.RUnlock (m : RWMutex) : RWMutex :=
  { m with readers := m.readers - 1 }

/-- The method `Lock`; `none` when the call has to wait. -/
def RWMutex.Lock (m : RWMutex) : Option RWMutex :=
  if m.writer || decide (m.readers > 0) then none else some { m with writer := true }

/-- The method `Unlock`. -/
def RWMutex.Unlock (m : RWMutex) : RWMutex :=
  { m with writer := false }

/-- Source type `BingoCloudClient` of package `conns` (`conns/client.go`, lines
17-26). -/
structure conns.BingoCloudClient where
  Config : aws.Config
  Session : Session
  ec2Client : Option EC2Ptr
  ec2ClientLock : RWMutex
deriving DecidableEq

/-- Source function `NewBingoCloudClient` of package `conns` (`conns/client.go`,
lines 28-58).  `NewSession` stands for `session.NewSession` of the SDK. -/
def conns.NewBingoCloudClient (NewSession : aws.Config → Except GoError Session)
    (endpoint accessKey secretKey region : String) (insecureSkipTLS : Bool) :
    Except GoError conns.BingoCloudClient :=
  -- lines 30-46
  let cfg : aws.Config :=
    { Endpoint := some endpoint
      Region := some region
      Credentials := (accessKey, secretKey)
      DisableSSL := some false
      S3ForcePathStyle := some true
      HTTPClient := if insecureSkipTLS then some true else none }
  -- lines 49-52
  match NewSession cfg with
  | .error err => Except.error (GoError.other ("创建 AWS session 失败: " ++ err.Error))
  -- lines 54-57
  | .ok sess =>
    Except.ok
      { Config := cfg
        Session := sess
        ec2Client := none
        ec2ClientLock := { readers := 0, writer := false } }

/-- SDK function `ec2.New`, given the number of clients constructed so far. -/
def ec2.New (sess : Session) (constructed : Nat) : EC2Ptr :=
  { address := constructed, session := sess }

/-- Source function `EC2Client` of package `conns` (`conns/client.go`, lines
60-79), run without any other goroutine.  The argument and the last component
of the result count the calls of `ec2.New`; the result is `none` when a lock
call has to wait. -/
def conns.BingoCloudClient.EC2Client (c : conns.BingoCloudClient) (constructed : Nat) :
    Option (Option EC2Ptr × conns.BingoCloudClient × Nat) :=
  -- line 63
  match c.ec2ClientLock.RLock with
  | none => none
  | some rlocked =>
    -- lines 64-67
    if c.ec2Client ≠ none then
      some (c.ec2Client, { c with ec2ClientLock := rlocked.RUnlock }, constructed)
    else
      -- lines 68-72
      match rlocked.RUnlock.Lock with
      | none => none
      | some locked =>
        -- lines 75-78
        if c.ec2Client = none then
          some (some (ec2.New c.Session constructed),
            { c with
              ec2Client := some (ec2.New c.Session constructed)
              ec2ClientLock := locked.Unlock },
            constructed + 1)
        else some (c.ec2Client, { c with ec2ClientLock := locked.Unlock }, constructed)

/-- A sequence of `k` calls of `EC2Client` on one client, one after the other:
the results in order, the client afterwards and the count of constructions. -/
def conns.BingoCloudClient.EC2ClientCalls :
    Nat → conns.BingoCloudClient → Nat →
      Option (List (Option EC2Ptr) × conns.BingoCloudClient × Nat)
  | 0, c, constructed => some ([], c, constructed)
  | k + 1, c, constructed =>
    match c.EC2Client constructed with
    | none => none
    | some first =>
      match conns.BingoCloudClient.EC2ClientCalls k first.2.1 first.2.2 with
      | none => none
      | some later => some (first.1 :: later.1, later.2.1, later.2.2)

/-- The dynamic type and value of the `any` that the provider hands to the
resources as `ProviderData`: the nil interface, a pointer to the client of
package `conns`, a pointer to the client of package `provider`, or a value of
another type, of which only the name matters. -/
inductive ProviderData where
  | nil
  | connsClient (c : Option conns.BingoCloudClient)
  | providerClient (c : Option BingoCloudClient)
  | other (typeName : String)

/-- What the verb `%T` prints for the value. -/
def ProviderData.typeName : ProviderData → String
  | .nil => "<nil>"
  | .connsClient _ => "*conns.BingoCloudClient"
  | .providerClient _ => "*provider.BingoCloudClient"
  | .other typeName => typeName

/-- Source function `InstanceResource.Configure` (lines 75-91): the resource
and the diagnostics afterwards. -/
def InstanceResource.Configure (r : InstanceResource) (providerData : ProviderData)
    (diags : Diagnostics) : InstanceResource × Diagnostics :=
  match providerData with
  -- lines 77-79
  | .nil => (r, diags)
  -- lines 81, 90
  | .providerClient client => ({ client := client }, diags)
  -- lines 82-88
  | rejected =>
    (r, diags.AddError "意外的资源配置类型"
      ("期望 *BingoCloudClient，得到: " ++ rejected.typeName ++ "。请向 provider 开发者报告此问题。"))

/-! ## Provider configuration (`provider.go`, lines 36-149) -/

/-- The framework's `ValueBool()`: false for null and unknown. -/
def TfValue.ValueBool : TfValue Bool → Bool
  | .known b => b
  | _ => false

/-- Source type `BingoCloudProviderModel`. -/
structure BingoCloudProviderModel where
  Endpoint : TfValue String
  AccessKey : TfValue String
  SecretKey : TfValue String
  Region : TfValue String
  InsecureSkipTLS : TfValue Bool

/-- The part of the framework's `provider.ConfigureResponse` that
`BingoCloudProvider.Configure` touches. -/
structure ProviderConfigureResponse where
  Diagnostics : Diagnostics
  DataSourceData : ProviderData
  ResourceData : ProviderData

/-- The checks of the required settings in `BingoCloudProvider.Configure`
(lines 114-132): the diagnostics after them. -/
def BingoCloudProvider.Configure.validate (diags : Diagnostics)
    (endpoint accessKey secretKey : String) : Diagnostics :=
  -- lines 115-120
  let diags1 :=
    if endpoint = "" then
      diags.AddError "缺少 Endpoint 配置"
        "必须通过 provider 配置或 AWS_ENDPOINT 环境变量提供 endpoint"
    else diags
  -- lines 121-126
  let diags2 :=
    if accessKey = "" then
      diags1.AddError "缺少 AccessKey 配置"
        "必须通过 provider 配置或 AWS_ACCESS_KEY_ID 环境变量提供 access_key"
    else diags1
  -- lines 127-132
  if secretKey = "" then
    diags2.AddError "缺少 SecretKey 配置"
      "必须通过 provider 配置或 AWS_SECRET_ACCESS_KEY 环境变量提供 secret_key"
  else diags2

/-- A setting of the provider: the configured value, or else the fallback
(lines 92-110). -/
def BingoCloudProvider.Configure.setting (configured : TfValue String) (fallback : String) :
    String :=
  if configured.ValueString = "" then fallback else configured.ValueString

/-- Source function `BingoCloudProvider.Configure` (lines 82-149).  `getenv`
stands for `os.Getenv`, `NewSession` for `session.NewSession`, and `data` is
the provider configuration, already decoded. -/
def BingoCloudProvider.Configure (getenv : String → String)
    (NewSession : aws.Config → Except GoError Session) (data : BingoCloudProviderModel)
    (resp : ProviderConfigureResponse) : ProviderConfigureResponse :=
  -- lines 85-89
  if resp.Diagnostics.HasError then resp else
  -- lines 92-95
  let endpoint := BingoCloudProvider.Configure.setting data.Endpoint (getenv "AWS_ENDPOINT")
  -- lines 97-100
  let accessKey :=
    BingoCloudProvider.Configure.setting data.AccessKey (getenv "AWS_ACCESS_KEY_ID")
  -- lines 102-105
  let secretKey :=
    BingoCloudProvider.Configure.setting data.SecretKey (getenv "AWS_SECRET_ACCESS_KEY")
  -- lines 107-110
  let region := BingoCloudProvider.Configure.setting data.Region "default"
  -- line 112
  let insecureSkipTLS := data.InsecureSkipTLS.ValueBool
  -- lines 114-136
  let diags :=
    BingoCloudProvider.Configure.validate resp.Diagnostics endpoint accessKey secretKey
  if diags.HasError then { resp with Diagnostics := diags } else
  -- lines 139-146
  match conns.NewBingoCloudClient NewSession endpoint accessKey secretKey region
      insecureSkipTLS with
  | .error err =>
    { resp with
      Diagnostics := diags.AddError "无法创建 BingoCloud 客户端"
        ("创建客户端时发生错误: " ++ err.Error) }
  -- lines 148-149
  | .ok client =>
    { Diagnostics := diags
      DataSourceData := ProviderData.connsClient (some client)
      ResourceData := ProviderData.connsClient (some client) }

/-! ## Further scenarios -/

/-- The instance of the example without its `Name` tag. -/
def namelessInstance : Instance :=
  { sampleInstance with Tags := [some { Key := some "Environment", Value := some "test" }] }

/-- A remote API that reports `namelessInstance`. -/
def namelessEC2 : EC2 :=
  { sampleEC2 with
    DescribeInstancesWithContext := fun _ =>
      Except.ok { Reservations := [some { Instances := [some namelessInstance] }] } }

/-- A remote API whose describe call reports the instance of the example
without its state record. -/
def statelessEC2 : EC2 :=
  { sampleEC2 with
    DescribeInstancesWithContext := fun _ =>
      Except.ok
        { Reservations := [some { Instances := [some { sampleInstance with State := none }] }] } }

/-- The plan of the update test: the tracked state of the example with
instance type `m1.medium` and the tags of the updated configuration. -/
def updatedPlan : InstanceResourceModel :=
  { sampleState with
    InstanceType := TfValue.known "m1.medium"
    Tags :=
      TfValue.known
        [("Environment", TfValue.known "production"),
          ("ManagedBy", TfValue.known "terraform"),
          ("Updated", TfValue.known "true")] }

/-- The plan of the example with one security group supplied by the user. -/
def suppliedPlan : InstanceResourceModel :=
  { samplePlan with SecurityGroupIDs := TfValue.known [TfValue.known "sg-12345"] }

/-- A provider configuration block without attributes, as in the acceptance
tests. -/
def emptyProviderConfig : BingoCloudProviderModel :=
  { Endpoint := TfValue.null
    AccessKey := TfValue.null
    SecretKey := TfValue.null
    Region := TfValue.null
    InsecureSkipTLS := TfValue.null }

/-- An environment that provides the three variables of the acceptance
tests. -/
def sampleEnv (name : String) : String :=
  if name = "AWS_ENDPOINT" then "https://cloud.example:8773"
  else if name = "AWS_ACCESS_KEY_ID" then "AKIDEXAMPLE"
  else if name = "AWS_SECRET_ACCESS_KEY" then "secret"
  else ""

/-- A `session.NewSession` that succeeds. -/
def sampleNewSession (cfg : aws.Config) : Except GoError Session :=
  Except.ok { Config := cfg }

/-- The response object as the framework hands it to the provider's
`Configure`. -/
def freshProviderResponse : ProviderConfigureResponse :=
  { Diagnostics := [], DataSourceData := ProviderData.nil, ResourceData := ProviderData.nil }

/-! ## The client cache under concurrent callers (`conns/client.go`, lines 60-79) -/

/-- The place of one goroutine in `EC2Client`: before the statement of the
named line, before a deferred call that is still pending (the result is
evaluated already), or after the return.  Line 76 is two steps, the call of
`ec2.New` and the assignment of its result. -/
inductive conns.Point where
  | line63
  | line64
  | line65
  | line66
  | deferred65 (result : Option EC2Ptr)
  | line68
  | line71
  | line72
  | line75
  | line76
  | line76store (built : EC2Ptr)
  | line78
  | deferred72 (result : Option EC2Ptr)
  | returned (result : Option EC2Ptr)
deriving DecidableEq

/-- The state of `N` goroutines that call `EC2Client` on one client: the client
they share, the number of calls of `ec2.New` so far, and the place of every
goroutine. -/
structure conns.Goroutines (N : Nat) where
  client : conns.BingoCloudClient
  constructed : Nat
  point : Fin N → conns.Point

/-- The state in which every goroutine is about to call `EC2Client`. -/
def conns.Goroutines.start (N : Nat) (c : conns.BingoCloudClient) (constructed : Nat) :
    conns.Goroutines N :=
  { client := c, constructed := constructed, point := fun _ => conns.Point.line63 }

/-- Goroutine `g` runs its next statement of `EC2Client` (`conns/client.go`,
lines 60-79).  A call of `RLock` or `Lock` that has to wait leaves the state as
it is, and so does a goroutine that has returned.  `RLock` waits for a writer
that holds the lock and not for one that is waiting for it, so that the
interleavings include all those that `sync.RWMutex` allows. -/
def conns.Goroutines.step {N : Nat} (s : conns.Goroutines N) (g : Fin N) : conns.Goroutines N :=
  match s.point g with
  -- line 63
  | .line63 =>
    match s.client.ec2ClientLock.RLock with
    | none => s
    | some lock =>
      { client := { s.client with ec2ClientLock := lock }
        constructed := s.constructed
        point := Function.update s.point g conns.Point.line64 }
  -- line 64
  | .line64 =>
    { client := s.client
      constructed := s.constructed
      point := Function.update s.point g
        (if s.client.ec2Client ≠ none then conns.Point.line65 else conns.Point.line68) }
  -- line 65
  | .line65 =>
    { client := s.client
      constructed := s.constructed
      point := Function.update s.point g conns.Point.line66 }
  -- line 66: the result is evaluated
  | .line66 =>
    { client := s.client
      constructed := s.constructed
      point := Function.update s.point g (conns.Point.deferred65 s.client.ec2Client) }
  -- the call deferred on line 65
  | .deferred65 result =>
    { client := { s.client with ec2ClientLock := s.client.ec2ClientLock.RUnlock }
      constructed := s.constructed
      point := Function.update s.point g (conns.Point.returned result) }
  -- line 68
  | .line68 =>
    { client := { s.client with ec2ClientLock := s.client.ec2ClientLock.RUnlock }
      constructed := s.constructed
      point := Function.update s.point g conns.Point.line71 }
  -- line 71
  | .line71 =>
    match s.client.ec2ClientLock.Lock with
    | none => s
    | some lock =>
      { client := { s.client with ec2ClientLock := lock }
        constructed := s.constructed
        point := Function.update s.point g conns.Point.line72 }
  -- line 72
  | .line72 =>
    { client := s.client
      constructed := s.constructed
      point := Function.update s.point g conns.Point.line75 }
  -- line 75
  | .line75 =>
    { client := s.client
      constructed := s.constructed
      point := Function.update s.point g
        (if s.client.ec2Client = none then conns.Point.line76 else conns.Point.line78) }
  -- line 76: the call of `ec2.New`
  | .line76 =>
    { client := s.client
      constructed := s.constructed + 1
      point := Function.update s.point g
        (conns.Point.line76store (ec2.New s.client.Session s.constructed)) }
  -- line 76: the assignment
  | .line76store built =>
    { client := { s.client with ec2Client := some built }
      constructed := s.constructed
      point := Function.update s.point g conns.Point.line78 }
  -- line 78: the result is evaluated
  | .line78 =>
    { client := s.client
      constructed := s.constructed
      point := Function.update s.point g (conns.Point.deferred72 s.client.ec2Client) }
  -- the call deferred on line 72
  | .deferred72 result =>
    { client := { s.client with ec2ClientLock := s.client.ec2ClientLock.Unlock }
      constructed := s.constructed
      point := Function.update s.point g (conns.Point.returned result) }
  | .returned _ => s

/-- An interleaving is a schedule, the list of the goroutines in the order in
which they run one statement each. -/
def conns.Goroutines.run {N : Nat} (schedule : List (Fin N)) (s : conns.Goroutines N) :
    conns.Goroutines N :=
  schedule.foldl conns.Goroutines.step s

/-- The places at which a goroutine holds the write lock. -/
def conns.Point.holdsWrite : conns.Point → Bool
  | .line72 | .line75 | .line76 | .line76store _ | .line78 | .deferred72 _ => true
  | _ => false

/-- The places at which a goroutine holds a read lock. -/
def conns.Point.holdsRead : conns.Point → Bool
  | .line64 | .line65 | .line66 | .deferred65 _ | .line68 => true
  | _ => false

/-- The largest number of statements a goroutine at this place still runs. -/
def conns.Point.remaining : conns.Point → Nat
  | .line63 => 10
  | .line64 => 9
  | .line68 => 8
  | .line71 => 7
  | .line72 => 6
  | .line75 => 5
  | .line76 => 4
  | .line76store _ => 3
  | .line65 => 3
  | .line66 => 2
  | .line78 => 2
  | .deferred65 _ => 1
  | .deferred72 _ => 1
  | .returned _ => 0

/-- The statements that all goroutines together still run at most. -/
def conns.Goroutines.remaining {N : Nat} (s : conns.Goroutines N) : Nat :=
  Finset.univ.sum fun g => (s.point g).remaining

/-- What a goroutine at this place knows, when `built` is the client that the
first call of `ec2.New` returns and `before` the number of constructions
before the goroutines started. -/
def conns.Point.sound (built : EC2Ptr) (before : Nat) (cache : Option EC2Ptr)
    (constructed : Nat) : conns.Point → Prop
  | .line65 | .line66 | .line78 => cache = some built
  | .deferred65 result | .deferred72 result | .returned result =>
    result = some built ∧ cache = some built
  | .line76 => cache = none ∧ constructed = before
  | .line76store new => cache = none ∧ new = built ∧ constructed = before + 1
  | _ => True

/-- The invariant of the goroutines that were started on the client `c` after
`before` constructions. -/
structure conns.Goroutines.Inv {N : Nat} (c : conns.BingoCloudClient) (before : Nat)
    (s : conns.Goroutines N) : Prop where
  config : s.client.Config = c.Config
  session : s.client.Session = c.Session
  sound : ∀ g, (s.point g).sound (ec2.New c.Session before) before s.client.ec2Client
    s.constructed
  cache : ∀ h, s.client.ec2Client = some h →
    h = ec2.New c.Session before ∧ s.constructed = before + 1
  count : s.client.ec2Client = none →
    s.constructed = before ∨ ∃ g h, s.point g = conns.Point.line76store h
  excl : ∀ g g', (s.point g).holdsWrite = true → (s.point g').holdsWrite = true → g = g'
  writer : s.client.ec2ClientLock.writer = true ↔ ∃ g, (s.point g).holdsWrite = true
  readers : ∃ S : Finset (Fin N), (∀ g, g ∈ S ↔ (s.point g).holdsRead = true) ∧
    s.client.ec2ClientLock.readers = S.card

/-! ## The instance resource that the provider registers -/

/-- Modelled from the spec: the resource behind `NewInstanceResource` of package
`internal/service/ec2`.  `ServicePackage.FrameworkResources`
(`service_package.go`, lines 17-24) hands it to `BingoCloudProvider.Resources`
(`provider.go`, lines 151-157), and its source file is missing.  In the spec
"the reconciler holds an immutable reference to its Client Cache". -/
structure service.ec2.InstanceResource where
  client : Option conns.BingoCloudClient
deriving DecidableEq

/-- Modelled from the spec: `Configure` of the missing resource of package
`internal/service/ec2`.  In the spec "the client handle and connection context
are handed to each resource reconciler by the host at configuration time", and
the reference to the Client Cache is "acquired once": the resource keeps the
client cache that the provider hands out.  The nil check and the diagnostic for
a value of another type are those of `InstanceResource.Configure` of package
`provider` (lines 75-91). -/
def service.ec2.InstanceResource.Configure (r : service.ec2.InstanceResource)
    (providerData : ProviderData) (diags : Diagnostics) :
    service.ec2.InstanceResource × Diagnostics :=
  match providerData with
  | .nil => (r, diags)
  | .connsClient client => ({ client := client }, diags)
  | rejected =>
    (r, diags.AddError "意外的资源配置类型"
      ("期望 *BingoCloudClient，得到: " ++ rejected.typeName ++ "。请向 provider 开发者报告此问题。"))

/-- Modelled from the spec: how the missing resource of package
`internal/service/ec2` comes by the client for its API calls.  In the spec "the
Reconciler obtains its service client from the Client Cache, issues API
calls": a call of `EC2Client` on the client cache that the resource holds.  The
result is the handle, the resource with the cache as the call leaves it, and
the count of constructions; it is `none` for a resource without a client cache
and when a lock call has to wait. -/
def service.ec2.InstanceResource.serviceClient (r : service.ec2.InstanceResource)
    (constructed : Nat) : Option (Option EC2Ptr × service.ec2.InstanceResource × Nat) :=
  match r.client with
  | none => none
  | some cache =>
    match cache.EC2Client constructed with
    | none => none
    | some called => some (called.1, { client := some called.2.1 }, called.2.2)

/-! ## Scenarios of the client cache -/

/-- The client that `conns.NewBingoCloudClient` builds for the example. -/
def sampleCache : conns.BingoCloudClient :=
  { Config :=
      { Endpoint := some "https://cloud.example:8773"
        Region := some "default"
        Credentials := ("AKIDEXAMPLE", "secret")
        DisableSSL := some false
        S3ForcePathStyle := some true
        HTTPClient := none }
    Session :=
      { Config :=
          { Endpoint := some "https://cloud.example:8773"
            Region := some "default"
            Credentials := ("AKIDEXAMPLE", "secret")
            DisableSSL := some false
            S3ForcePathStyle := some true
            HTTPClient := none } }
    ec2Client := none
    ec2ClientLock := { readers := 0, writer := false } }

/-- An interleaving of three goroutines in which every one of them finds the
cache empty on line 64 before any of them asks for the write lock: goroutine 1
gets the lock first, while goroutines 0 and 2 have to wait on line 71; it
constructs the client and returns; then goroutine 0 and goroutine 2 take the
lock in turn and find the cache filled on line 75. -/
def contendedSchedule : List (Fin 3) :=
  [0, 1, 2, 0, 1, 2, 0, 1, 2,
   1, 0, 2,
   1, 1, 0, 1, 1, 2, 1, 1,
   0, 0, 0, 0, 0,
   2, 2, 2, 2, 2]

/-! # Properties -/

/-! ## Diagnostics -/

@[simp] theorem Diagnostics.Append_nil (ds : Diagnostics) : Diagnostics.Append ds [] = ds := rfl

theorem Diagnostics.not_mem_of_noError {ds : Diagnostics} (h : Diagnostics.HasError ds = false)
    {d : Diagnostic} (hd : d.severity = Severity.error) : d ∉ ds := by
  intro hmem
  have : Diagnostics.HasError ds = true := by
    simp only [Diagnostics.HasError, List.any_eq_true, decide_eq_true_eq]
    exact ⟨d, hmem, hd⟩
  rw [h] at this
  exact Bool.noConfusion this

theorem Diagnostics.AddError_of_noError {ds : Diagnostics} (h : Diagnostics.HasError ds = false)
    (s t : String) :
    Diagnostics.AddError ds s t
      = ds ++ [{ severity := Severity.error, summary := s, detail := t }] := by
  have hn : ({ severity := Severity.error, summary := s, detail := t } : Diagnostic) ∉ ds :=
    Diagnostics.not_mem_of_noError h rfl
  simp [Diagnostics.AddError, Diagnostics.Append, hn]

theorem Diagnostics.HasError_Append_singleton (ds : Diagnostics) (d : Diagnostic)
    (hd : d.severity = Severity.error) : Diagnostics.HasError (Diagnostics.Append ds [d]) = true := by
  unfold Diagnostics.Append
  by_cases hm : d ∈ ds
  · simp only [hm, if_true, Diagnostics.Append_nil]
    simp only [Diagnostics.HasError, List.any_eq_true, decide_eq_true_eq]
    exact ⟨_, hm, hd⟩
  · simp [hm, Diagnostics.HasError, hd]

theorem Diagnostics.HasError_AddError (ds : Diagnostics) (s t : String) :
    Diagnostics.HasError (Diagnostics.AddError ds s t) = true :=
  Diagnostics.HasError_Append_singleton ds _ rfl

/-! ## Decoding framework values -/

theorem allKnown_map_known {α : Type} (xs : List α) :
    allKnown (xs.map TfValue.known) = some xs := by
  induction xs with
  | nil => rfl
  | cons x xs ih => simp [allKnown, ih]

theorem allKnownValues_map_known (xs : List (String × String)) :
    allKnownValues (xs.map (fun kv => (kv.1, TfValue.known kv.2))) = some xs := by
  induction xs with
  | nil => rfl
  | cons x xs ih => simp [allKnownValues, ih]

theorem ElementsAs_cases {α : Type} (l : TfValue (List (TfValue α))) :
    (ElementsAs l).2 = [] ∨ (ElementsAs l).2 = [conversionError] := by
  unfold ElementsAs
  cases l with
  | null => simp
  | unknown => simp
  | known es => cases h : allKnown es <;> simp [h]

theorem MapElementsAs_cases (m : TfValue (List (String × TfValue String))) :
    (MapElementsAs m).2 = [] ∨ (MapElementsAs m).2 = [conversionError] := by
  unfold MapElementsAs
  cases m with
  | null => simp
  | unknown => simp
  | known es => cases h : allKnownValues es <;> simp [h]

theorem ListValueFrom_snd {α : Type} (s : GoSlice α) : (ListValueFrom s).2 = [] := by
  cases s <;> rfl

/-! ## The request-building part of Create -/

theorem Create.prepare_error {plan : InstanceResourceModel} {ds ds1 : Diagnostics}
    (h : Create.prepare plan ds = Except.error ds1) : Diagnostics.HasError ds1 = true := by
  unfold Create.prepare at h
  simp only [ListValueFrom_snd, Diagnostics.Append_nil] at h
  generalize (!plan.SecurityGroupIDs.IsNull && !plan.SecurityGroupIDs.IsUnknown) = sup at h
  generalize (!plan.Tags.IsNull) = tg at h
  cases sup <;> cases tg <;>
    simp only [Bool.true_and, Bool.false_and, if_true, if_false, Bool.false_eq_true] at h <;>
    split_ifs at h <;> cases h <;> assumption

theorem Create.prepare_ok {plan : InstanceResourceModel} {ds : Diagnostics}
    {p : Create.Prepared} (h : Create.prepare plan ds = Except.ok p)
    (hds : Diagnostics.HasError ds = false) :
    p.diags = ds ∧
    p.plan =
      { plan with
        MinCount := if plan.MinCount.IsNull then TfValue.known 1 else plan.MinCount
        BlockDeviceMappings :=
          (ListValueFrom ((ElementsAs plan.BlockDeviceMappings).1.map
            (fun _ => (Create.blockDevices 0
              ((ElementsAs plan.BlockDeviceMappings).1.getD [])).2))).1 } ∧
    (ElementsAs plan.BlockDeviceMappings).2 = [] := by
  unfold Create.prepare at h
  simp only [ListValueFrom_snd, Diagnostics.Append_nil] at h
  have hce : ∀ es : Diagnostics, es = [] ∨ es = [conversionError] →
      (ds.Append es).HasError = false → es = [] := by
    intro es hes hno
    rcases hes with rfl | rfl
    · rfl
    · rw [Diagnostics.HasError_Append_singleton ds _ rfl] at hno
      cases hno
  by_cases h1 : (ds.Append (ElementsAs plan.BlockDeviceMappings).2).HasError = true
  · rw [if_pos h1] at h
    cases h
  · rw [if_neg h1] at h
    have hb := hce _ (ElementsAs_cases plan.BlockDeviceMappings) (by simpa using h1)
    simp only [hb, Diagnostics.Append_nil, hds] at h
    rcases ElementsAs_cases plan.SecurityGroupIDs with hs | hs <;>
    rcases MapElementsAs_cases plan.Tags with ht | ht <;>
    cases hsup : (!plan.SecurityGroupIDs.IsNull && !plan.SecurityGroupIDs.IsUnknown) <;>
    cases htag : (!plan.Tags.IsNull) <;>
    simp [hsup, htag, hs, ht, hds, Diagnostics.HasError_Append_singleton ds conversionError rfl] at h <;>
    subst h <;>
    simp [hb, hds] <;>
    cases hm : plan.MinCount.IsNull <;> simp [hm]

theorem Except.ok_of_ite_error {ε α : Type} {c : Prop} [Decidable c] {e : ε}
    {x : Except ε α} {p : α} (h : (if c then Except.error e else x) = Except.ok p) :
    x = Except.ok p := by
  split_ifs at h
  exact h

theorem Create.prepare_runInput {plan : InstanceResourceModel} {ds : Diagnostics}
    {p : Create.Prepared} (h : Create.prepare plan ds = Except.ok p) :
    p.runInput.MinCount = some (if plan.MinCount.IsNull then 1 else plan.MinCount.ValueInt64) ∧
    p.runInput.MaxCount = some (if plan.MinCount.IsNull then 1 else plan.MinCount.ValueInt64) ∧
    p.runInput.BlockDeviceMappings
      = (Create.blockDevices 0 ((ElementsAs plan.BlockDeviceMappings).1.getD [])).1 ∧
    p.runInput.TagSpecifications
      = (if (Create.nameTag plan ++
              (if plan.Tags.IsNull then [] else Create.userTags (MapElementsAs plan.Tags).1)).length > 0
          then [some { ResourceType := some "instance",
                       Tags := Create.nameTag plan ++
                         (if plan.Tags.IsNull then []
                          else Create.userTags (MapElementsAs plan.Tags).1) }]
          else []) := by
  unfold Create.prepare at h
  simp only [ListValueFrom_snd, Diagnostics.Append_nil] at h
  have h := Except.ok_of_ite_error (Except.ok_of_ite_error (Except.ok_of_ite_error h))
  cases h
  cases hm : plan.MinCount.IsNull <;> cases htag : plan.Tags.IsNull <;> simp

/-! ## Create as a whole -/

theorem Create.of_prepared {r : InstanceResource} {req : PlanRequest} {resp : Response}
    {c : BingoCloudClient} {p : Create.Prepared}
    (hds : Diagnostics.HasError resp.Diagnostics = false) (hc : r.client = some c)
    (hp : Create.prepare req.Plan resp.Diagnostics = Except.ok p) :
    InstanceResource.Create r req resp =
      match c.EC2Client.RunInstancesWithContext p.runInput with
      | .error err =>
        Outcome.returned
          { Diagnostics := resp.Diagnostics ++
              [{ severity := Severity.error, summary := "创建实例失败",
                 detail := "无法创建实例: " ++ err.Error }]
            State := resp.State }
          [ApiCall.runInstances p.runInput]
      | .ok result =>
        match result.Instances with
        | [] =>
          Outcome.returned
            { Diagnostics := resp.Diagnostics ++
                [{ severity := Severity.error, summary := "创建实例失败",
                   detail := "API 返回空实例列表" }]
              State := resp.State }
            [ApiCall.runInstances p.runInput]
        | none :: _ => Outcome.panicked [ApiCall.runInstances p.runInput]
        | some created :: _ =>
          match c.EC2Client.WaitUntilInstanceRunningWithContext
              { InstanceIds := [created.InstanceId] } with
          | some err =>
            Outcome.returned
              { Diagnostics := resp.Diagnostics ++
                  [{ severity := Severity.error, summary := "等待实例运行失败",
                     detail := "实例创建成功但未能进入运行状态: " ++ err.Error }]
                State := resp.State }
              [ApiCall.runInstances p.runInput,
                ApiCall.waitUntilInstanceRunning { InstanceIds := [created.InstanceId] }]
          | none =>
            match c.EC2Client.DescribeInstancesWithContext
                { InstanceIds := [created.InstanceId] } with
            | .error err =>
              Outcome.returned
                { Diagnostics := resp.Diagnostics ++
                    [{ severity := Severity.error, summary := "读取实例详情失败",
                       detail := "实例创建成功但无法读取详细信息: " ++ err.Error }]
                  State := resp.State }
                [ApiCall.runInstances p.runInput,
                  ApiCall.waitUntilInstanceRunning { InstanceIds := [created.InstanceId] },
                  ApiCall.describeInstances { InstanceIds := [created.InstanceId] }]
            | .ok describeResult =>
              match Create.fillComputed
                  { p.plan with ID := TfValue.known (aws.StringValue created.InstanceId) }
                  resp.Diagnostics describeResult with
              | none =>
                Outcome.panicked
                  [ApiCall.runInstances p.runInput,
                    ApiCall.waitUntilInstanceRunning { InstanceIds := [created.InstanceId] },
                    ApiCall.describeInstances { InstanceIds := [created.InstanceId] }]
              | some filled =>
                Outcome.returned { Diagnostics := filled.2, State := some filled.1 }
                  [ApiCall.runInstances p.runInput,
                    ApiCall.waitUntilInstanceRunning { InstanceIds := [created.InstanceId] },
                    ApiCall.describeInstances { InstanceIds := [created.InstanceId] }] := by
  have hd := (Create.prepare_ok hp hds).1
  unfold InstanceResource.Create
  simp only [hds, hc, hp, hd, Diagnostics.AddError_of_noError hds]
  rfl

theorem Create.run_call {r : InstanceResource} {req : PlanRequest} {resp : Response}
    {input : RunInstancesInput}
    (h : ApiCall.runInstances input ∈ (InstanceResource.Create r req resp).calls) :
    Diagnostics.HasError resp.Diagnostics = false ∧
      ∃ c p, r.client = some c ∧
        Create.prepare req.Plan resp.Diagnostics = Except.ok p ∧ input = p.runInput := by
  cases hds : Diagnostics.HasError resp.Diagnostics with
  | true => simp [InstanceResource.Create, hds, Outcome.calls] at h
  | false =>
    refine ⟨rfl, ?_⟩
    cases hp : Create.prepare req.Plan resp.Diagnostics with
    | error ds => simp [InstanceResource.Create, hds, hp, Outcome.calls] at h
    | ok p =>
      cases hc : r.client with
      | none => simp [InstanceResource.Create, hds, hp, hc, Outcome.calls] at h
      | some c =>
        refine ⟨c, p, rfl, rfl, ?_⟩
        rw [Create.of_prepared hds hc hp] at h
        revert h
        split
        · simp [Outcome.calls]
        · split
          · simp [Outcome.calls]
          · simp [Outcome.calls]
          · split
            · simp [Outcome.calls]
            · split
              · simp [Outcome.calls]
              · split <;> simp [Outcome.calls]

theorem Create.fillComputed_frame {plan st : InstanceResourceModel} {ds ds1 : Diagnostics}
    {dres : DescribeInstancesOutput}
    (h : Create.fillComputed plan ds dres = some (st, ds1)) :
    ds1 = ds ∧ st.MinCount = plan.MinCount ∧ st.BlockDeviceMappings = plan.BlockDeviceMappings ∧
      st.InstanceName = plan.InstanceName ∧ st.Tags = plan.Tags ∧ st.ID = plan.ID := by
  unfold Create.fillComputed at h
  simp only [ListValueFrom_snd, Diagnostics.Append_nil] at h
  repeat' split at h
  all_goals first
    | (cases h; done)
    | (cases h; simp)

theorem Create.returned_ok {r : InstanceResource} {req : PlanRequest} {resp resp1 : Response}
    {calls : List ApiCall}
    (h : InstanceResource.Create r req resp = Outcome.returned resp1 calls)
    (hok : Diagnostics.HasError resp1.Diagnostics = false) :
    ∃ c p created rest dres st,
      r.client = some c ∧ Diagnostics.HasError resp.Diagnostics = false ∧
      Create.prepare req.Plan resp.Diagnostics = Except.ok p ∧
      c.EC2Client.RunInstancesWithContext p.runInput
        = Except.ok { Instances := some created :: rest } ∧
      c.EC2Client.WaitUntilInstanceRunningWithContext { InstanceIds := [created.InstanceId] }
        = none ∧
      c.EC2Client.DescribeInstancesWithContext { InstanceIds := [created.InstanceId] }
        = Except.ok dres ∧
      Create.fillComputed { p.plan with ID := TfValue.known (aws.StringValue created.InstanceId) }
        resp.Diagnostics dres = some (st, resp1.Diagnostics) ∧
      resp1.State = some st ∧
      calls = [ApiCall.runInstances p.runInput,
        ApiCall.waitUntilInstanceRunning { InstanceIds := [created.InstanceId] },
        ApiCall.describeInstances { InstanceIds := [created.InstanceId] }] := by
  cases hds : Diagnostics.HasError resp.Diagnostics with
  | true =>
    simp only [InstanceResource.Create, hds, if_true] at h
    cases h
    rw [hds] at hok
    cases hok
  | false =>
    cases hp : Create.prepare req.Plan resp.Diagnostics with
    | error ds =>
      simp only [InstanceResource.Create, hds, hp] at h
      simp at h
      obtain ⟨rfl, -⟩ := h
      rw [Create.prepare_error hp] at hok
      cases hok
    | ok p =>
      cases hc : r.client with
      | none => simp [InstanceResource.Create, hds, hp, hc] at h
      | some c =>
        rw [Create.of_prepared hds hc hp] at h
        have herr : ∀ d : Diagnostic, d.severity = Severity.error →
            resp1.Diagnostics = resp.Diagnostics ++ [d] → False := by
          intro d hd he
          rw [he] at hok
          simp [Diagnostics.HasError, hd] at hok
        cases hr : c.EC2Client.RunInstancesWithContext p.runInput with
        | error e =>
          simp only [hr] at h
          cases h
          exact (herr _ rfl rfl).elim
        | ok result =>
          obtain ⟨insts⟩ := result
          simp only [hr] at h
          match insts, hr, h with
          | [], _, h =>
            cases h
            exact (herr _ rfl rfl).elim
          | none :: _, _, h => cases h
          | some created :: rest, hr, h =>
            simp only [] at h
            cases hw : c.EC2Client.WaitUntilInstanceRunningWithContext
                { InstanceIds := [created.InstanceId] } with
            | some e =>
              simp only [hw] at h
              cases h
              exact (herr _ rfl rfl).elim
            | none =>
              simp only [hw] at h
              cases hd : c.EC2Client.DescribeInstancesWithContext
                  { InstanceIds := [created.InstanceId] } with
              | error e =>
                simp only [hd] at h
                cases h
                exact (herr _ rfl rfl).elim
              | ok dres =>
                simp only [hd] at h
                cases hf : Create.fillComputed
                    { p.plan with ID := TfValue.known (aws.StringValue created.InstanceId) }
                    resp.Diagnostics dres with
                | none =>
                  simp only [hf] at h
                  cases h
                | some filled =>
                  simp only [hf] at h
                  cases h
                  exact ⟨c, p, created, rest, dres, filled.1, rfl, rfl, rfl, hr, hw, hd, hf, rfl, rfl⟩


/-! ## Replica count -/

/-- C1 (the code at the failing input): when `min_count` arrives unknown, which
is how the framework passes an omitted optional and computed attribute,
`Create` sends 0 as both `MinCount` and `MaxCount` and persists `min_count`
still unknown, not 1. -/
theorem Create_min_count_unknown :
    ∃ input st waitAndDescribe,
      InstanceResource.Create sampleResource
          { Plan := { samplePlan with MinCount := TfValue.unknown } } freshResponse
        = Outcome.returned { Diagnostics := [], State := some st }
            (ApiCall.runInstances input :: waitAndDescribe) ∧
      input.MinCount = some 0 ∧ input.MaxCount = some 0 ∧ st.MinCount = TfValue.unknown :=
  ⟨_, _, _, rfl, rfl, rfl, rfl⟩

/-- The replica count when the plan has it null or known: every request
`Create` sends carries 1, resp. the supplied count, as `MinCount` and
`MaxCount`, and a successful `Create` persists that count as a known value. -/
theorem Create.min_count_of_null_or_known (r : InstanceResource) (req : PlanRequest)
    (resp : Response) (n : Int)
    (hm : req.Plan.MinCount = TfValue.null ∧ n = 1 ∨ req.Plan.MinCount = TfValue.known n) :
    (∀ input, ApiCall.runInstances input ∈ (InstanceResource.Create r req resp).calls →
      input.MinCount = some n ∧ input.MaxCount = some n) ∧
    (∀ resp1 calls, InstanceResource.Create r req resp = Outcome.returned resp1 calls →
      Diagnostics.HasError resp1.Diagnostics = false →
      ∃ st, resp1.State = some st ∧ st.MinCount = TfValue.known n) := by
  constructor
  · intro input hin
    obtain ⟨-, c, p, -, hp, rfl⟩ := Create.run_call hin
    obtain ⟨h1, h2, -⟩ := Create.prepare_runInput hp
    rw [h1, h2]
    rcases hm with ⟨hm, rfl⟩ | hm <;> simp [hm, TfValue.IsNull, TfValue.ValueInt64]
  · intro resp1 calls h hok
    obtain ⟨c, p, created, rs, dres, st, -, hds, hp, -, -, -, hf, hst, -⟩ :=
      Create.returned_ok h hok
    refine ⟨st, hst, ?_⟩
    rw [(Create.fillComputed_frame hf).2.1, (Create.prepare_ok hp hds).2.1]
    rcases hm with ⟨hm, rfl⟩ | hm <;> simp [hm, TfValue.IsNull]

/-! ## Block devices -/

theorem Create.blockDevices_succ (i : Nat) (l : List BlockDeviceMappingModel) :
    Create.blockDevices (i + 1) l =
      (l.map (fun e => some
          { DeviceName := some e.DeviceName.ValueString
            Ebs := some
              { VolumeSize := some e.VolumeSize.ValueInt64
                VolumeType := some e.VolumeType.ValueString
                DeleteOnTermination := some true } }), l) := by
  induction l generalizing i with
  | nil => rfl
  | cons e l ih => simp [Create.blockDevices, ih]

theorem ElementsAs_known {α : Type} (xs : List α) :
    ElementsAs (TfValue.known (xs.map TfValue.known)) = (some xs, []) := by
  simp [ElementsAs, allKnown_map_known]

/-- C2: for a block-device list with first entry `e0` and further entries
`rest`, every create request `Create` sends carries one entry per input entry,
in order, with volume size and type as in the input; the device name of entry 0
is `/dev/vda` when the input name is empty and the input name otherwise; and a
successful `Create` persists entry 0 with the device name `/dev/vda` when the
input name was empty, with its own name otherwise, and the other entries
unchanged. -/
theorem Create_boot_device_name (r : InstanceResource) (req : PlanRequest) (resp : Response)
    (e0 : BlockDeviceMappingModel) (rest : List BlockDeviceMappingModel)
    (hb : req.Plan.BlockDeviceMappings
      = TfValue.known (TfValue.known e0 :: rest.map TfValue.known)) :
    (∀ input, ApiCall.runInstances input ∈ (InstanceResource.Create r req resp).calls →
      input.BlockDeviceMappings =
        some
          { DeviceName := some
              (if e0.DeviceName.ValueString = "" then "/dev/vda" else e0.DeviceName.ValueString)
            Ebs := some
              { VolumeSize := some e0.VolumeSize.ValueInt64
                VolumeType := some e0.VolumeType.ValueString
                DeleteOnTermination := some true } }
        :: rest.map (fun e => some
          { DeviceName := some e.DeviceName.ValueString
            Ebs := some
              { VolumeSize := some e.VolumeSize.ValueInt64
                VolumeType := some e.VolumeType.ValueString
                DeleteOnTermination := some true } })) ∧
    (∀ resp1 calls, InstanceResource.Create r req resp = Outcome.returned resp1 calls →
      Diagnostics.HasError resp1.Diagnostics = false →
      ∃ st, resp1.State = some st ∧
        st.BlockDeviceMappings =
          TfValue.known
            (TfValue.known
                { e0 with
                  DeviceName :=
                    if e0.DeviceName.ValueString = "" then TfValue.known "/dev/vda"
                    else e0.DeviceName }
              :: rest.map TfValue.known)) := by
  have hdec : ElementsAs req.Plan.BlockDeviceMappings = (some (e0 :: rest), []) := by
    rw [hb]
    exact ElementsAs_known (e0 :: rest)
  constructor
  · intro input hin
    obtain ⟨-, c, p, -, hp, rfl⟩ := Create.run_call hin
    rw [(Create.prepare_runInput hp).2.2.1, hdec]
    by_cases hn : e0.DeviceName.ValueString = "" <;>
      simp [Create.blockDevices, Create.blockDevices_succ, hn]
  · intro resp1 calls h hok
    obtain ⟨c, p, created, rs, dres, st, -, hds, hp, -, -, -, hf, hst, -⟩ :=
      Create.returned_ok h hok
    refine ⟨st, hst, ?_⟩
    rw [(Create.fillComputed_frame hf).2.2.1, (Create.prepare_ok hp hds).2.1]
    simp only [hdec]
    by_cases hn : e0.DeviceName.ValueString = "" <;>
      simp [Create.blockDevices, Create.blockDevices_succ, hn, ListValueFrom]

/-- C2 at the sample plan, whose boot entry has no device name: `Create`
sends a request and succeeds, and the request and the persisted state carry
`/dev/vda`. -/
theorem Create_boot_device_name_witness :
    (∃ input st rest,
      InstanceResource.Create sampleResource { Plan := samplePlan } freshResponse
        = Outcome.returned { Diagnostics := [], State := some st }
            (ApiCall.runInstances input :: rest)) ∧
    (∀ input, ApiCall.runInstances input ∈
        (InstanceResource.Create sampleResource { Plan := samplePlan } freshResponse).calls →
      input.BlockDeviceMappings =
        [some
          { DeviceName := some "/dev/vda"
            Ebs := some
              { VolumeSize := some 20
                VolumeType := some "gp2"
                DeleteOnTermination := some true } }]) ∧
    (∀ resp1 calls,
      InstanceResource.Create sampleResource { Plan := samplePlan } freshResponse
        = Outcome.returned resp1 calls →
      Diagnostics.HasError resp1.Diagnostics = false →
      ∃ st, resp1.State = some st ∧
        st.BlockDeviceMappings =
          TfValue.known
            [TfValue.known
              { VolumeSize := TfValue.known 20
                VolumeType := TfValue.known "gp2"
                DeviceName := TfValue.known "/dev/vda" }]) :=
  ⟨⟨_, _, _, rfl⟩,
    Create_boot_device_name sampleResource { Plan := samplePlan } freshResponse
      { VolumeSize := TfValue.known 20, VolumeType := TfValue.known "gp2",
        DeviceName := TfValue.unknown } [] rfl⟩


/-! ## Read: the absent signal -/

/-- C3: when the describe call fails with a remote error whose code is
`InvalidInstanceID.NotFound`, or succeeds with no reservation, or with a first
reservation that has no instance, `Read` issues that one call and returns with
the resource removed from the state and the diagnostics as on entry, so that no
error is reported. -/
theorem Read_absent (c : BingoCloudClient) (req : StateRequest) (resp : Response)
    (hds : Diagnostics.HasError resp.Diagnostics = false)
    (h : (∃ text, c.EC2Client.DescribeInstancesWithContext
            { InstanceIds := [some req.State.ID.ValueString] }
          = Except.error (GoError.awsErr "InvalidInstanceID.NotFound" text)) ∨
        c.EC2Client.DescribeInstancesWithContext
            { InstanceIds := [some req.State.ID.ValueString] }
          = Except.ok { Reservations := [] } ∨
        (∃ rest, c.EC2Client.DescribeInstancesWithContext
            { InstanceIds := [some req.State.ID.ValueString] }
          = Except.ok { Reservations := some { Instances := [] } :: rest })) :
    ∃ resp1,
      InstanceResource.Read { client := some c } req resp
        = Outcome.returned resp1
            [ApiCall.describeInstances { InstanceIds := [some req.State.ID.ValueString] }] ∧
      resp1.State = none ∧ resp1.Diagnostics = resp.Diagnostics ∧
      Diagnostics.HasError resp1.Diagnostics = false := by
  refine ⟨{ Diagnostics := resp.Diagnostics, State := none }, ?_, rfl, rfl, hds⟩
  rcases h with ⟨text, h⟩ | h | ⟨rest, h⟩ <;>
    simp [InstanceResource.Read, hds, h, isNotFoundError]

/-- C3 at a remote API that answers `InvalidInstanceID.NotFound` for the
tracked instance of the example. -/
theorem Read_absent_witness :
    ∃ resp1,
      InstanceResource.Read { client := some { EC2Client := notFoundEC2 } }
          { State := sampleState } trackedResponse
        = Outcome.returned resp1
            [ApiCall.describeInstances { InstanceIds := [some "i-abc123"] }] ∧
      resp1.State = none ∧ resp1.Diagnostics = [] ∧
      Diagnostics.HasError resp1.Diagnostics = false :=
  Read_absent { EC2Client := notFoundEC2 } { State := sampleState } trackedResponse rfl
    (Or.inl ⟨_, rfl⟩)

/-! ## Create: failures -/

/-- C7: when the create call that `Create` issues returns an error, or
succeeds with an empty instance list, `Create` returns with exactly one more
diagnostic, an error with summary `创建实例失败`; the state of the response is
the one on entry; and the create call is the only remote call issued. -/
theorem Create_failed_persists_nothing (c : BingoCloudClient) (req : PlanRequest)
    (resp : Response) (input : RunInstancesInput)
    (hcall : ApiCall.runInstances input ∈
      (InstanceResource.Create { client := some c } req resp).calls)
    (hfail : (∃ err, c.EC2Client.RunInstancesWithContext input = Except.error err) ∨
      c.EC2Client.RunInstancesWithContext input = Except.ok { Instances := [] }) :
    ∃ detail,
      InstanceResource.Create { client := some c } req resp
        = Outcome.returned
            { Diagnostics := resp.Diagnostics ++
                [{ severity := Severity.error, summary := "创建实例失败", detail := detail }]
              State := resp.State }
            [ApiCall.runInstances input] := by
  obtain ⟨hds, c1, p, hc, hp, rfl⟩ := Create.run_call hcall
  cases hc
  rw [Create.of_prepared hds rfl hp]
  rcases hfail with ⟨err, he⟩ | he
  · refine ⟨"无法创建实例: " ++ err.Error, ?_⟩
    simp only [he]
  · refine ⟨"API 返回空实例列表", ?_⟩
    simp only [he]

/-- C7 at a remote API that rejects the create call: one error diagnostic,
the null state of the fresh response kept, one remote call. -/
theorem Create_failed_persists_nothing_witness :
    ∃ detail input,
      InstanceResource.Create { client := some { EC2Client := rejectingEC2 } }
          { Plan := samplePlan } freshResponse
        = Outcome.returned
            { Diagnostics :=
                [{ severity := Severity.error, summary := "创建实例失败", detail := detail }]
              State := none }
            [ApiCall.runInstances input] :=
  let ⟨detail, h⟩ :=
    Create_failed_persists_nothing { EC2Client := rejectingEC2 } { Plan := samplePlan }
      freshResponse _ (List.mem_cons_self _ _) (Or.inl ⟨_, rfl⟩)
  ⟨detail, _, h⟩


/-- C8: take one run of `Create` in which the create call is rejected or
returns an empty list, and another in which the create call returns an
instance but the readiness wait fails, or the wait succeeds and the post-create
describe fails.  Each run ends with exactly one more diagnostic, an error, and
the summaries of the two differ. -/
theorem Create_not_ready_distinct
    (cA : BingoCloudClient) (reqA : PlanRequest) (respA : Response) (inputA : RunInstancesInput)
    (hcallA : ApiCall.runInstances inputA ∈
      (InstanceResource.Create { client := some cA } reqA respA).calls)
    (hfailA : (∃ err, cA.EC2Client.RunInstancesWithContext inputA = Except.error err) ∨
      cA.EC2Client.RunInstancesWithContext inputA = Except.ok { Instances := [] })
    (cB : BingoCloudClient) (reqB : PlanRequest) (respB : Response) (inputB : RunInstancesInput)
    (created : Instance) (rest : List (Option Instance))
    (hcallB : ApiCall.runInstances inputB ∈
      (InstanceResource.Create { client := some cB } reqB respB).calls)
    (hrunB : cB.EC2Client.RunInstancesWithContext inputB
      = Except.ok { Instances := some created :: rest })
    (hfailB :
      (∃ err, cB.EC2Client.WaitUntilInstanceRunningWithContext
          { InstanceIds := [created.InstanceId] } = some err) ∨
      (cB.EC2Client.WaitUntilInstanceRunningWithContext
          { InstanceIds := [created.InstanceId] } = none ∧
        ∃ err, cB.EC2Client.DescribeInstancesWithContext
          { InstanceIds := [created.InstanceId] } = Except.error err)) :
    ∃ dA dB callsA callsB,
      InstanceResource.Create { client := some cA } reqA respA
        = Outcome.returned { Diagnostics := respA.Diagnostics ++ [dA], State := respA.State }
            callsA ∧
      InstanceResource.Create { client := some cB } reqB respB
        = Outcome.returned { Diagnostics := respB.Diagnostics ++ [dB], State := respB.State }
            callsB ∧
      dA.severity = Severity.error ∧ dB.severity = Severity.error ∧
      dA.summary = "创建实例失败" ∧ dB.summary ≠ dA.summary := by
  obtain ⟨hdsA, c1, pA, hcA, hpA, rfl⟩ := Create.run_call hcallA
  cases hcA
  obtain ⟨hdsB, c2, pB, hcB, hpB, rfl⟩ := Create.run_call hcallB
  cases hcB
  rw [Create.of_prepared hdsA rfl hpA, Create.of_prepared hdsB rfl hpB]
  simp only [hrunB]
  have hne1 : "等待实例运行失败" ≠ "创建实例失败" := by decide
  have hne2 : "读取实例详情失败" ≠ "创建实例失败" := by decide
  rcases hfailA with ⟨errA, hA⟩ | hA <;> rcases hfailB with ⟨errB, hB⟩ | ⟨hB, errB, hB2⟩
  · simp only [hA, hB]
    exact ⟨_, _, _, _, rfl, rfl, rfl, rfl, rfl, hne1⟩
  · simp only [hA, hB, hB2]
    exact ⟨_, _, _, _, rfl, rfl, rfl, rfl, rfl, hne2⟩
  · simp only [hA, hB]
    exact ⟨_, _, _, _, rfl, rfl, rfl, rfl, rfl, hne1⟩
  · simp only [hA, hB, hB2]
    exact ⟨_, _, _, _, rfl, rfl, rfl, rfl, rfl, hne2⟩

/-- C8 at a remote API that rejects the create call and at one on which the
created instance never becomes ready. -/
theorem Create_not_ready_distinct_witness :
    ∃ dA dB callsA callsB,
      InstanceResource.Create { client := some { EC2Client := rejectingEC2 } }
          { Plan := samplePlan } freshResponse
        = Outcome.returned { Diagnostics := [dA], State := none } callsA ∧
      InstanceResource.Create { client := some { EC2Client := neverReadyEC2 } }
          { Plan := samplePlan } freshResponse
        = Outcome.returned { Diagnostics := [dB], State := none } callsB ∧
      dA.severity = Severity.error ∧ dB.severity = Severity.error ∧
      dA.summary = "创建实例失败" ∧ dB.summary ≠ dA.summary :=
  Create_not_ready_distinct
    { EC2Client := rejectingEC2 } { Plan := samplePlan } freshResponse _
    (List.mem_cons_self _ _) (Or.inl ⟨_, rfl⟩)
    { EC2Client := neverReadyEC2 } { Plan := samplePlan } freshResponse _ sampleInstance []
    (List.mem_cons_self _ _) rfl (Or.inl ⟨_, rfl⟩)

/-- C9 (the code at the failing input): the created instance has the id
`i-abc123` and the readiness wait fails with the error `timeout`.  `Create`
issues the wait once and reports one error, whose detail carries the text of
the remote error; neither its summary nor its detail carries the instance
id. -/
theorem Create_wait_failure_lacks_id :
    ∃ input d,
      InstanceResource.Create { client := some { EC2Client := neverReadyEC2 } }
          { Plan := samplePlan } freshResponse
        = Outcome.returned { Diagnostics := [d], State := none }
            [ApiCall.runInstances input,
              ApiCall.waitUntilInstanceRunning { InstanceIds := [some "i-abc123"] }] ∧
      d.detail = "实例创建成功但未能进入运行状态: timeout" ∧
      occursIn "timeout" d.detail = true ∧
      occursIn "i-abc123" d.detail = false ∧ occursIn "i-abc123" d.summary = false :=
  ⟨_, _, rfl, rfl, by decide, by decide, by decide⟩


/-- The failure `Read` reports when the describe call fails with an error
that is not the not-found error: one describe call, one more diagnostic, whose
detail carries the tracked id and the text of the remote error; the state is
the one on entry. -/
theorem Read.describe_failure_names_id (c : BingoCloudClient) (req : StateRequest) (resp : Response)
    (err : GoError) (hds : Diagnostics.HasError resp.Diagnostics = false)
    (hd : c.EC2Client.DescribeInstancesWithContext
        { InstanceIds := [some req.State.ID.ValueString] } = Except.error err)
    (hnf : isNotFoundError err = false) :
    InstanceResource.Read { client := some c } req resp
      = Outcome.returned
          { Diagnostics := resp.Diagnostics ++
              [{ severity := Severity.error, summary := "读取实例失败",
                 detail := "无法读取实例 " ++ req.State.ID.ValueString ++ ": " ++ err.Error }]
            State := resp.State }
          [ApiCall.describeInstances { InstanceIds := [some req.State.ID.ValueString] }] := by
  simp [InstanceResource.Read, hds, hd, hnf, Diagnostics.AddError_of_noError hds]

/-- The failure `Delete` reports when the terminate call fails: one terminate
call, one more diagnostic, whose detail carries the tracked id and the text of
the remote error; the state is the one on entry. -/
theorem Delete.terminate_failure_names_id (c : BingoCloudClient) (req : StateRequest) (resp : Response)
    (err : GoError) (hds : Diagnostics.HasError resp.Diagnostics = false)
    (hd : c.EC2Client.TerminateInstancesWithContext
        { InstanceIds := [some req.State.ID.ValueString] } = Except.error err) :
    InstanceResource.Delete { client := some c } req resp
      = Outcome.returned
          { Diagnostics := resp.Diagnostics ++
              [{ severity := Severity.error, summary := "删除实例失败",
                 detail := "无法删除实例 " ++ req.State.ID.ValueString ++ ": " ++ err.Error }]
            State := resp.State }
          [ApiCall.terminateInstances { InstanceIds := [some req.State.ID.ValueString] }] := by
  simp [InstanceResource.Delete, hds, hd, Diagnostics.AddError_of_noError hds]

/-! ## Addresses -/

/-- C10, counterexample: the tracked private address is
`10.0.0.5` and the describe response reports both addresses as empty strings.
`Read` replaces the tracked private address by the empty string, and `Create`,
on the same describe response, sets both addresses to the empty string. -/
theorem Read_empty_address_overwrites :
    sampleState.PrivateIP = TfValue.known "10.0.0.5" ∧
    (∃ st calls,
      InstanceResource.Read { client := some { EC2Client := emptyAddressEC2 } }
          { State := sampleState } trackedResponse
        = Outcome.returned { Diagnostics := [], State := some st } calls ∧
      st.PrivateIP = TfValue.known "" ∧ st.PublicIP = TfValue.known "") ∧
    (∃ st calls,
      InstanceResource.Create { client := some { EC2Client := emptyAddressEC2 } }
          { Plan := samplePlan } freshResponse
        = Outcome.returned { Diagnostics := [], State := some st } calls ∧
      st.PrivateIP = TfValue.known "" ∧ st.PublicIP = TfValue.known "") :=
  ⟨rfl, ⟨_, _, rfl, rfl, rfl⟩, ⟨_, _, rfl, rfl, rfl⟩⟩

/-! ## Tags -/

theorem GoMap.set_of_not_mem {m : List (String × String)} {k : String} (v : String)
    (h : k ∉ m.map Prod.fst) : GoMap.set m k v = m ++ [(k, v)] := by
  induction m with
  | nil => rfl
  | cons e m ih =>
    obtain ⟨k0, v0⟩ := e
    simp only [List.map_cons, List.mem_cons, not_or] at h
    have hne : ¬ k0 = k := fun he => h.1 he.symm
    simp [GoMap.set, hne, ih h.2]

theorem GoMap.set_keys_sub (m : List (String × String)) (k v : String) :
    ∀ e ∈ GoMap.set m k v, e.1 = k ∨ e.1 ∈ m.map Prod.fst := by
  induction m with
  | nil =>
    intro e he
    simp [GoMap.set] at he
    exact Or.inl (by rw [he])
  | cons e0 m ih =>
    obtain ⟨k0, v0⟩ := e0
    intro e he
    simp only [GoMap.set] at he
    split_ifs at he with hk
    · rcases List.mem_cons.1 he with rfl | he
      · exact Or.inl rfl
      · exact Or.inr (List.mem_cons_of_mem _ (List.mem_map_of_mem _ he))
    · rcases List.mem_cons.1 he with rfl | he
      · exact Or.inr (List.mem_cons_self _ _)
      · rcases ih e he with h | h
        · exact Or.inl h
        · exact Or.inr (List.mem_cons_of_mem _ h)

/-- The loop of `Read` never stores the key `Name` in the tag map. -/
theorem Read.tags_no_name :
    ∀ (tags : List (Option Tag)) (acc res : List (String × String) × TfValue String),
      Read.tags tags acc = some res → (∀ e ∈ acc.1, e.1 ≠ "Name") → ∀ e ∈ res.1, e.1 ≠ "Name" := by
  intro tags
  induction tags with
  | nil =>
    intro acc res h hacc
    simp only [Read.tags] at h
    cases h
    exact hacc
  | cons t tags ih =>
    intro acc res h hacc
    match t, h with
    | none, h => simp [Read.tags] at h
    | some { Key := none, Value := _ }, h =>
      simp only [Read.tags] at h
      exact ih _ _ h hacc
    | some { Key := some _, Value := none }, h =>
      simp only [Read.tags] at h
      exact ih _ _ h hacc
    | some { Key := some key, Value := some value }, h =>
      simp only [Read.tags] at h
      split_ifs at h with hk
      · exact ih _ _ h hacc
      · refine ih _ _ h ?_
        intro e he
        rcases GoMap.set_keys_sub _ _ _ e he with h1 | h1
        · rw [h1]
          exact hk
        · obtain ⟨e1, he1, he2⟩ := List.mem_map.1 h1
          rw [← he2]
          exact hacc e1 he1

/-- The loop of `Read` on tags that all have a key and a value, when the keys
other than `Name` are pairwise different and every `Name` tag has the value
`n`. -/
theorem Read.tags_of_pairs (n : String) :
    ∀ (kvs m : List (String × String)) (nm : TfValue String),
      (∀ kv ∈ kvs, kv.1 = "Name" → kv.2 = n) →
      ((m ++ kvs.filter (fun kv => decide (kv.1 ≠ "Name"))).map Prod.fst).Nodup →
      Read.tags (kvs.map tagOf) (m, nm)
        = some (m ++ kvs.filter (fun kv => decide (kv.1 ≠ "Name")),
            if kvs.any (fun kv => decide (kv.1 = "Name")) then TfValue.known n else nm) := by
  intro kvs
  induction kvs with
  | nil =>
    intro m nm _ _
    simp [Read.tags]
  | cons kv kvs ih =>
    intro m nm hn hnd
    obtain ⟨k, v⟩ := kv
    by_cases hk : k = "Name"
    · subst hk
      have hv : v = n := hn ("Name", v) (List.mem_cons_self _ _) rfl
      subst hv
      have hnd1 : ((m ++ kvs.filter (fun kv => decide (kv.1 ≠ "Name"))).map Prod.fst).Nodup := by
        simpa using hnd
      have := ih m (TfValue.known v) (fun kv hkv => hn kv (List.mem_cons_of_mem _ hkv)) hnd1
      simp [Read.tags, tagOf, this]
    · have hnd1 : (((m ++ [(k, v)]) ++ kvs.filter (fun kv => decide (kv.1 ≠ "Name"))).map
          Prod.fst).Nodup := by
        simpa [hk] using hnd
      have hkm : k ∉ m.map Prod.fst := by
        intro hmem
        simp only [List.filter_cons, hk, ne_eq, not_false_eq_true, decide_True, if_true,
          List.map_append, List.map_cons] at hnd
        have := (List.nodup_append.1 hnd).2.2
        exact this hmem (List.mem_cons_self _ _)
      have := ih (m ++ [(k, v)]) nm (fun kv hkv => hn kv (List.mem_cons_of_mem _ hkv)) hnd1
      have hd : decide (k = "Name") = false := decide_eq_false hk
      simp only [List.map_cons, tagOf, Read.tags, hk, if_false, GoMap.set_of_not_mem v hkm,
        List.any_cons, hd, Bool.false_or, List.filter_cons, ne_eq, not_false_eq_true,
        decide_True, if_true]
      simpa [tagOf] using this


theorem securityGroupIds_isSome {l : List (Option GroupIdentifier)}
    (h : ∀ g ∈ l, g ≠ none) : ∃ ids, securityGroupIds l = some ids := by
  induction l with
  | nil => exact ⟨[], rfl⟩
  | cons g l ih =>
    obtain ⟨ids, hids⟩ := ih (fun g1 hg1 => h g1 (List.mem_cons_of_mem _ hg1))
    match g, h with
    | none, h => exact absurd rfl (h none (List.mem_cons_self _ _))
    | some { GroupId := none }, _ => exact ⟨ids, by simp [securityGroupIds, hids]⟩
    | some { GroupId := some id }, _ => exact ⟨id :: ids, by simp [securityGroupIds, hids]⟩

theorem Read.of_instance {c : BingoCloudClient} {req : StateRequest} {resp : Response}
    {inst : Instance} {insts : List (Option Instance)} {rest : List (Option Reservation)}
    (hds : Diagnostics.HasError resp.Diagnostics = false)
    (hdesc : c.EC2Client.DescribeInstancesWithContext
        { InstanceIds := [some req.State.ID.ValueString] }
      = Except.ok { Reservations := some { Instances := some inst :: insts } :: rest }) :
    InstanceResource.Read { client := some c } req resp =
      match Read.refresh req.State resp.Diagnostics inst with
      | none =>
        Outcome.panicked
          [ApiCall.describeInstances { InstanceIds := [some req.State.ID.ValueString] }]
      | some refreshed =>
        Outcome.returned { Diagnostics := refreshed.2, State := some refreshed.1 }
          [ApiCall.describeInstances { InstanceIds := [some req.State.ID.ValueString] }] := by
  simp only [InstanceResource.Read, hds, hdesc]
  rfl

theorem Read.refresh_tags {state st : InstanceResourceModel} {ds ds1 : Diagnostics}
    {inst : Instance} (hds : Diagnostics.HasError ds = false)
    (h : Read.refresh state ds inst = some (st, ds1)) :
    ds1 = ds ∧ ∃ looped, Read.tags inst.Tags ([], state.InstanceName) = some looped ∧
      st.InstanceName = looped.2 ∧ st.Tags = (MapValueFrom looped.1).1 := by
  unfold Read.refresh at h
  simp only [ListValueFrom_snd, Diagnostics.Append_nil, MapValueFrom, hds] at h
  split at h
  · split at h
    · cases h
    · split at h
      · cases h
      · rename_i looped hl
        cases h
        exact ⟨rfl, looped, hl, rfl, by simp [MapValueFrom]⟩
  · cases h

theorem Read.refresh_isSome (state : InstanceResourceModel) (ds : Diagnostics) {inst : Instance}
    {looped : List (String × String) × TfValue String}
    (hstate : inst.State ≠ none) (hplace : inst.Placement ≠ none)
    (hsg : ∀ g ∈ inst.SecurityGroups, g ≠ none)
    (htag : Read.tags inst.Tags ([], state.InstanceName) = some looped) :
    ∃ st, Read.refresh state ds inst = some (st, ds) := by
  obtain ⟨ids, hids⟩ := securityGroupIds_isSome hsg
  obtain ⟨s, hs⟩ := Option.ne_none_iff_exists'.1 hstate
  obtain ⟨p, hp⟩ := Option.ne_none_iff_exists'.1 hplace
  unfold Read.refresh
  simp only [hs, hp, hids, htag, ListValueFrom_snd, Diagnostics.Append_nil, MapValueFrom]
  exact ⟨_, rfl⟩

theorem pairOf_tagOf (kv : String × String) : pairOf (tagOf kv) = some kv := rfl

theorem map_tagOf_filterMap_pairOf {tags : List (Option Tag)}
    (h : ∀ t ∈ tags, ∃ kv, t = tagOf kv) : (tags.filterMap pairOf).map tagOf = tags := by
  induction tags with
  | nil => rfl
  | cons t tags ih =>
    obtain ⟨kv, rfl⟩ := h t (List.mem_cons_self _ _)
    have := ih (fun t1 ht1 => h t1 (List.mem_cons_of_mem _ ht1))
    simp [List.filterMap_cons, pairOf_tagOf, this]

theorem MapElementsAs_known (T : List (String × String)) :
    MapElementsAs (TfValue.known (T.map (fun kv => (kv.1, TfValue.known kv.2)))) = (T, []) := by
  simp [MapElementsAs, allKnownValues_map_known]

/-- The tag set `Create` sends for a display name `n` and user tags `T`. -/
theorem Create.tagSpecifications {r : InstanceResource} {req : PlanRequest} {resp : Response}
    {input : RunInstancesInput} {n : String} {T : List (String × String)}
    (hn : req.Plan.InstanceName = TfValue.known n)
    (ht : req.Plan.Tags = TfValue.known (T.map (fun kv => (kv.1, TfValue.known kv.2))))
    (hcall : ApiCall.runInstances input ∈ (InstanceResource.Create r req resp).calls) :
    input.TagSpecifications
      = [some { ResourceType := some "instance", Tags := (("Name", n) :: T).map tagOf }] := by
  obtain ⟨-, c, p, -, hp, rfl⟩ := Create.run_call hcall
  rw [(Create.prepare_runInput hp).2.2.2]
  simp only [Create.nameTag, hn, ht, MapElementsAs_known, TfValue.IsNull, TfValue.ValueString,
    Create.userTags]
  simp [tagOf]

/-- C4: let `Create` send a request for a plan with display name `n` and user
tags `T`, where `T` has pairwise different keys, none of them `Name`.  If the
describe response that `Read` receives reports, in any order, exactly the tags
of that request, on an instance whose state, placement and security groups are
not nil, then `Read` returns a state whose display name is `n` and whose tag
mapping has exactly the entries of `T`. -/
theorem tag_round_trip (n : String) (T : List (String × String))
    (hkeys : (T.map Prod.fst).Nodup) (hname : "Name" ∉ T.map Prod.fst)
    (r : InstanceResource) (req : PlanRequest) (resp : Response)
    (hn : req.Plan.InstanceName = TfValue.known n)
    (ht : req.Plan.Tags = TfValue.known (T.map (fun kv => (kv.1, TfValue.known kv.2))))
    (input : RunInstancesInput) (spec : TagSpecification)
    (hcall : ApiCall.runInstances input ∈ (InstanceResource.Create r req resp).calls)
    (hspec : input.TagSpecifications = [some spec])
    (c : BingoCloudClient) (rreq : StateRequest) (rresp : Response)
    (hds : Diagnostics.HasError rresp.Diagnostics = false)
    (inst : Instance) (insts : List (Option Instance)) (rest : List (Option Reservation))
    (hdesc : c.EC2Client.DescribeInstancesWithContext
        { InstanceIds := [some rreq.State.ID.ValueString] }
      = Except.ok { Reservations := some { Instances := some inst :: insts } :: rest })
    (hremote : inst.Tags.Perm spec.Tags)
    (hstate : inst.State ≠ none) (hplace : inst.Placement ≠ none)
    (hsg : ∀ g ∈ inst.SecurityGroups, g ≠ none) :
    ∃ st tm,
      InstanceResource.Read { client := some c } rreq rresp
        = Outcome.returned { Diagnostics := rresp.Diagnostics, State := some st }
            [ApiCall.describeInstances { InstanceIds := [some rreq.State.ID.ValueString] }] ∧
      st.InstanceName = TfValue.known n ∧
      st.Tags = TfValue.known tm ∧
      tm.Perm (T.map (fun kv => (kv.1, TfValue.known kv.2))) := by
  -- the tags of the request
  have hreq := Create.tagSpecifications hn ht hcall
  rw [hspec] at hreq
  have hst : spec.Tags = (("Name", n) :: T).map tagOf := by
    simp only [List.cons.injEq, Option.some.injEq, and_true] at hreq
    rw [hreq]
  rw [hst] at hremote
  -- the remote tags as key/value pairs
  have hall : ∀ t ∈ inst.Tags, ∃ kv, t = tagOf kv := by
    intro t htm
    obtain ⟨kv, -, hkv⟩ := List.mem_map.1 (hremote.mem_iff.1 htm)
    exact ⟨kv, hkv.symm⟩
  have hpairs := map_tagOf_filterMap_pairOf hall
  have hperm : (inst.Tags.filterMap pairOf).Perm (("Name", n) :: T) := by
    have := hremote.filterMap pairOf
    rwa [List.filterMap_map, show pairOf ∘ tagOf = some from funext pairOf_tagOf,
      List.filterMap_some] at this
  have hT : ∀ kv ∈ T, kv.1 ≠ "Name" := by
    intro kv hkv he
    exact hname (he ▸ List.mem_map_of_mem Prod.fst hkv)
  have hfilterT : (("Name", n) :: T).filter (fun kv => decide (kv.1 ≠ "Name")) = T := by
    simp only [List.filter_cons, ne_eq, not_true_eq_false, decide_False, Bool.false_eq_true,
      if_false]
    exact List.filter_eq_self.2 (fun kv hkv => by simpa using hT kv hkv)
  have hfperm : ((inst.Tags.filterMap pairOf).filter (fun kv => decide (kv.1 ≠ "Name"))).Perm T := by
    have := hperm.filter (fun kv => decide (kv.1 ≠ "Name"))
    rwa [hfilterT] at this
  have hloop := Read.tags_of_pairs n (inst.Tags.filterMap pairOf) [] rreq.State.InstanceName
    (by
      intro kv hkv hk
      rcases List.mem_cons.1 (hperm.mem_iff.1 hkv) with rfl | hmem
      · rfl
      · exact absurd hk (hT kv hmem))
    (by
      rw [List.nil_append]
      exact ((hfperm.map Prod.fst).nodup_iff).2 hkeys)
  rw [hpairs] at hloop
  have hany : (inst.Tags.filterMap pairOf).any (fun kv => decide (kv.1 = "Name")) = true := by
    rw [List.any_eq_true]
    exact ⟨("Name", n), hperm.mem_iff.2 (List.mem_cons_self _ _), by simp⟩
  rw [hany, List.nil_append] at hloop
  -- the state `Read` leaves
  obtain ⟨st, hrefresh⟩ :=
    Read.refresh_isSome rreq.State rresp.Diagnostics hstate hplace hsg hloop
  obtain ⟨-, looped, hl, hname1, htags1⟩ := Read.refresh_tags hds hrefresh
  rw [hloop] at hl
  cases hl
  refine ⟨st, _, ?_, hname1, htags1, ?_⟩
  · rw [Read.of_instance hds hdesc, hrefresh]
  · exact hfperm.map _

/-- C4 at the example: display name `test-instance`, tags
`Environment = test`, and a describe response that reports the two request
tags in the other order. -/
theorem tag_round_trip_witness :
    ∃ st tm,
      InstanceResource.Read sampleResource { State := sampleState } trackedResponse
        = Outcome.returned { Diagnostics := [], State := some st }
            [ApiCall.describeInstances { InstanceIds := [some "i-abc123"] }] ∧
      st.InstanceName = TfValue.known "test-instance" ∧
      st.Tags = TfValue.known tm ∧
      tm.Perm [("Environment", TfValue.known "test")] :=
  tag_round_trip "test-instance" [("Environment", "test")] (by decide) (by decide)
    sampleResource { Plan := samplePlan } freshResponse rfl rfl
    _ { ResourceType := some "instance",
        Tags := [some { Key := some "Name", Value := some "test-instance" },
          some { Key := some "Environment", Value := some "test" }] }
    (List.mem_cons_self _ _) rfl
    { EC2Client := sampleEC2 } { State := sampleState } trackedResponse rfl
    sampleInstance [] [] rfl (by decide) (by decide) (by decide) (by decide)


theorem Read.returned_state {r : InstanceResource} {req : StateRequest} {resp resp1 : Response}
    {calls : List ApiCall} {st : InstanceResourceModel}
    (h : InstanceResource.Read r req resp = Outcome.returned resp1 calls)
    (hok : Diagnostics.HasError resp1.Diagnostics = false) (hst : resp1.State = some st) :
    Diagnostics.HasError resp.Diagnostics = false ∧
      ∃ inst, Read.refresh req.State resp.Diagnostics inst = some (st, resp1.Diagnostics) := by
  cases hds : Diagnostics.HasError resp.Diagnostics with
  | true =>
    simp only [InstanceResource.Read, hds, if_true] at h
    cases h
    rw [hds] at hok
    cases hok
  | false =>
    refine ⟨rfl, ?_⟩
    obtain ⟨client⟩ := r
    cases client with
    | none => simp [InstanceResource.Read, hds] at h
    | some c =>
      cases hd : c.EC2Client.DescribeInstancesWithContext
          { InstanceIds := [some req.State.ID.ValueString] } with
      | error e =>
        simp only [InstanceResource.Read, hds, hd, Bool.false_eq_true, if_false] at h
        by_cases hnf : isNotFoundError e = true
        · rw [if_pos hnf] at h
          cases h
          cases hst
        · rw [if_neg hnf] at h
          cases h
          have := Diagnostics.HasError_AddError resp.Diagnostics "读取实例失败"
            ("无法读取实例 " ++ req.State.ID.ValueString ++ ": " ++ e.Error)
          rw [hok] at this
          cases this
      | ok result =>
        obtain ⟨ress⟩ := result
        match ress, hd with
        | [], hd =>
          simp only [InstanceResource.Read, hds, hd, Bool.false_eq_true, if_false] at h
          cases h
          cases hst
        | none :: _, hd =>
          simp only [InstanceResource.Read, hds, hd, Bool.false_eq_true, if_false] at h
          cases h
        | some { Instances := [] } :: _, hd =>
          simp only [InstanceResource.Read, hds, hd, Bool.false_eq_true, if_false] at h
          cases h
          cases hst
        | some { Instances := none :: _ } :: _, hd =>
          simp only [InstanceResource.Read, hds, hd, Bool.false_eq_true, if_false] at h
          cases h
        | some { Instances := some inst :: insts } :: rest, hd =>
          rw [Read.of_instance hds hd] at h
          cases hr : Read.refresh req.State resp.Diagnostics inst with
          | none =>
            simp only [hr] at h
            cases h
          | some refreshed =>
            simp only [hr] at h
            cases h
            cases hst
            exact ⟨inst, hr⟩

/-- C5, counterexample: the user tag mapping has the key `Name`; the state a
successful `Create` persists has that entry in its tag mapping. -/
theorem Create_persists_name_tag :
    ∃ st calls,
      InstanceResource.Create sampleResource
          { Plan := { samplePlan with Tags := TfValue.known [("Name", TfValue.known "other")] } }
          freshResponse
        = Outcome.returned { Diagnostics := [], State := some st } calls ∧
      st.Tags = TfValue.known [("Name", TfValue.known "other")] :=
  ⟨_, _, rfl, rfl⟩

/-- C5, amended: the state persisted by a successful `Read` has a known tag
mapping without the key `Name`, and the state persisted by a successful
`Create` has the tag mapping of the plan, unchanged. -/
theorem name_tag_only_from_plan :
    (∀ (r : InstanceResource) (req : StateRequest) (resp resp1 : Response)
        (calls : List ApiCall) (st : InstanceResourceModel),
      InstanceResource.Read r req resp = Outcome.returned resp1 calls →
      Diagnostics.HasError resp1.Diagnostics = false → resp1.State = some st →
      ∃ tm, st.Tags = TfValue.known tm ∧ ∀ e ∈ tm, e.1 ≠ "Name") ∧
    (∀ (r : InstanceResource) (req : PlanRequest) (resp resp1 : Response)
        (calls : List ApiCall) (st : InstanceResourceModel),
      InstanceResource.Create r req resp = Outcome.returned resp1 calls →
      Diagnostics.HasError resp1.Diagnostics = false → resp1.State = some st →
      st.Tags = req.Plan.Tags) := by
  constructor
  · intro r req resp resp1 calls st h hok hst
    obtain ⟨hds, inst, hr⟩ := Read.returned_state h hok hst
    obtain ⟨-, looped, hl, -, ht⟩ := Read.refresh_tags hds hr
    refine ⟨_, ht, ?_⟩
    intro e he
    obtain ⟨e1, he1, rfl⟩ := List.mem_map.1 he
    exact Read.tags_no_name _ _ _ hl (by simp) e1 he1
  · intro r req resp resp1 calls st h hok hst
    obtain ⟨c, p, created, rs, dres, st1, -, hds, hp, -, -, -, hf, hst1, -⟩ :=
      Create.returned_ok h hok
    rw [hst] at hst1
    cases hst1
    rw [(Create.fillComputed_frame hf).2.2.2.2.1, (Create.prepare_ok hp hds).2.1]

/-- C5, amended, at the example: the remote tag set has a `Name` tag, and the
tag mapping `Read` persists has none; `Create` persists the tags of the sample
plan. -/
theorem name_tag_only_from_plan_witness :
    (∃ st calls,
      InstanceResource.Read sampleResource { State := sampleState } trackedResponse
        = Outcome.returned { Diagnostics := [], State := some st } calls ∧
      ∃ tm, st.Tags = TfValue.known tm ∧ ∀ e ∈ tm, e.1 ≠ "Name") ∧
    (∃ st calls,
      InstanceResource.Create sampleResource { Plan := samplePlan } freshResponse
        = Outcome.returned { Diagnostics := [], State := some st } calls ∧
      st.Tags = TfValue.known [("Environment", TfValue.known "test")]) :=
  ⟨⟨_, _, rfl, name_tag_only_from_plan.1 sampleResource { State := sampleState }
      trackedResponse _ _ _ rfl rfl rfl⟩,
    ⟨_, _, rfl, name_tag_only_from_plan.2 sampleResource { Plan := samplePlan }
      freshResponse _ _ _ rfl rfl rfl⟩⟩


theorem Create.fillComputed_groups {plan st : InstanceResourceModel} {ds ds1 : Diagnostics}
    {dres : DescribeInstancesOutput} (hds : Diagnostics.HasError ds = false)
    (h : Create.fillComputed plan ds dres = some (st, ds1)) :
    ((∃ l, plan.SecurityGroupIDs = TfValue.known l) → st.SecurityGroupIDs = plan.SecurityGroupIDs) ∧
    (∀ res inst insts rest, dres.Reservations = some res :: rest →
      res.Instances = some inst :: insts → ∃ l, st.SecurityGroupIDs = TfValue.known l) ∧
    ((dres.Reservations = [] ∨
        ∃ res rest, dres.Reservations = some res :: rest ∧ res.Instances = []) →
      st.SecurityGroupIDs = plan.SecurityGroupIDs) := by
  unfold Create.fillComputed at h
  simp only [ListValueFrom_snd, Diagnostics.Append_nil, hds] at h
  cases hsg : plan.SecurityGroupIDs <;>
    simp only [hsg, TfValue.IsNull, TfValue.IsUnknown] at h <;>
    (repeat' split at h) <;>
    first
      | (cases h; done)
      | (cases h
         refine ⟨?_, ?_, ?_⟩ <;> intros <;> simp_all [ListValueFrom])

theorem TfValue.known_of_ValueString_ne {v : TfValue String} (h : v.ValueString ≠ "") :
    v = TfValue.known v.ValueString := by
  cases v with
  | null => exact absurd rfl h
  | unknown => exact absurd rfl h
  | known s => rfl

/-- C6, counterexample: the user supplied neither a display name nor security
groups nor device names.  After a successful `Create` the display name and the
device name of the second volume are still unknown; so is the security-group
list when the post-create describe returns no reservation. -/
theorem Create_leaves_computed_unresolved :
    (∃ st calls,
      InstanceResource.Create sampleResource { Plan := omittedPlan } freshResponse
        = Outcome.returned { Diagnostics := [], State := some st } calls ∧
      st.InstanceName = TfValue.unknown ∧
      st.BlockDeviceMappings =
        TfValue.known
          [TfValue.known
            { VolumeSize := TfValue.known 20
              VolumeType := TfValue.known "gp2"
              DeviceName := TfValue.known "/dev/vda" },
           TfValue.known
            { VolumeSize := TfValue.known 100
              VolumeType := TfValue.known "io1"
              DeviceName := TfValue.unknown }]) ∧
    (∃ st calls,
      InstanceResource.Create { client := some { EC2Client := emptyDescribeEC2 } }
          { Plan := omittedPlan } freshResponse
        = Outcome.returned { Diagnostics := [], State := some st } calls ∧
      st.SecurityGroupIDs = TfValue.unknown) :=
  ⟨⟨_, _, rfl, rfl, rfl⟩, ⟨_, _, rfl, rfl⟩⟩

/-- C6, amended: in the state persisted by a successful `Create`, the replica
count is known when the plan's is null or known; the device name of the boot
entry is known and not empty; the security-group list is the plan's when the
plan's is known, is known when the post-create describe returns an instance,
and is the plan's when that describe returns no instance.  The display name and
the other block-device entries are persisted as the plan gives them. -/
theorem Create_resolves_computed (c : BingoCloudClient) (req : PlanRequest)
    (resp resp1 : Response) (calls : List ApiCall) (st : InstanceResourceModel)
    (h : InstanceResource.Create { client := some c } req resp = Outcome.returned resp1 calls)
    (hok : Diagnostics.HasError resp1.Diagnostics = false) (hst : resp1.State = some st) :
    (req.Plan.MinCount ≠ TfValue.unknown → ∃ n, st.MinCount = TfValue.known n) ∧
    (∀ (e0 : BlockDeviceMappingModel) (rest : List BlockDeviceMappingModel),
      req.Plan.BlockDeviceMappings = TfValue.known (TfValue.known e0 :: rest.map TfValue.known) →
      ∃ name, name ≠ "" ∧
        st.BlockDeviceMappings =
          TfValue.known
            (TfValue.known { e0 with DeviceName := TfValue.known name }
              :: rest.map TfValue.known)) ∧
    ((∃ l, req.Plan.SecurityGroupIDs = TfValue.known l) →
      st.SecurityGroupIDs = req.Plan.SecurityGroupIDs) ∧
    (∀ (dinput : DescribeInstancesInput) (res : Reservation) (inst : Instance)
        (insts : List (Option Instance)) (rest : List (Option Reservation)),
      ApiCall.describeInstances dinput ∈ calls →
      c.EC2Client.DescribeInstancesWithContext dinput
        = Except.ok { Reservations := some res :: rest } →
      res.Instances = some inst :: insts →
      ∃ l, st.SecurityGroupIDs = TfValue.known l) ∧
    (∀ (dinput : DescribeInstancesInput) (dres : DescribeInstancesOutput),
      ApiCall.describeInstances dinput ∈ calls →
      c.EC2Client.DescribeInstancesWithContext dinput = Except.ok dres →
      (dres.Reservations = [] ∨
        ∃ res rest, dres.Reservations = some res :: rest ∧ res.Instances = []) →
      st.SecurityGroupIDs = req.Plan.SecurityGroupIDs) ∧
    st.InstanceName = req.Plan.InstanceName := by
  obtain ⟨c1, p, created, rs, dres, st1, hc, hds, hp, -, -, hdesc, hf, hst1, hcalls⟩ :=
    Create.returned_ok h hok
  cases hc
  rw [hst] at hst1
  cases hst1
  obtain ⟨-, hplan, -⟩ := Create.prepare_ok hp hds
  obtain ⟨-, hmin, hbdm, hnm, -, -⟩ := Create.fillComputed_frame hf
  obtain ⟨hsg1, hsg2, hsg3⟩ := Create.fillComputed_groups hds hf
  refine ⟨?_, ?_, ?_, ?_, ?_, ?_⟩
  · intro hne
    rw [hmin, hplan]
    cases hm : req.Plan.MinCount with
    | null => exact ⟨1, by simp [TfValue.IsNull]⟩
    | unknown => exact absurd hm hne
    | known n => exact ⟨n, by simp [TfValue.IsNull]⟩
  · intro e0 rest hb
    have hdec : ElementsAs req.Plan.BlockDeviceMappings = (some (e0 :: rest), []) := by
      rw [hb]
      exact ElementsAs_known (e0 :: rest)
    rw [hbdm, hplan]
    simp only [hdec]
    by_cases hn : e0.DeviceName.ValueString = ""
    · exact ⟨"/dev/vda", by decide,
        by simp [Create.blockDevices, Create.blockDevices_succ, hn, ListValueFrom]⟩
    · refine ⟨e0.DeviceName.ValueString, hn, ?_⟩
      have hk := TfValue.known_of_ValueString_ne hn
      simp [Create.blockDevices, Create.blockDevices_succ, hn, ListValueFrom]
      obtain ⟨vs, vt, dn⟩ := e0
      simpa using hk
  · intro hl
    rw [hsg1 (by simpa [hplan] using hl), hplan]
  · intro dinput res inst insts rest hmem hd hres
    rw [hcalls] at hmem
    simp only [List.mem_cons, List.mem_singleton, reduceCtorEq, false_or,
      ApiCall.describeInstances.injEq, List.not_mem_nil, or_false] at hmem
    subst hmem
    rw [hdesc] at hd
    cases hd
    exact hsg2 res inst insts rest rfl hres
  · intro dinput dres1 hmem hd hnone
    rw [hcalls] at hmem
    simp only [List.mem_cons, List.mem_singleton, reduceCtorEq, false_or,
      ApiCall.describeInstances.injEq, List.not_mem_nil, or_false] at hmem
    subst hmem
    rw [hdesc] at hd
    cases hd
    rw [hsg3 hnone, hplan]
  · rw [hnm, hplan]

/-- C6, amended, at the example, where the describe returns an instance with
one security group. -/
theorem Create_resolves_computed_witness :
    (∃ n, sampleState.MinCount = TfValue.known n) ∧
    (∃ name, name ≠ "" ∧
      sampleState.BlockDeviceMappings =
        TfValue.known
          [TfValue.known
            { VolumeSize := TfValue.known 20
              VolumeType := TfValue.known "gp2"
              DeviceName := TfValue.known name }]) ∧
    (∃ l, sampleState.SecurityGroupIDs = TfValue.known l) ∧
    sampleState.InstanceName = TfValue.known "test-instance" :=
  have h := Create_resolves_computed { EC2Client := sampleEC2 } { Plan := samplePlan }
    freshResponse { Diagnostics := [], State := some sampleState }
    [ApiCall.runInstances
        { ImageId := some "img-1"
          InstanceType := some "m1.small"
          SubnetId := some "subnet-1"
          MinCount := some 1
          MaxCount := some 1
          InstanceName := some "test-instance"
          Password := some "Test@123456"
          BlockDeviceMappings :=
            [some
              { DeviceName := some "/dev/vda"
                Ebs := some
                  { VolumeSize := some 20
                    VolumeType := some "gp2"
                    DeleteOnTermination := some true } }]
          SecurityGroupIds := none
          KeyName := none
          UserData := none
          TagSpecifications :=
            [some
              { ResourceType := some "instance"
                Tags :=
                  [some { Key := some "Name", Value := some "test-instance" },
                    some { Key := some "Environment", Value := some "test" }] }] },
      ApiCall.waitUntilInstanceRunning { InstanceIds := [some "i-abc123"] },
      ApiCall.describeInstances { InstanceIds := [some "i-abc123"] }]
    sampleState (by decide) rfl rfl
  ⟨h.1 (by decide),
    h.2.1 ⟨TfValue.known 20, TfValue.known "gp2", TfValue.unknown⟩ [] rfl,
    h.2.2.2.1 { InstanceIds := [some "i-abc123"] } { Instances := [some sampleInstance] }
      sampleInstance [] [] (by decide) rfl rfl,
    h.2.2.2.2.2⟩


theorem Read.tags_isSome :
    ∀ (tags : List (Option Tag)) (acc : List (String × String) × TfValue String),
      (∀ t ∈ tags, t ≠ none) → ∃ res, Read.tags tags acc = some res := by
  intro tags
  induction tags with
  | nil => exact fun acc _ => ⟨acc, rfl⟩
  | cons t tags ih =>
    intro acc h
    have hrest : ∀ t1 ∈ tags, t1 ≠ none := fun t1 ht1 => h t1 (List.mem_cons_of_mem _ ht1)
    match t, h with
    | none, h => exact absurd rfl (h none (List.mem_cons_self _ _))
    | some { Key := none, Value := _ }, _ =>
      simp only [Read.tags]
      exact ih _ hrest
    | some { Key := some _, Value := none }, _ =>
      simp only [Read.tags]
      exact ih _ hrest
    | some { Key := some key, Value := some value }, _ =>
      simp only [Read.tags]
      split_ifs
      · exact ih _ hrest
      · exact ih _ hrest

theorem Read.refresh_addresses {state st : InstanceResourceModel} {ds ds1 : Diagnostics}
    {inst : Instance} (h : Read.refresh state ds inst = some (st, ds1)) :
    st.PrivateIP =
        (match inst.PrivateIpAddress with
          | some a => TfValue.known a
          | none => state.PrivateIP) ∧
      st.PublicIP =
        (match inst.PublicIpAddress with
          | some a => TfValue.known a
          | none => state.PublicIP) := by
  unfold Read.refresh at h
  simp only [ListValueFrom_snd, Diagnostics.Append_nil, MapValueFrom] at h
  split at h
  · split at h
    · cases h
    · split at h
      · cases h
      · cases h
        cases inst.PrivateIpAddress <;> cases inst.PublicIpAddress <;> simp [aws.StringValue]
  · cases h

theorem Create.fillComputed_addresses {plan st : InstanceResourceModel} {ds ds1 : Diagnostics}
    {dres : DescribeInstancesOutput} {res : Reservation} {inst : Instance}
    {insts : List (Option Instance)} {rest : List (Option Reservation)}
    (h : Create.fillComputed plan ds dres = some (st, ds1))
    (hres : dres.Reservations = some res :: rest) (hinst : res.Instances = some inst :: insts) :
    st.PrivateIP =
        (match inst.PrivateIpAddress with
          | some a => TfValue.known a
          | none => plan.PrivateIP) ∧
      st.PublicIP =
        (match inst.PublicIpAddress with
          | some a => TfValue.known a
          | none => plan.PublicIP) := by
  unfold Create.fillComputed at h
  simp only [ListValueFrom_snd, Diagnostics.Append_nil, hres, hinst] at h
  split at h
  · split at h
    · split at h
      · cases h
      · cases h
        cases inst.PrivateIpAddress <;> cases inst.PublicIpAddress <;> simp [aws.StringValue]
    · cases h
      cases inst.PrivateIpAddress <;> cases inst.PublicIpAddress <;> simp [aws.StringValue]
  · cases h

/-- C10, amended: `Read`, on a describe response with an instance whose
state, placement, security groups and tags are not nil, returns a state whose
private (resp. public) address is the one the API reports whenever the API
reports one, the empty string included, and is the previously tracked address
when the API reports none.  The state persisted by a successful `Create` whose
post-create describe returns an instance has its addresses set the same way,
from the instance and the plan. -/
theorem address_overwritten_when_reported :
    (∀ (c : BingoCloudClient) (req : StateRequest) (resp : Response) (inst : Instance)
        (insts : List (Option Instance)) (rest : List (Option Reservation)),
      Diagnostics.HasError resp.Diagnostics = false →
      c.EC2Client.DescribeInstancesWithContext
          { InstanceIds := [some req.State.ID.ValueString] }
        = Except.ok { Reservations := some { Instances := some inst :: insts } :: rest } →
      inst.State ≠ none → inst.Placement ≠ none →
      (∀ g ∈ inst.SecurityGroups, g ≠ none) → (∀ t ∈ inst.Tags, t ≠ none) →
      ∃ st,
        InstanceResource.Read { client := some c } req resp
          = Outcome.returned { Diagnostics := resp.Diagnostics, State := some st }
              [ApiCall.describeInstances { InstanceIds := [some req.State.ID.ValueString] }] ∧
        st.PrivateIP =
          (match inst.PrivateIpAddress with
            | some a => TfValue.known a
            | none => req.State.PrivateIP) ∧
        st.PublicIP =
          (match inst.PublicIpAddress with
            | some a => TfValue.known a
            | none => req.State.PublicIP)) ∧
    (∀ (c : BingoCloudClient) (req : PlanRequest) (resp resp1 : Response)
        (calls : List ApiCall) (st : InstanceResourceModel)
        (dinput : DescribeInstancesInput) (inst : Instance)
        (insts : List (Option Instance)) (rest : List (Option Reservation)),
      InstanceResource.Create { client := some c } req resp = Outcome.returned resp1 calls →
      Diagnostics.HasError resp1.Diagnostics = false → resp1.State = some st →
      ApiCall.describeInstances dinput ∈ calls →
      c.EC2Client.DescribeInstancesWithContext dinput
        = Except.ok { Reservations := some { Instances := some inst :: insts } :: rest } →
      st.PrivateIP =
          (match inst.PrivateIpAddress with
            | some a => TfValue.known a
            | none => req.Plan.PrivateIP) ∧
        st.PublicIP =
          (match inst.PublicIpAddress with
            | some a => TfValue.known a
            | none => req.Plan.PublicIP)) := by
  constructor
  · intro c req resp inst insts rest hds hdesc hstate hplace hsg htag
    obtain ⟨looped, hl⟩ := Read.tags_isSome inst.Tags ([], req.State.InstanceName) htag
    obtain ⟨st, hr⟩ :=
      Read.refresh_isSome req.State resp.Diagnostics hstate hplace hsg hl
    refine ⟨st, ?_, Read.refresh_addresses hr⟩
    rw [Read.of_instance hds hdesc, hr]
  · intro c req resp resp1 calls st dinput inst insts rest h hok hst hmem hd
    obtain ⟨c1, p, created, rs, dres, st1, hc, hds, hp, -, -, hdesc, hf, hst1, hcalls⟩ :=
      Create.returned_ok h hok
    cases hc
    rw [hst] at hst1
    cases hst1
    rw [hcalls] at hmem
    simp only [List.mem_cons, List.mem_singleton, reduceCtorEq, false_or,
      ApiCall.describeInstances.injEq, List.not_mem_nil, or_false] at hmem
    subst hmem
    rw [hdesc] at hd
    cases hd
    have := Create.fillComputed_addresses hf rfl rfl
    rw [(Create.prepare_ok hp hds).2.1] at this
    exact this

/-- C10, amended, at the example: the API reports the private address
`10.0.0.5` and no public address; `Read` keeps the tracked public address and
`Create` leaves the public address as the plan has it. -/
theorem address_overwritten_when_reported_witness :
    (∃ st,
      InstanceResource.Read sampleResource { State := sampleState } trackedResponse
        = Outcome.returned { Diagnostics := [], State := some st }
            [ApiCall.describeInstances { InstanceIds := [some "i-abc123"] }] ∧
      st.PrivateIP = TfValue.known "10.0.0.5" ∧ st.PublicIP = sampleState.PublicIP) ∧
    (sampleState.PrivateIP = TfValue.known "10.0.0.5" ∧
      sampleState.PublicIP = samplePlan.PublicIP) :=
  ⟨address_overwritten_when_reported.1 { EC2Client := sampleEC2 } { State := sampleState }
      trackedResponse sampleInstance [] [] rfl rfl (by decide) (by decide) (by decide)
      (by decide),
    address_overwritten_when_reported.2 { EC2Client := sampleEC2 } { Plan := samplePlan }
      freshResponse { Diagnostics := [], State := some sampleState } _ sampleState
      { InstanceIds := [some "i-abc123"] } sampleInstance [] [] rfl rfl rfl
      (List.mem_cons_of_mem _ (List.mem_cons_of_mem _ (List.mem_cons_self _ _))) rfl⟩


/-! ## Read: what is left untouched -/

theorem Read.tags_keeps_name :
    ∀ (tags : List (Option Tag)) (acc res : List (String × String) × TfValue String),
      Read.tags tags acc = some res →
      (∀ t ∈ tags, t.bind Tag.Key ≠ some "Name") → res.2 = acc.2 := by
  intro tags
  induction tags with
  | nil =>
    intro acc res h _
    simp only [Read.tags] at h
    cases h
    rfl
  | cons t tags ih =>
    intro acc res h hno
    have hrest : ∀ t1 ∈ tags, t1.bind Tag.Key ≠ some "Name" :=
      fun t1 ht1 => hno t1 (List.mem_cons_of_mem _ ht1)
    match t, h, hno with
    | none, h, _ => simp [Read.tags] at h
    | some { Key := none, Value := _ }, h, _ =>
      simp only [Read.tags] at h
      exact ih _ _ h hrest
    | some { Key := some _, Value := none }, h, _ =>
      simp only [Read.tags] at h
      exact ih _ _ h hrest
    | some { Key := some key, Value := some value }, h, hno =>
      simp only [Read.tags] at h
      have hk : key ≠ "Name" := by
        intro hk
        exact hno (some { Key := some key, Value := some value }) (List.mem_cons_self _ _)
          (by rw [hk]; rfl)
      rw [if_neg hk] at h
      exact ih (GoMap.set acc.1 key value, acc.2) res h hrest

theorem Read.refresh_frame {state st : InstanceResourceModel} {ds ds1 : Diagnostics}
    {inst : Instance} (h : Read.refresh state ds inst = some (st, ds1)) :
    st.ID = state.ID ∧ st.Password = state.Password ∧
      st.BlockDeviceMappings = state.BlockDeviceMappings ∧ st.MinCount = state.MinCount ∧
      st.UserData = state.UserData ∧
      ∃ looped, Read.tags inst.Tags ([], state.InstanceName) = some looped ∧
        st.InstanceName = looped.2 := by
  unfold Read.refresh at h
  simp only [ListValueFrom_snd, Diagnostics.Append_nil, MapValueFrom] at h
  split at h
  · split at h
    · cases h
    · split at h
      · cases h
      · rename_i looped hl
        cases h
        exact ⟨rfl, rfl, rfl, rfl, rfl, looped, hl, rfl⟩
  · cases h

/-- C11: let the describe call of `Read` return a response whose first
reservation starts with an instance.  Whenever `Read` returns, it has written a
state whose id, password, block-device mappings, replica count and user data
are those of the prior state, and whose display name is the prior one when no
tag of the instance has the key `Name`.  `Read` does return when the state and
the placement of the instance are not nil and its security-group and tag lists
have no nil entry. -/
theorem Read_frame (c : BingoCloudClient) (req : StateRequest) (resp : Response)
    (inst : Instance) (insts : List (Option Instance)) (rest : List (Option Reservation))
    (hds : Diagnostics.HasError resp.Diagnostics = false)
    (hdesc : c.EC2Client.DescribeInstancesWithContext
        { InstanceIds := [some req.State.ID.ValueString] }
      = Except.ok { Reservations := some { Instances := some inst :: insts } :: rest }) :
    (∀ resp1 calls,
      InstanceResource.Read { client := some c } req resp = Outcome.returned resp1 calls →
      ∃ st, resp1.State = some st ∧
        st.ID = req.State.ID ∧ st.Password = req.State.Password ∧
        st.BlockDeviceMappings = req.State.BlockDeviceMappings ∧
        st.MinCount = req.State.MinCount ∧ st.UserData = req.State.UserData ∧
        ((∀ t ∈ inst.Tags, t.bind Tag.Key ≠ some "Name") →
          st.InstanceName = req.State.InstanceName)) ∧
    (inst.State ≠ none → inst.Placement ≠ none →
      (∀ g ∈ inst.SecurityGroups, g ≠ none) → (∀ t ∈ inst.Tags, t ≠ none) →
      ∃ resp1,
        InstanceResource.Read { client := some c } req resp
          = Outcome.returned resp1
              [ApiCall.describeInstances { InstanceIds := [some req.State.ID.ValueString] }]) := by
  constructor
  · intro resp1 calls h
    rw [Read.of_instance hds hdesc] at h
    cases hr : Read.refresh req.State resp.Diagnostics inst with
    | none =>
      simp only [hr] at h
      cases h
    | some refreshed =>
      simp only [hr] at h
      cases h
      obtain ⟨h1, h2, h3, h4, h5, looped, hl, h6⟩ := Read.refresh_frame hr
      refine ⟨refreshed.1, rfl, h1, h2, h3, h4, h5, ?_⟩
      intro hno
      rw [h6]
      exact Read.tags_keeps_name _ _ _ hl hno
  · intro hstate hplace hsg htag
    obtain ⟨looped, hl⟩ := Read.tags_isSome inst.Tags ([], req.State.InstanceName) htag
    obtain ⟨st, hr⟩ := Read.refresh_isSome req.State resp.Diagnostics hstate hplace hsg hl
    exact ⟨_, by rw [Read.of_instance hds hdesc, hr]⟩

/-- C11 at the example with a remote instance that has no `Name` tag: `Read`
returns, and the state it writes keeps the id, the password, the block
devices, the replica count, the user data and the display name. -/
theorem Read_frame_witness :
    (∃ resp1 calls,
      InstanceResource.Read { client := some { EC2Client := namelessEC2 } }
          { State := sampleState } trackedResponse
        = Outcome.returned resp1 calls) ∧
    (∀ resp1 calls,
      InstanceResource.Read { client := some { EC2Client := namelessEC2 } }
          { State := sampleState } trackedResponse
        = Outcome.returned resp1 calls →
      ∃ st, resp1.State = some st ∧
        st.ID = TfValue.known "i-abc123" ∧ st.Password = TfValue.known "Test@123456" ∧
        st.BlockDeviceMappings = sampleState.BlockDeviceMappings ∧
        st.MinCount = TfValue.known 1 ∧ st.UserData = TfValue.null ∧
        st.InstanceName = TfValue.known "test-instance") :=
  ⟨⟨_, _, rfl⟩, fun resp1 calls h =>
    let ⟨st, h0, h1, h2, h3, h4, h5, h6⟩ :=
      (Read_frame { EC2Client := namelessEC2 } { State := sampleState } trackedResponse
        namelessInstance [] [] rfl rfl).1 resp1 calls h
    ⟨st, h0, h1, h2, h3, h4, h5, h6 (by decide)⟩⟩


/-! ## Update -/

/-- C12: `Update` issues no remote call, and when it is entered without an
error diagnostic it returns with the diagnostics unchanged and with the plan
it received as the state. -/
theorem Update_persists_plan (r : InstanceResource) (req : PlanRequest) (resp : Response)
    (hds : Diagnostics.HasError resp.Diagnostics = false) :
    InstanceResource.Update r req resp
      = Outcome.returned { Diagnostics := resp.Diagnostics, State := some req.Plan } [] := by
  simp [InstanceResource.Update, hds]

/-- C12 at the plan of the update test: the persisted state has instance type
`m1.medium` and the tags `Environment = production` and `Updated = true`. -/
theorem Update_persists_plan_witness :
    ∃ st tm,
      InstanceResource.Update sampleResource { Plan := updatedPlan } trackedResponse
        = Outcome.returned { Diagnostics := [], State := some st } [] ∧
      st = updatedPlan ∧
      st.InstanceType = TfValue.known "m1.medium" ∧
      st.Tags = TfValue.known tm ∧
      ("Environment", TfValue.known "production") ∈ tm ∧
      ("Updated", TfValue.known "true") ∈ tm :=
  ⟨updatedPlan, _,
    Update_persists_plan sampleResource { Plan := updatedPlan } trackedResponse rfl,
    rfl, rfl, rfl, by decide, by decide⟩

/-! ## Security groups -/

theorem Create.prepare_groups {plan : InstanceResourceModel} {ds : Diagnostics}
    {p : Create.Prepared} (h : Create.prepare plan ds = Except.ok p) :
    p.runInput.SecurityGroupIds
      = (if (!plan.SecurityGroupIDs.IsNull && !plan.SecurityGroupIDs.IsUnknown) = true then
          some (((ElementsAs plan.SecurityGroupIDs).1.getD []).map some)
        else none) := by
  unfold Create.prepare at h
  simp only [ListValueFrom_snd, Diagnostics.Append_nil] at h
  have h := Except.ok_of_ite_error (Except.ok_of_ite_error (Except.ok_of_ite_error h))
  cases h
  rfl

theorem securityGroupIds_eq_filterMap :
    ∀ (l : List (Option GroupIdentifier)) (ids : List String),
      securityGroupIds l = some ids →
      ids = l.filterMap (fun g => g.bind GroupIdentifier.GroupId) := by
  intro l
  induction l with
  | nil =>
    intro ids h
    simp only [securityGroupIds] at h
    cases h
    rfl
  | cons g l ih =>
    intro ids h
    match g, h with
    | none, h => simp [securityGroupIds] at h
    | some { GroupId := gid }, h =>
      simp only [securityGroupIds] at h
      cases hrest : securityGroupIds l with
      | none => simp [hrest] at h
      | some rest =>
        have := ih rest hrest
        cases gid with
        | none =>
          simp only [hrest] at h
          cases h
          simpa using this
        | some id =>
          simp only [hrest] at h
          cases h
          simp [this]

theorem Create.fillComputed_groups_from_api {plan st : InstanceResourceModel}
    {ds ds1 : Diagnostics} {dres : DescribeInstancesOutput} {res : Reservation}
    {inst : Instance} {insts : List (Option Instance)} {rest : List (Option Reservation)}
    (hds : Diagnostics.HasError ds = false)
    (h : Create.fillComputed plan ds dres = some (st, ds1))
    (hres : dres.Reservations = some res :: rest) (hinst : res.Instances = some inst :: insts)
    (hno : plan.SecurityGroupIDs = TfValue.null ∨ plan.SecurityGroupIDs = TfValue.unknown) :
    st.SecurityGroupIDs =
      TfValue.known
        ((inst.SecurityGroups.filterMap (fun g => g.bind GroupIdentifier.GroupId)).map
          TfValue.known) := by
  unfold Create.fillComputed at h
  have hfrom : (plan.SecurityGroupIDs.IsNull || plan.SecurityGroupIDs.IsUnknown) = true := by
    rcases hno with h1 | h1 <;> simp [h1, TfValue.IsNull, TfValue.IsUnknown]
  simp only [ListValueFrom_snd, Diagnostics.Append_nil, hres, hinst, hfrom, hds] at h
  split at h
  · cases hids : securityGroupIds inst.SecurityGroups with
    | none => simp [hids] at h
    | some ids =>
      simp only [hids] at h
      cases h
      simp [ListValueFrom, securityGroupIds_eq_filterMap _ _ hids]
  · cases h

/-- C13: when the plan has a known security-group list `S`, every create
request `Create` sends carries exactly `S`, and a successful `Create` persists
exactly `S`.  When the plan has the list null or unknown, every create request
carries no security-group ids, and a successful `Create` whose post-create
describe returns an instance persists the non-nil group ids of that instance,
in order. -/
theorem Create_security_groups (c : BingoCloudClient) (req : PlanRequest) (resp : Response) :
    (∀ S : List String, req.Plan.SecurityGroupIDs = TfValue.known (S.map TfValue.known) →
      (∀ input, ApiCall.runInstances input ∈
          (InstanceResource.Create { client := some c } req resp).calls →
        input.SecurityGroupIds = some (S.map some)) ∧
      (∀ resp1 calls,
        InstanceResource.Create { client := some c } req resp = Outcome.returned resp1 calls →
        Diagnostics.HasError resp1.Diagnostics = false →
        ∃ st, resp1.State = some st ∧
          st.SecurityGroupIDs = TfValue.known (S.map TfValue.known))) ∧
    (req.Plan.SecurityGroupIDs = TfValue.null ∨ req.Plan.SecurityGroupIDs = TfValue.unknown →
      (∀ input, ApiCall.runInstances input ∈
          (InstanceResource.Create { client := some c } req resp).calls →
        input.SecurityGroupIds = none) ∧
      (∀ (resp1 : Response) (calls : List ApiCall) (dinput : DescribeInstancesInput)
          (inst : Instance) (insts : List (Option Instance)) (rest : List (Option Reservation)),
        InstanceResource.Create { client := some c } req resp = Outcome.returned resp1 calls →
        Diagnostics.HasError resp1.Diagnostics = false →
        ApiCall.describeInstances dinput ∈ calls →
        c.EC2Client.DescribeInstancesWithContext dinput
          = Except.ok { Reservations := some { Instances := some inst :: insts } :: rest } →
        ∃ st, resp1.State = some st ∧
          st.SecurityGroupIDs =
            TfValue.known
              ((inst.SecurityGroups.filterMap (fun g => g.bind GroupIdentifier.GroupId)).map
                TfValue.known))) := by
  constructor
  · intro S hS
    constructor
    · intro input hin
      obtain ⟨-, c1, p, -, hp, rfl⟩ := Create.run_call hin
      rw [Create.prepare_groups hp, hS, ElementsAs_known]
      simp [TfValue.IsNull, TfValue.IsUnknown]
    · intro resp1 calls h hok
      obtain ⟨c1, p, created, rs, dres, st, -, hds, hp, -, -, -, hf, hst, -⟩ :=
        Create.returned_ok h hok
      refine ⟨st, hst, ?_⟩
      have hplan := (Create.prepare_ok hp hds).2.1
      rw [(Create.fillComputed_groups hds hf).1 ⟨_, by rw [hplan]; exact hS⟩, hplan]
      exact hS
  · intro hno
    constructor
    · intro input hin
      obtain ⟨-, c1, p, -, hp, rfl⟩ := Create.run_call hin
      rw [Create.prepare_groups hp]
      rcases hno with h1 | h1 <;> simp [h1, TfValue.IsNull, TfValue.IsUnknown]
    · intro resp1 calls dinput inst insts rest h hok hmem hd
      obtain ⟨c1, p, created, rs, dres, st, hc, hds, hp, -, -, hdesc, hf, hst, hcalls⟩ :=
        Create.returned_ok h hok
      cases hc
      rw [hcalls] at hmem
      simp only [List.mem_cons, List.mem_singleton, reduceCtorEq, false_or,
        ApiCall.describeInstances.injEq, List.not_mem_nil, or_false] at hmem
      subst hmem
      rw [hdesc] at hd
      cases hd
      refine ⟨st, hst, ?_⟩
      have hplan := (Create.prepare_ok hp hds).2.1
      exact Create.fillComputed_groups_from_api hds hf rfl rfl (by rw [hplan]; exact hno)

/-- C13 at the example: with one security group supplied the request carries
it and the persisted list has length 1; without, the request carries none and
the persisted list is the one group the remote system reports. -/
theorem Create_security_groups_witness :
    (∃ input st rest,
      InstanceResource.Create sampleResource { Plan := suppliedPlan } freshResponse
        = Outcome.returned { Diagnostics := [], State := some st }
            (ApiCall.runInstances input :: rest) ∧
      input.SecurityGroupIds = some [some "sg-12345"] ∧
      ∃ l, st.SecurityGroupIDs = TfValue.known l ∧ l.length = 1) ∧
    (∃ input st rest,
      InstanceResource.Create sampleResource { Plan := samplePlan } freshResponse
        = Outcome.returned { Diagnostics := [], State := some st }
            (ApiCall.runInstances input :: rest) ∧
      input.SecurityGroupIds = none ∧
      st.SecurityGroupIDs = TfValue.known [TfValue.known "sg-default"]) :=
  have hs := (Create_security_groups { EC2Client := sampleEC2 } { Plan := suppliedPlan }
    freshResponse).1 ["sg-12345"] rfl
  have hn := (Create_security_groups { EC2Client := sampleEC2 } { Plan := samplePlan }
    freshResponse).2 (Or.inr rfl)
  ⟨⟨_, _, _, rfl, hs.1 _ (List.mem_cons_self _ _), _, rfl, rfl⟩,
    ⟨_, _, _, rfl, hn.1 _ (List.mem_cons_self _ _), rfl⟩⟩

/-! ## Nil records in the describe response -/

/-- C17 (the code at the failing input): the describe response holds an
instance whose state record is nil.  `Read` panics after its describe call, and
so does `Create` after its post-create describe. -/
theorem Read_panics_on_nil_state :
    InstanceResource.Read { client := some { EC2Client := statelessEC2 } }
        { State := sampleState } trackedResponse
      = Outcome.panicked [ApiCall.describeInstances { InstanceIds := [some "i-abc123"] }] ∧
    ∃ input,
      InstanceResource.Create { client := some { EC2Client := statelessEC2 } }
          { Plan := samplePlan } freshResponse
        = Outcome.panicked
            [ApiCall.runInstances input,
              ApiCall.waitUntilInstanceRunning { InstanceIds := [some "i-abc123"] },
              ApiCall.describeInstances { InstanceIds := [some "i-abc123"] }] :=
  ⟨rfl, _, rfl⟩


theorem securityGroupIds_eq_none_iff (l : List (Option GroupIdentifier)) :
    securityGroupIds l = none ↔ none ∈ l := by
  induction l with
  | nil => simp [securityGroupIds]
  | cons g l ih =>
    match g with
    | none => simp [securityGroupIds]
    | some { GroupId := gid } =>
      simp only [securityGroupIds, List.mem_cons, reduceCtorEq, false_or, ← ih]
      cases securityGroupIds l with
      | none => simp
      | some ids => cases gid <;> simp

theorem Read.tags_eq_none_iff :
    ∀ (tags : List (Option Tag)) (acc : List (String × String) × TfValue String),
      Read.tags tags acc = none ↔ none ∈ tags := by
  intro tags
  induction tags with
  | nil => intro acc; simp [Read.tags]
  | cons t tags ih =>
    intro acc
    match t with
    | none => simp [Read.tags]
    | some { Key := none, Value := _ } =>
      simp only [Read.tags, List.mem_cons, reduceCtorEq, false_or]
      exact ih _
    | some { Key := some _, Value := none } =>
      simp only [Read.tags, List.mem_cons, reduceCtorEq, false_or]
      exact ih _
    | some { Key := some key, Value := some value } =>
      simp only [Read.tags, List.mem_cons, reduceCtorEq, false_or]
      split_ifs
      · exact ih _
      · exact ih _

/-- The shapes of an instance record on which the refresh of `Read` panics:
a nil state, a nil placement, or a nil entry in the security-group list or in
the tag list.  Entries with a nil key, value or group id do not make it
panic. -/
theorem Read.refresh_panics_iff (state : InstanceResourceModel) (ds : Diagnostics)
    (inst : Instance) :
    Read.refresh state ds inst = none ↔
      inst.State = none ∨ inst.Placement = none ∨ none ∈ inst.SecurityGroups ∨
        none ∈ inst.Tags := by
  rw [← securityGroupIds_eq_none_iff, ← Read.tags_eq_none_iff inst.Tags ([], state.InstanceName)]
  unfold Read.refresh
  cases inst.State <;> cases inst.Placement <;> simp
  cases securityGroupIds inst.SecurityGroups <;> simp
  cases Read.tags inst.Tags ([], state.InstanceName) <;> simp


/-! ## Configuration -/

/-- The resource's `Configure` on a pointer to the client of package `conns`:
the type assertion fails, the resource is left as it was and an error is
added. -/
theorem Configure.rejects_conns_client (r : InstanceResource)
    (c : Option conns.BingoCloudClient) (diags : Diagnostics) :
    InstanceResource.Configure r (ProviderData.connsClient c) diags
      = (r, diags.AddError "意外的资源配置类型"
          "期望 *BingoCloudClient，得到: *conns.BingoCloudClient。请向 provider 开发者报告此问题。") := by
  simp only [InstanceResource.Configure, ProviderData.typeName]
  rfl

/-- Whenever the provider's `Configure`, entered without an error, ends
without an error, the resource data it hands out is a pointer to a client of
package `conns`, built by `conns.NewBingoCloudClient`. -/
theorem BingoCloudProvider.Configure_resource_data (getenv : String → String)
    (NewSession : aws.Config → Except GoError Session) (data : BingoCloudProviderModel)
    (resp : ProviderConfigureResponse)
    (hds : Diagnostics.HasError resp.Diagnostics = false)
    (hok : Diagnostics.HasError
      (BingoCloudProvider.Configure getenv NewSession data resp).Diagnostics = false) :
    ∃ client endpoint accessKey secretKey region insecureSkipTLS,
      conns.NewBingoCloudClient NewSession endpoint accessKey secretKey region insecureSkipTLS
        = Except.ok client ∧
      (BingoCloudProvider.Configure getenv NewSession data resp).ResourceData
        = ProviderData.connsClient (some client) := by
  unfold BingoCloudProvider.Configure at hok ⊢
  simp only [hds, Bool.false_eq_true, if_false] at hok ⊢
  split_ifs at hok ⊢ with h1
  · rw [h1] at hok
    cases hok
  · split at hok
    · rw [Diagnostics.HasError_AddError] at hok
      cases hok
    · rename_i client hc
      exact ⟨client, _, _, _, _, _, hc, by simp only [hc]⟩

/-- The resource of package `provider`, which `BingoCloudProvider.Resources`
does not register: were it handed the resource data of the provider configured
from the environment, a pointer to the client built by
`conns.NewBingoCloudClient`, its `Configure` would not accept it.  It reports
the error `意外的资源配置类型` and leaves the resource's client nil, so that a
following `Create` panics before any remote call. -/
theorem Configure_rejects_provider_client :
    ∃ client,
      conns.NewBingoCloudClient sampleNewSession "https://cloud.example:8773" "AKIDEXAMPLE"
          "secret" "default" false
        = Except.ok client ∧
      (BingoCloudProvider.Configure sampleEnv sampleNewSession emptyProviderConfig
          freshProviderResponse).Diagnostics = [] ∧
      (BingoCloudProvider.Configure sampleEnv sampleNewSession emptyProviderConfig
          freshProviderResponse).ResourceData = ProviderData.connsClient (some client) ∧
      (InstanceResource.Configure { client := none }
          (BingoCloudProvider.Configure sampleEnv sampleNewSession emptyProviderConfig
            freshProviderResponse).ResourceData []).2
        = [{ severity := Severity.error
             summary := "意外的资源配置类型"
             detail :=
               "期望 *BingoCloudClient，得到: *conns.BingoCloudClient。请向 provider 开发者报告此问题。" }] ∧
      (InstanceResource.Configure { client := none }
          (BingoCloudProvider.Configure sampleEnv sampleNewSession emptyProviderConfig
            freshProviderResponse).ResourceData []).1.client = none ∧
      InstanceResource.Create
          (InstanceResource.Configure { client := none }
            (BingoCloudProvider.Configure sampleEnv sampleNewSession emptyProviderConfig
              freshProviderResponse).ResourceData []).1
          { Plan := samplePlan } freshResponse
        = Outcome.panicked [] :=
  ⟨_, rfl, rfl, rfl, rfl, rfl, rfl⟩

/-! ## The client cache, one call after the other -/

theorem conns.EC2Client_first (c : conns.BingoCloudClient) (constructed : Nat)
    (hfresh : c.ec2Client = none) (hlock : c.ec2ClientLock = { readers := 0, writer := false }) :
    c.EC2Client constructed
      = some (some (ec2.New c.Session constructed),
          { c with ec2Client := some (ec2.New c.Session constructed) },
          constructed + 1) := by
  obtain ⟨cfg, sess, cache, lock⟩ := c
  simp only at hfresh hlock
  subst hfresh hlock
  rfl

theorem conns.EC2Client_cached (c : conns.BingoCloudClient) (constructed : Nat) (h : EC2Ptr)
    (hcache : c.ec2Client = some h) (hlock : c.ec2ClientLock = { readers := 0, writer := false }) :
    c.EC2Client constructed = some (some h, c, constructed) := by
  obtain ⟨cfg, sess, cache, lock⟩ := c
  simp only at hcache hlock
  subst hcache hlock
  rfl

theorem conns.EC2ClientCalls_cached (k : Nat) (c : conns.BingoCloudClient) (constructed : Nat)
    (h : EC2Ptr) (hcache : c.ec2Client = some h)
    (hlock : c.ec2ClientLock = { readers := 0, writer := false }) :
    c.EC2ClientCalls k constructed = some (List.replicate k (some h), c, constructed) := by
  induction k with
  | zero => rfl
  | succ k ih =>
    simp only [conns.BingoCloudClient.EC2ClientCalls,
      conns.EC2Client_cached c constructed h hcache hlock, ih, List.replicate_succ]

/-- C15: take a client on which `EC2Client` has not been called yet, so that
its cache is empty and its lock free, and call `EC2Client` on it `k ≥ 1` times,
one call after the other.  The first call constructs a client, stores it and
returns it; on the client it leaves, every call returns the stored pointer,
constructs nothing and changes nothing; the `k` results are all that pointer,
`ec2.New` has been called exactly once, and the client afterwards differs from
the one before only in the stored pointer. -/
theorem EC2Client_constructs_once (c : conns.BingoCloudClient) (constructed k : Nat)
    (hfresh : c.ec2Client = none) (hlock : c.ec2ClientLock = { readers := 0, writer := false })
    (hk : 1 ≤ k) :
    c.EC2Client constructed
      = some (some (ec2.New c.Session constructed),
          { c with ec2Client := some (ec2.New c.Session constructed) },
          constructed + 1) ∧
    (∀ n, conns.BingoCloudClient.EC2Client
        { c with ec2Client := some (ec2.New c.Session constructed) } n
      = some (some (ec2.New c.Session constructed),
          { c with ec2Client := some (ec2.New c.Session constructed) }, n)) ∧
    c.EC2ClientCalls k constructed
      = some (List.replicate k (some (ec2.New c.Session constructed)),
          { c with ec2Client := some (ec2.New c.Session constructed) },
          constructed + 1) := by
  refine ⟨conns.EC2Client_first c constructed hfresh hlock,
    fun n => conns.EC2Client_cached _ n _ rfl hlock, ?_⟩
  obtain ⟨j, rfl⟩ : ∃ j, k = j + 1 := ⟨k - 1, by omega⟩
  have hlater := conns.EC2ClientCalls_cached j
    { c with ec2Client := some (ec2.New c.Session constructed) } (constructed + 1)
    (ec2.New c.Session constructed) rfl hlock
  simp only [conns.BingoCloudClient.EC2ClientCalls,
    conns.EC2Client_first c constructed hfresh hlock, hlater, List.replicate_succ]

/-- C15 at the client `NewBingoCloudClient` builds for the example, with three
calls. -/
theorem EC2Client_constructs_once_witness :
    ∃ c h,
      conns.NewBingoCloudClient sampleNewSession "https://cloud.example:8773" "AKIDEXAMPLE"
          "secret" "default" false
        = Except.ok c ∧
      c.EC2ClientCalls 3 0 = some ([some h, some h, some h], { c with ec2Client := some h }, 1) :=
  ⟨_, _, rfl,
    (EC2Client_constructs_once
      { Config :=
          { Endpoint := some "https://cloud.example:8773"
            Region := some "default"
            Credentials := ("AKIDEXAMPLE", "secret")
            DisableSSL := some false
            S3ForcePathStyle := some true
            HTTPClient := none }
        Session :=
          { Config :=
              { Endpoint := some "https://cloud.example:8773"
                Region := some "default"
                Credentials := ("AKIDEXAMPLE", "secret")
                DisableSSL := some false
                S3ForcePathStyle := some true
                HTTPClient := none } }
        ec2Client := none
        ec2ClientLock := { readers := 0, writer := false } }
      0 3 rfl rfl (by decide)).2.2⟩

/-! ## The locks -/

theorem RWMutex.RLock_some {m l : RWMutex} (h : m.RLock = some l) :
    m.writer = false ∧ l = { readers := m.readers + 1, writer := false } := by
  obtain ⟨r, w⟩ := m
  cases w
  · simp [RWMutex.RLock] at h
    exact ⟨rfl, h.symm⟩
  · simp [RWMutex.RLock] at h

theorem RWMutex.Lock_some {m l : RWMutex} (h : m.Lock = some l) :
    m.writer = false ∧ m.readers = 0 ∧ l = { readers := 0, writer := true } := by
  obtain ⟨r, w⟩ := m
  cases w
  · cases r with
    | zero =>
      simp [RWMutex.Lock] at h
      exact ⟨rfl, rfl, h.symm⟩
    | succ r => simp [RWMutex.Lock] at h
  · simp [RWMutex.Lock] at h

theorem RWMutex.Lock_free {m : RWMutex} (hw : m.writer = false) (hr : m.readers = 0) :
    m.Lock = some { readers := 0, writer := true } := by
  obtain ⟨r, w⟩ := m
  simp only at hw hr
  subst hw hr
  rfl

theorem RWMutex.RLock_free {m : RWMutex} (hw : m.writer = false) :
    m.RLock = some { readers := m.readers + 1, writer := false } := by
  obtain ⟨r, w⟩ := m
  simp only at hw
  subst hw
  rfl

/-! ## The client cache under concurrent callers -/

theorem conns.Point.sound_of_not_holdsWrite {built : EC2Ptr} {before : Nat}
    {cache cache' : Option EC2Ptr} {constructed constructed' : Nat} {p : conns.Point}
    (hw : p.holdsWrite = false) (hp : p.sound built before cache constructed)
    (hcache : cache = some built → cache' = some built) :
    p.sound built before cache' constructed' := by
  cases p <;> simp_all [conns.Point.sound, conns.Point.holdsWrite]

theorem conns.Goroutines.Inv.start {N : Nat} (c : conns.BingoCloudClient) (before : Nat)
    (hfresh : c.ec2Client = none) (hlock : c.ec2ClientLock = { readers := 0, writer := false }) :
    conns.Goroutines.Inv c before (conns.Goroutines.start N c before) := by
  refine ⟨rfl, rfl, ?_, ?_, ?_, ?_, ?_, ∅, ?_, ?_⟩
  · intro g
    simp [conns.Goroutines.start, conns.Point.sound]
  · intro h hh
    simp [conns.Goroutines.start, hfresh] at hh
  · intro _
    exact Or.inl rfl
  · intro g g' hg
    simp [conns.Goroutines.start, conns.Point.holdsWrite] at hg
  · simp [conns.Goroutines.start, conns.Point.holdsWrite, hlock]
  · intro g
    simp [conns.Goroutines.start, conns.Point.holdsRead]
  · simp [conns.Goroutines.start, hlock]

/-- A step that changes only the place of the goroutine, and not the locks it
holds. -/
theorem conns.Goroutines.Inv.move {N : Nat} {c : conns.BingoCloudClient} {before : Nat}
    {s : conns.Goroutines N} (hs : s.Inv c before) (g : Fin N) (p : conns.Point)
    (hw : p.holdsWrite = (s.point g).holdsWrite) (hr : p.holdsRead = (s.point g).holdsRead)
    (hp : p.sound (ec2.New c.Session before) before s.client.ec2Client s.constructed)
    (hstore : ∀ h, s.point g ≠ conns.Point.line76store h) :
    conns.Goroutines.Inv c before
      { client := s.client, constructed := s.constructed, point := Function.update s.point g p } := by
  obtain ⟨hconfig, hsess, hsound, hcache, hcount, hexcl, hwriter, S, hS, hcard⟩ := hs
  have hW : ∀ j, (Function.update s.point g p j).holdsWrite = (s.point j).holdsWrite := by
    intro j
    by_cases hj : j = g
    · subst hj
      simp [hw]
    · simp [Function.update_noteq hj]
  have hR : ∀ j, (Function.update s.point g p j).holdsRead = (s.point j).holdsRead := by
    intro j
    by_cases hj : j = g
    · subst hj
      simp [hr]
    · simp [Function.update_noteq hj]
  refine ⟨hconfig, hsess, ?_, hcache, ?_, ?_, ?_, S, ?_, hcard⟩
  · intro j
    by_cases hj : j = g
    · subst hj
      simpa using hp
    · simpa [Function.update_noteq hj] using hsound j
  · intro hnone
    rcases hcount hnone with h | ⟨j, h, hj⟩
    · exact Or.inl h
    · refine Or.inr ⟨j, h, ?_⟩
      have hne : j ≠ g := by
        rintro rfl
        exact hstore h hj
      simp [Function.update_noteq hne, hj]
  · intro a b ha hb
    simp only [hW] at ha hb
    exact hexcl a b ha hb
  · simp only [hW]
    exact hwriter
  · simp only [hR]
    exact hS

/-- Line 63, when the call of `RLock` does not have to wait. -/
theorem conns.Goroutines.Inv.rlock {N : Nat} {c : conns.BingoCloudClient} {before : Nat}
    {s : conns.Goroutines N} (hs : s.Inv c before) (g : Fin N) (lock : RWMutex)
    (hg : s.point g = conns.Point.line63) (hlock : s.client.ec2ClientLock.RLock = some lock) :
    conns.Goroutines.Inv c before
      { client := { s.client with ec2ClientLock := lock }
        constructed := s.constructed
        point := Function.update s.point g conns.Point.line64 } := by
  obtain ⟨hconfig, hsess, hsound, hcache, hcount, hexcl, hwriter, S, hS, hcard⟩ := hs
  obtain ⟨hwf, rfl⟩ := RWMutex.RLock_some hlock
  have hW : ∀ j, (Function.update s.point g conns.Point.line64 j).holdsWrite
      = (s.point j).holdsWrite := by
    intro j
    by_cases hj : j = g
    · subst hj
      simp [hg, conns.Point.holdsWrite]
    · simp [Function.update_noteq hj]
  refine ⟨hconfig, hsess, ?_, hcache, ?_, ?_, ?_, insert g S, ?_, ?_⟩
  · intro j
    by_cases hj : j = g
    · subst hj
      simp [conns.Point.sound]
    · simpa [Function.update_noteq hj] using hsound j
  · intro hnone
    rcases hcount hnone with h | ⟨j, h, hj⟩
    · exact Or.inl h
    · refine Or.inr ⟨j, h, ?_⟩
      have hne : j ≠ g := by
        rintro rfl
        rw [hg] at hj
        cases hj
      simp [Function.update_noteq hne, hj]
  · intro a b ha hb
    simp only [hW] at ha hb
    exact hexcl a b ha hb
  · simp only [hW]
    rw [← hwriter, hwf]
  · intro j
    by_cases hj : j = g
    · subst hj
      simp [conns.Point.holdsRead]
    · simp [Function.update_noteq hj, hj, hS]
  · have hnot : g ∉ S := by
      rw [hS, hg]
      simp [conns.Point.holdsRead]
    simp [Finset.card_insert_of_not_mem hnot, hcard]

/-- The call of `RUnlock`, on line 68 or deferred on line 65. -/
theorem conns.Goroutines.Inv.runlock {N : Nat} {c : conns.BingoCloudClient} {before : Nat}
    {s : conns.Goroutines N} (hs : s.Inv c before) (g : Fin N) (p : conns.Point)
    (hg : (s.point g).holdsRead = true) (hw : p.holdsWrite = false) (hr : p.holdsRead = false)
    (hp : p.sound (ec2.New c.Session before) before s.client.ec2Client s.constructed) :
    conns.Goroutines.Inv c before
      { client := { s.client with ec2ClientLock := s.client.ec2ClientLock.RUnlock }
        constructed := s.constructed
        point := Function.update s.point g p } := by
  obtain ⟨hconfig, hsess, hsound, hcache, hcount, hexcl, hwriter, S, hS, hcard⟩ := hs
  have hgw : (s.point g).holdsWrite = false := by
    cases hpg : s.point g <;> simp_all [conns.Point.holdsWrite, conns.Point.holdsRead]
  have hW : ∀ j, (Function.update s.point g p j).holdsWrite = (s.point j).holdsWrite := by
    intro j
    by_cases hj : j = g
    · subst hj
      simp [hw, hgw]
    · simp [Function.update_noteq hj]
  refine ⟨hconfig, hsess, ?_, hcache, ?_, ?_, ?_, S.erase g, ?_, ?_⟩
  · intro j
    by_cases hj : j = g
    · subst hj
      simpa using hp
    · simpa [Function.update_noteq hj] using hsound j
  · intro hnone
    rcases hcount hnone with h | ⟨j, h, hj⟩
    · exact Or.inl h
    · refine Or.inr ⟨j, h, ?_⟩
      have hne : j ≠ g := by
        rintro rfl
        rw [hj] at hg
        simp [conns.Point.holdsRead] at hg
      simp [Function.update_noteq hne, hj]
  · intro a b ha hb
    simp only [hW] at ha hb
    exact hexcl a b ha hb
  · simp only [hW]
    exact hwriter
  · intro j
    by_cases hj : j = g
    · subst hj
      simp [hr]
    · simp [Function.update_noteq hj, hj, hS]
  · have hmem : g ∈ S := (hS g).2 hg
    simp [RWMutex.RUnlock, Finset.card_erase_of_mem hmem, hcard]

/-- Line 71, when the call of `Lock` does not have to wait. -/
theorem conns.Goroutines.Inv.lock {N : Nat} {c : conns.BingoCloudClient} {before : Nat}
    {s : conns.Goroutines N} (hs : s.Inv c before) (g : Fin N) (lock : RWMutex)
    (hg : s.point g = conns.Point.line71) (hlock : s.client.ec2ClientLock.Lock = some lock) :
    conns.Goroutines.Inv c before
      { client := { s.client with ec2ClientLock := lock }
        constructed := s.constructed
        point := Function.update s.point g conns.Point.line72 } := by
  obtain ⟨hconfig, hsess, hsound, hcache, hcount, hexcl, hwriter, S, hS, hcard⟩ := hs
  obtain ⟨hwf, hrd, rfl⟩ := RWMutex.Lock_some hlock
  have hnone : ∀ j, (s.point j).holdsWrite = false := by
    intro j
    by_contra hj
    have : s.client.ec2ClientLock.writer = true := hwriter.2 ⟨j, by simpa using hj⟩
    rw [hwf] at this
    cases this
  have hW : ∀ j, (Function.update s.point g conns.Point.line72 j).holdsWrite = true → j = g := by
    intro j hj
    by_contra hne
    rw [Function.update_noteq hne, hnone j] at hj
    cases hj
  have hR : ∀ j, (Function.update s.point g conns.Point.line72 j).holdsRead
      = (s.point j).holdsRead := by
    intro j
    by_cases hj : j = g
    · subst hj
      simp [hg, conns.Point.holdsRead]
    · simp [Function.update_noteq hj]
  refine ⟨hconfig, hsess, ?_, hcache, ?_, ?_, ?_, S, ?_, ?_⟩
  · intro j
    by_cases hj : j = g
    · subst hj
      simp [conns.Point.sound]
    · simpa [Function.update_noteq hj] using hsound j
  · intro hn
    rcases hcount hn with h | ⟨j, h, hj⟩
    · exact Or.inl h
    · have := hnone j
      rw [hj] at this
      simp [conns.Point.holdsWrite] at this
  · intro a b ha hb
    rw [hW a ha, hW b hb]
  · simp only [true_iff]
    exact ⟨g, by simp [conns.Point.holdsWrite]⟩
  · simp only [hR]
    exact hS
  · simpa [hrd] using hcard

/-- The call of `Unlock` deferred on line 72. -/
theorem conns.Goroutines.Inv.unlock {N : Nat} {c : conns.BingoCloudClient} {before : Nat}
    {s : conns.Goroutines N} (hs : s.Inv c before) (g : Fin N) (result : Option EC2Ptr)
    (hg : s.point g = conns.Point.deferred72 result) :
    conns.Goroutines.Inv c before
      { client := { s.client with ec2ClientLock := s.client.ec2ClientLock.Unlock }
        constructed := s.constructed
        point := Function.update s.point g (conns.Point.returned result) } := by
  obtain ⟨hconfig, hsess, hsound, hcache, hcount, hexcl, hwriter, S, hS, hcard⟩ := hs
  have hgw : (s.point g).holdsWrite = true := by
    rw [hg]
    rfl
  have hW : ∀ j, (Function.update s.point g (conns.Point.returned result) j).holdsWrite
      = false := by
    intro j
    by_cases hj : j = g
    · subst hj
      simp [conns.Point.holdsWrite]
    · rw [Function.update_noteq hj]
      by_contra hjw
      exact hj (hexcl j g (by simpa using hjw) hgw)
  have hR : ∀ j, (Function.update s.point g (conns.Point.returned result) j).holdsRead
      = (s.point j).holdsRead := by
    intro j
    by_cases hj : j = g
    · subst hj
      simp [hg, conns.Point.holdsRead]
    · simp [Function.update_noteq hj]
  refine ⟨hconfig, hsess, ?_, hcache, ?_, ?_, ?_, S, ?_, hcard⟩
  · intro j
    by_cases hj : j = g
    · subst hj
      have := hsound j
      rw [hg] at this
      simpa [conns.Point.sound] using this
    · simpa [Function.update_noteq hj] using hsound j
  · intro hn
    rcases hcount hn with h | ⟨j, h, hj⟩
    · exact Or.inl h
    · refine Or.inr ⟨j, h, ?_⟩
      have hne : j ≠ g := by
        rintro rfl
        rw [hg] at hj
        cases hj
      simp [Function.update_noteq hne, hj]
  · intro a b ha
    rw [hW a] at ha
    cases ha
  · simp [hW, RWMutex.Unlock]
  · simp only [hR]
    exact hS

/-- Line 76, the call of `ec2.New`. -/
theorem conns.Goroutines.Inv.construct {N : Nat} {c : conns.BingoCloudClient} {before : Nat}
    {s : conns.Goroutines N} (hs : s.Inv c before) (g : Fin N)
    (hg : s.point g = conns.Point.line76) :
    conns.Goroutines.Inv c before
      { client := s.client
        constructed := s.constructed + 1
        point := Function.update s.point g
          (conns.Point.line76store (ec2.New s.client.Session s.constructed)) } := by
  obtain ⟨hconfig, hsess, hsound, hcache, hcount, hexcl, hwriter, S, hS, hcard⟩ := hs
  have hgs := hsound g
  rw [hg] at hgs
  obtain ⟨hnone, hn⟩ : s.client.ec2Client = none ∧ s.constructed = before := hgs
  have hgw : (s.point g).holdsWrite = true := by
    rw [hg]
    rfl
  have hW : ∀ j, (Function.update s.point g
      (conns.Point.line76store (ec2.New s.client.Session s.constructed)) j).holdsWrite
      = (s.point j).holdsWrite := by
    intro j
    by_cases hj : j = g
    · subst hj
      simp [hg, conns.Point.holdsWrite]
    · simp [Function.update_noteq hj]
  have hR : ∀ j, (Function.update s.point g
      (conns.Point.line76store (ec2.New s.client.Session s.constructed)) j).holdsRead
      = (s.point j).holdsRead := by
    intro j
    by_cases hj : j = g
    · subst hj
      simp [hg, conns.Point.holdsRead]
    · simp [Function.update_noteq hj]
  refine ⟨hconfig, hsess, ?_, ?_, ?_, ?_, ?_, S, ?_, hcard⟩
  · intro j
    by_cases hj : j = g
    · subst hj
      simp [conns.Point.sound, hnone, hsess, hn]
    · simp only [Function.update_noteq hj]
      refine conns.Point.sound_of_not_holdsWrite ?_ (hsound j) id
      by_contra hjw
      exact hj (hexcl j g (by simpa using hjw) hgw)
  · intro h hh
    simp only at hh
    rw [hnone] at hh
    cases hh
  · intro _
    exact Or.inr ⟨g, ec2.New s.client.Session s.constructed, by simp⟩
  · intro a b ha hb
    simp only [hW] at ha hb
    exact hexcl a b ha hb
  · simp only [hW]
    exact hwriter
  · simp only [hR]
    exact hS

/-- Line 76, the assignment to the cache. -/
theorem conns.Goroutines.Inv.store {N : Nat} {c : conns.BingoCloudClient} {before : Nat}
    {s : conns.Goroutines N} (hs : s.Inv c before) (g : Fin N) (built : EC2Ptr)
    (hg : s.point g = conns.Point.line76store built) :
    conns.Goroutines.Inv c before
      { client := { s.client with ec2Client := some built }
        constructed := s.constructed
        point := Function.update s.point g conns.Point.line78 } := by
  obtain ⟨hconfig, hsess, hsound, hcache, hcount, hexcl, hwriter, S, hS, hcard⟩ := hs
  have hgs := hsound g
  rw [hg] at hgs
  obtain ⟨hnone, hb, hn⟩ : s.client.ec2Client = none ∧ built = ec2.New c.Session before ∧
    s.constructed = before + 1 := hgs
  have hgw : (s.point g).holdsWrite = true := by
    rw [hg]
    rfl
  have hW : ∀ j, (Function.update s.point g conns.Point.line78 j).holdsWrite
      = (s.point j).holdsWrite := by
    intro j
    by_cases hj : j = g
    · subst hj
      simp [hg, conns.Point.holdsWrite]
    · simp [Function.update_noteq hj]
  have hR : ∀ j, (Function.update s.point g conns.Point.line78 j).holdsRead
      = (s.point j).holdsRead := by
    intro j
    by_cases hj : j = g
    · subst hj
      simp [hg, conns.Point.holdsRead]
    · simp [Function.update_noteq hj]
  refine ⟨hconfig, hsess, ?_, ?_, ?_, ?_, ?_, S, ?_, hcard⟩
  · intro j
    by_cases hj : j = g
    · subst hj
      simp [conns.Point.sound, hb]
    · simp only [Function.update_noteq hj]
      refine conns.Point.sound_of_not_holdsWrite ?_ (hsound j) ?_
      · by_contra hjw
        exact hj (hexcl j g (by simpa using hjw) hgw)
      · intro hsome
        rw [hnone] at hsome
        cases hsome
  · intro h hh
    simp only [Option.some.injEq] at hh
    exact ⟨by rw [← hh, hb], hn⟩
  · intro hn'
    simp at hn'
  · intro a b ha hb
    simp only [hW] at ha hb
    exact hexcl a b ha hb
  · simp only [hW]
    exact hwriter
  · simp only [hR]
    exact hS

/-- Every statement keeps the invariant. -/
theorem conns.Goroutines.Inv.step {N : Nat} {c : conns.BingoCloudClient} {before : Nat}
    {s : conns.Goroutines N} (hs : s.Inv c before) (g : Fin N) :
    (s.step g).Inv c before := by
  have hgs := hs.sound g
  unfold conns.Goroutines.step
  split
  · rename_i hg
    split
    · exact hs
    · rename_i lock hlock
      exact hs.rlock g lock hg hlock
  · rename_i hg
    by_cases hc : s.client.ec2Client = none
    · simp only [hc, ne_eq, not_true_eq_false, if_false]
      exact hs.move g _ (by rw [hg]; rfl) (by rw [hg]; rfl) (by simp [conns.Point.sound])
        (by rw [hg]; intro h hh; cases hh)
    · simp only [ne_eq, hc, not_false_eq_true, if_true]
      obtain ⟨h, hh⟩ := Option.ne_none_iff_exists'.1 hc
      have := (hs.cache h hh).1
      exact hs.move g _ (by rw [hg]; rfl) (by rw [hg]; rfl)
        (by simp [conns.Point.sound, hh, this]) (by rw [hg]; intro h hh; cases hh)
  · rename_i hg
    rw [hg] at hgs
    exact hs.move g _ (by rw [hg]; rfl) (by rw [hg]; rfl) hgs
      (by rw [hg]; intro h hh; cases hh)
  · rename_i hg
    rw [hg] at hgs
    have hgs' : s.client.ec2Client = some (ec2.New c.Session before) := hgs
    exact hs.move g _ (by rw [hg]; rfl) (by rw [hg]; rfl)
      (by simp [conns.Point.sound, hgs']) (by rw [hg]; intro h hh; cases hh)
  · rename_i result hg
    rw [hg] at hgs
    exact hs.runlock g _ (by rw [hg]; rfl) rfl rfl hgs
  · rename_i hg
    exact hs.runlock g _ (by rw [hg]; rfl) rfl rfl (by simp [conns.Point.sound])
  · rename_i hg
    split
    · exact hs
    · rename_i lock hlock
      exact hs.lock g lock hg hlock
  · rename_i hg
    exact hs.move g _ (by rw [hg]; rfl) (by rw [hg]; rfl) (by simp [conns.Point.sound])
      (by rw [hg]; intro h hh; cases hh)
  · rename_i hg
    by_cases hc : s.client.ec2Client = none
    · simp only [hc, if_true]
      have hn : s.constructed = before := by
        rcases hs.count hc with h | ⟨j, h, hj⟩
        · exact h
        · have hjg : j = g := hs.excl j g (by rw [hj]; rfl) (by rw [hg]; rfl)
          rw [hjg, hg] at hj
          cases hj
      exact hs.move g _ (by rw [hg]; rfl) (by rw [hg]; rfl)
        (by simp [conns.Point.sound, hc, hn]) (by rw [hg]; intro h hh; cases hh)
    · simp only [hc, if_false]
      obtain ⟨h, hh⟩ := Option.ne_none_iff_exists'.1 hc
      have := (hs.cache h hh).1
      exact hs.move g _ (by rw [hg]; rfl) (by rw [hg]; rfl)
        (by simp [conns.Point.sound, hh, this]) (by rw [hg]; intro h hh; cases hh)
  · rename_i hg
    exact hs.construct g hg
  · rename_i built hg
    exact hs.store g built hg
  · rename_i hg
    rw [hg] at hgs
    have hgs' : s.client.ec2Client = some (ec2.New c.Session before) := hgs
    exact hs.move g _ (by rw [hg]; rfl) (by rw [hg]; rfl)
      (by simp [conns.Point.sound, hgs']) (by rw [hg]; intro h hh; cases hh)
  · rename_i result hg
    exact hs.unlock g result hg
  · exact hs

theorem conns.Goroutines.Inv.run {N : Nat} {c : conns.BingoCloudClient} {before : Nat}
    (schedule : List (Fin N)) {s : conns.Goroutines N} (hs : s.Inv c before) :
    (conns.Goroutines.run schedule s).Inv c before := by
  induction schedule generalizing s with
  | nil => exact hs
  | cons g rest ih => exact ih (hs.step g)

theorem conns.Goroutines.run_append {N : Nat} (first second : List (Fin N))
    (s : conns.Goroutines N) :
    conns.Goroutines.run (first ++ second) s
      = conns.Goroutines.run second (conns.Goroutines.run first s) := by
  simp [conns.Goroutines.run, List.foldl_append]

theorem conns.Goroutines.step_point_of_ne {N : Nat} (s : conns.Goroutines N) {g j : Fin N}
    (hj : j ≠ g) : (s.step g).point j = s.point j := by
  unfold conns.Goroutines.step
  split <;> (try split) <;> simp [Function.update_noteq hj]

theorem conns.Goroutines.step_remaining_le {N : Nat} (s : conns.Goroutines N) (g : Fin N) :
    ((s.step g).point g).remaining ≤ (s.point g).remaining := by
  unfold conns.Goroutines.step
  split <;> rename_i hg <;> (try split) <;> simp only [hg, Function.update_same, le_refl] <;>
    simp [conns.Point.remaining]

theorem conns.Goroutines.step_lt_of_holdsWrite {N : Nat} (s : conns.Goroutines N) (g : Fin N)
    (hw : (s.point g).holdsWrite = true) :
    ((s.step g).point g).remaining < (s.point g).remaining := by
  unfold conns.Goroutines.step
  split <;> rename_i hg <;> rw [hg] at hw <;> simp [conns.Point.holdsWrite] at hw <;>
    simp only [hg, Function.update_same] <;> (try split_ifs) <;> simp [conns.Point.remaining]

theorem conns.Goroutines.step_lt_of_holdsRead {N : Nat} (s : conns.Goroutines N) (g : Fin N)
    (hr : (s.point g).holdsRead = true) :
    ((s.step g).point g).remaining < (s.point g).remaining := by
  unfold conns.Goroutines.step
  split <;> rename_i hg <;> rw [hg] at hr <;> simp [conns.Point.holdsRead] at hr <;>
    simp only [hg, Function.update_same] <;> (try split_ifs) <;> simp [conns.Point.remaining]

theorem conns.Goroutines.step_lt_of_free {N : Nat} (s : conns.Goroutines N) (g : Fin N)
    (hw : s.client.ec2ClientLock.writer = false) (hr : s.client.ec2ClientLock.readers = 0)
    (hg : s.point g = conns.Point.line63 ∨ s.point g = conns.Point.line71) :
    ((s.step g).point g).remaining < (s.point g).remaining := by
  unfold conns.Goroutines.step
  rcases hg with hg | hg
  · simp [hg, RWMutex.RLock_free hw, conns.Point.remaining]
  · simp [hg, RWMutex.Lock_free hw hr, conns.Point.remaining]

theorem conns.Goroutines.remaining_step_lt {N : Nat} (s : conns.Goroutines N) (g : Fin N)
    (h : ((s.step g).point g).remaining < (s.point g).remaining) :
    (s.step g).remaining < s.remaining := by
  unfold conns.Goroutines.remaining
  apply Finset.sum_lt_sum
  · intro j _
    by_cases hj : j = g
    · subst hj
      exact s.step_remaining_le j
    · rw [s.step_point_of_ne hj]
  · exact ⟨g, Finset.mem_univ g, h⟩

theorem conns.Point.eq_returned_of_remaining {p : conns.Point} (h : p.remaining = 0) :
    ∃ result, p = conns.Point.returned result := by
  cases p <;> simp [conns.Point.remaining] at h
  exact ⟨_, rfl⟩

theorem conns.Goroutines.all_returned_of_remaining {N : Nat} {s : conns.Goroutines N}
    (h : s.remaining = 0) (g : Fin N) : ∃ result, s.point g = conns.Point.returned result := by
  unfold conns.Goroutines.remaining at h
  rw [Finset.sum_eq_zero_iff] at h
  exact conns.Point.eq_returned_of_remaining (h g (Finset.mem_univ g))

/-- No deadlock: as long as a goroutine has not returned, some goroutine can
run a statement. -/
theorem conns.Goroutines.Inv.exists_step {N : Nat} {c : conns.BingoCloudClient} {before : Nat}
    {s : conns.Goroutines N} (hs : s.Inv c before) (hpos : 0 < s.remaining) :
    ∃ g, (s.step g).remaining < s.remaining := by
  by_cases hW : ∃ j, (s.point j).holdsWrite = true
  · obtain ⟨j, hj⟩ := hW
    exact ⟨j, s.remaining_step_lt j (s.step_lt_of_holdsWrite j hj)⟩
  by_cases hR : ∃ j, (s.point j).holdsRead = true
  · obtain ⟨j, hj⟩ := hR
    exact ⟨j, s.remaining_step_lt j (s.step_lt_of_holdsRead j hj)⟩
  have hwf : s.client.ec2ClientLock.writer = false := by
    cases hw : s.client.ec2ClientLock.writer
    · rfl
    · exact absurd (hs.writer.1 hw) hW
  have hrd : s.client.ec2ClientLock.readers = 0 := by
    obtain ⟨S, hS, hcard⟩ := hs.readers
    have : S = ∅ := by
      apply Finset.eq_empty_of_forall_not_mem
      intro j hj
      exact hR ⟨j, (hS j).1 hj⟩
    rw [hcard, this]
    rfl
  have hex : ∃ g, 0 < (s.point g).remaining := by
    by_contra hno
    have hzero : s.remaining = 0 := by
      unfold conns.Goroutines.remaining
      apply Finset.sum_eq_zero
      intro j _
      by_contra hj
      exact hno ⟨j, Nat.pos_of_ne_zero hj⟩
    omega
  obtain ⟨g, hg⟩ := hex
  refine ⟨g, s.remaining_step_lt g (s.step_lt_of_free g hwf hrd ?_)⟩
  have hgw : ¬ (s.point g).holdsWrite = true := fun h => hW ⟨g, h⟩
  have hgr : ¬ (s.point g).holdsRead = true := fun h => hR ⟨g, h⟩
  cases hp : s.point g <;>
    simp_all [conns.Point.holdsWrite, conns.Point.holdsRead, conns.Point.remaining]

/-- Every interleaving can be continued until all goroutines have returned. -/
theorem conns.Goroutines.Inv.completes {N : Nat} {c : conns.BingoCloudClient} {before : Nat}
    (k : Nat) : ∀ {s : conns.Goroutines N}, s.Inv c before → s.remaining ≤ k →
      ∃ more, (conns.Goroutines.run more s).remaining = 0 := by
  induction k with
  | zero =>
    intro s _ hk
    exact ⟨[], by simpa [conns.Goroutines.run] using hk⟩
  | succ k ih =>
    intro s hs hk
    by_cases hzero : s.remaining = 0
    · exact ⟨[], by simpa [conns.Goroutines.run] using hzero⟩
    · obtain ⟨g, hg⟩ := hs.exists_step (Nat.pos_of_ne_zero hzero)
      obtain ⟨more, hmore⟩ := ih (hs.step g) (by omega)
      exact ⟨g :: more, hmore⟩

/-- What the invariant says once every goroutine has returned. -/
theorem conns.Goroutines.Inv.of_all_returned {N : Nat} {c : conns.BingoCloudClient}
    {before : Nat} {s : conns.Goroutines N} (hs : s.Inv c before)
    (hall : ∀ g, ∃ result, s.point g = conns.Point.returned result) :
    (∀ g, s.point g = conns.Point.returned (some (ec2.New c.Session before))) ∧
    s.client.Config = c.Config ∧ s.client.Session = c.Session ∧
    s.client.ec2ClientLock = { readers := 0, writer := false } ∧
    (1 ≤ N → s.client.ec2Client = some (ec2.New c.Session before) ∧
      s.constructed = before + 1) := by
  have hpoint : ∀ g, s.point g = conns.Point.returned (some (ec2.New c.Session before)) ∧
      s.client.ec2Client = some (ec2.New c.Session before) := by
    intro g
    obtain ⟨result, hg⟩ := hall g
    have := hs.sound g
    rw [hg] at this
    obtain ⟨hr, hc⟩ : result = some (ec2.New c.Session before) ∧
      s.client.ec2Client = some (ec2.New c.Session before) := this
    exact ⟨by rw [hg, hr], hc⟩
  refine ⟨fun g => (hpoint g).1, hs.config, hs.session, ?_, ?_⟩
  · have hwf : s.client.ec2ClientLock.writer = false := by
      cases hw : s.client.ec2ClientLock.writer
      · rfl
      · obtain ⟨j, hj⟩ := hs.writer.1 hw
        rw [(hpoint j).1] at hj
        cases hj
    have hrd : s.client.ec2ClientLock.readers = 0 := by
      obtain ⟨S, hS, hcard⟩ := hs.readers
      have : S = ∅ := by
        apply Finset.eq_empty_of_forall_not_mem
        intro j hj
        have := (hS j).1 hj
        rw [(hpoint j).1] at this
        cases this
      rw [hcard, this]
      rfl
    cases hl : s.client.ec2ClientLock with
    | mk readers writer =>
      rw [hl] at hwf hrd
      simp only at hwf hrd
      rw [hwf, hrd]
  · intro hN
    have hc := (hpoint ⟨0, hN⟩).2
    exact ⟨hc, (hs.cache _ hc).2⟩

/-- One goroutine that runs alone does what `EC2Client` does: whenever
`EC2Client` returns, ten statements of the goroutine lead to the same result,
the same client and the same count of constructions. -/
theorem conns.Goroutines.run_alone {N : Nat} (c : conns.BingoCloudClient) (constructed : Nat)
    (g : Fin N) (result : Option EC2Ptr) (c' : conns.BingoCloudClient) (constructed' : Nat)
    (h : c.EC2Client constructed = some (result, c', constructed')) :
    (conns.Goroutines.run (List.replicate 10 g) (conns.Goroutines.start N c constructed)).point g
        = conns.Point.returned result ∧
    (conns.Goroutines.run (List.replicate 10 g) (conns.Goroutines.start N c constructed)).client
        = c' ∧
    (conns.Goroutines.run (List.replicate 10 g)
        (conns.Goroutines.start N c constructed)).constructed = constructed' := by
  obtain ⟨cfg, sess, cache, readers, writer⟩ := c
  cases writer
  · cases cache with
    | some built =>
      simp [conns.BingoCloudClient.EC2Client, RWMutex.RLock, RWMutex.RUnlock] at h
      obtain ⟨rfl, rfl, rfl⟩ := h
      simp [conns.Goroutines.run, conns.Goroutines.start, conns.Goroutines.step, List.replicate,
        RWMutex.RLock, RWMutex.RUnlock]
    | none =>
      cases readers with
      | zero =>
        simp [conns.BingoCloudClient.EC2Client, RWMutex.RLock, RWMutex.RUnlock, RWMutex.Lock,
          RWMutex.Unlock] at h
        obtain ⟨rfl, rfl, rfl⟩ := h
        simp [conns.Goroutines.run, conns.Goroutines.start, conns.Goroutines.step,
          List.replicate, RWMutex.RLock, RWMutex.RUnlock, RWMutex.Lock, RWMutex.Unlock]
      | succ k =>
        simp [conns.BingoCloudClient.EC2Client, RWMutex.RLock, RWMutex.RUnlock, RWMutex.Lock]
          at h
  · simp [conns.BingoCloudClient.EC2Client, RWMutex.RLock] at h

/-- C16: `N` goroutines call `EC2Client` on a client on which it has not been
called yet (empty cache, free lock), each running the statements of lines
63-78 one at a time, with `RLock` and `Lock` waiting as `sync.RWMutex` makes
them.  Under every interleaving, at every moment `ec2.New` has been called at
most once; every goroutine that has returned has received the pointer of that
one construction, which is the pointer stored in the cache, and `ec2.New` has
then been called exactly once; and the interleaving can always be continued,
after which all `N` goroutines have returned that same pointer, `ec2.New` has
been called exactly once, and the client differs from the one before only in
the stored pointer. -/
theorem EC2Client_concurrent_once (N : Nat) (c : conns.BingoCloudClient) (constructed : Nat)
    (hfresh : c.ec2Client = none) (hlock : c.ec2ClientLock = { readers := 0, writer := false })
    (schedule : List (Fin N)) :
    (conns.Goroutines.run schedule (conns.Goroutines.start N c constructed)).constructed
      ≤ constructed + 1 ∧
    (∀ g result,
      (conns.Goroutines.run schedule (conns.Goroutines.start N c constructed)).point g
          = conns.Point.returned result →
        result = some (ec2.New c.Session constructed) ∧
        (conns.Goroutines.run schedule
          (conns.Goroutines.start N c constructed)).client.ec2Client
          = some (ec2.New c.Session constructed) ∧
        (conns.Goroutines.run schedule (conns.Goroutines.start N c constructed)).constructed
          = constructed + 1) ∧
    ∃ more : List (Fin N),
      (∀ g,
        (conns.Goroutines.run (schedule ++ more)
          (conns.Goroutines.start N c constructed)).point g
          = conns.Point.returned (some (ec2.New c.Session constructed))) ∧
      (1 ≤ N →
        (conns.Goroutines.run (schedule ++ more)
          (conns.Goroutines.start N c constructed)).constructed = constructed + 1 ∧
        (conns.Goroutines.run (schedule ++ more)
          (conns.Goroutines.start N c constructed)).client
          = { c with ec2Client := some (ec2.New c.Session constructed) }) := by
  have hinv : (conns.Goroutines.run schedule (conns.Goroutines.start N c constructed)).Inv c
      constructed :=
    conns.Goroutines.Inv.run schedule (conns.Goroutines.Inv.start c constructed hfresh hlock)
  refine ⟨?_, ?_, ?_⟩
  · cases hc : (conns.Goroutines.run schedule
        (conns.Goroutines.start N c constructed)).client.ec2Client with
    | some h => exact le_of_eq (hinv.cache h hc).2
    | none =>
      rcases hinv.count hc with hn | ⟨g, h, hg⟩
      · omega
      · have := hinv.sound g
        rw [hg] at this
        obtain ⟨_, _, hn⟩ :
          (conns.Goroutines.run schedule
            (conns.Goroutines.start N c constructed)).client.ec2Client = none ∧
          h = ec2.New c.Session constructed ∧
          (conns.Goroutines.run schedule
            (conns.Goroutines.start N c constructed)).constructed = constructed + 1 := this
        exact le_of_eq hn
  · intro g result hg
    have := hinv.sound g
    rw [hg] at this
    obtain ⟨hr, hc⟩ :
      result = some (ec2.New c.Session constructed) ∧
      (conns.Goroutines.run schedule
        (conns.Goroutines.start N c constructed)).client.ec2Client
        = some (ec2.New c.Session constructed) := this
    exact ⟨hr, hc, (hinv.cache _ hc).2⟩
  · obtain ⟨more, hmore⟩ := conns.Goroutines.Inv.completes _ hinv (le_refl _)
    have hinv' := conns.Goroutines.Inv.run more hinv
    obtain ⟨hpoints, hconfig, hsess, hfree, hone⟩ :=
      hinv'.of_all_returned (conns.Goroutines.all_returned_of_remaining hmore)
    refine ⟨more, ?_, ?_⟩
    · intro g
      rw [conns.Goroutines.run_append]
      exact hpoints g
    · intro hN
      rw [conns.Goroutines.run_append]
      obtain ⟨hcache, hcount⟩ := hone hN
      refine ⟨hcount, ?_⟩
      cases hcl : (conns.Goroutines.run more (conns.Goroutines.run schedule
        (conns.Goroutines.start N c constructed))).client with
      | mk cfg sess cache lock =>
        rw [hcl] at hconfig hsess hfree hcache
        simp only at hconfig hsess hfree hcache
        rw [hconfig, hsess, hfree, hcache, ← hlock]

/-- C16 at the client of the example, with three goroutines that all find the
cache empty on line 64 before the first of them takes the write lock. -/
theorem EC2Client_concurrent_once_witness :
    (sampleCache.ec2Client = none ∧
      sampleCache.ec2ClientLock = { readers := 0, writer := false }) ∧
    (∀ g, (conns.Goroutines.run (contendedSchedule.take 9)
        (conns.Goroutines.start 3 sampleCache 0)).point g = conns.Point.line71) ∧
    (conns.Goroutines.run (contendedSchedule.take 12)
        (conns.Goroutines.start 3 sampleCache 0)).point
      = ![conns.Point.line71, conns.Point.line72, conns.Point.line71] ∧
    (∀ g, (conns.Goroutines.run contendedSchedule
        (conns.Goroutines.start 3 sampleCache 0)).point g
      = conns.Point.returned (some { address := 0, session := sampleCache.Session })) ∧
    (conns.Goroutines.run contendedSchedule
        (conns.Goroutines.start 3 sampleCache 0)).client
      = { sampleCache with
          ec2Client := some { address := 0, session := sampleCache.Session } } ∧
    (conns.Goroutines.run contendedSchedule
        (conns.Goroutines.start 3 sampleCache 0)).constructed = 1 ∧
    ∃ more : List (Fin 3),
      (∀ g,
        (conns.Goroutines.run (contendedSchedule ++ more)
          (conns.Goroutines.start 3 sampleCache 0)).point g
          = conns.Point.returned (some (ec2.New sampleCache.Session 0))) ∧
      (1 ≤ 3 →
        (conns.Goroutines.run (contendedSchedule ++ more)
          (conns.Goroutines.start 3 sampleCache 0)).constructed = 0 + 1 ∧
        (conns.Goroutines.run (contendedSchedule ++ more)
          (conns.Goroutines.start 3 sampleCache 0)).client
          = { sampleCache with ec2Client := some (ec2.New sampleCache.Session 0) }) :=
  ⟨⟨rfl, rfl⟩, by decide, by decide, by decide, by decide,
    ((EC2Client_concurrent_once 3 sampleCache 0 rfl rfl contendedSchedule).2.1 0
      (some { address := 0, session := sampleCache.Session }) (by decide)).2.2,
    (EC2Client_concurrent_once 3 sampleCache 0 rfl rfl contendedSchedule).2.2⟩

/-! ## The client cache in the hands of the resource -/

theorem conns.NewBingoCloudClient_fresh {NewSession : aws.Config → Except GoError Session}
    {endpoint accessKey secretKey region : String} {insecureSkipTLS : Bool}
    {client : conns.BingoCloudClient}
    (h : conns.NewBingoCloudClient NewSession endpoint accessKey secretKey region insecureSkipTLS
      = Except.ok client) :
    client.ec2Client = none ∧ client.ec2ClientLock = { readers := 0, writer := false } := by
  unfold conns.NewBingoCloudClient at h
  simp only at h
  split at h
  · cases h
  · cases h
    exact ⟨rfl, rfl⟩

theorem BingoCloudProvider.Configure_entered_without_error (getenv : String → String)
    (NewSession : aws.Config → Except GoError Session) (data : BingoCloudProviderModel)
    (resp : ProviderConfigureResponse)
    (hok : Diagnostics.HasError
      (BingoCloudProvider.Configure getenv NewSession data resp).Diagnostics = false) :
    Diagnostics.HasError resp.Diagnostics = false := by
  cases hds : Diagnostics.HasError resp.Diagnostics
  · rfl
  · unfold BingoCloudProvider.Configure at hok
    simp only [hds, if_true] at hok
    cases hok

/-- C14: whenever the provider's `Configure` ends without an error diagnostic,
the resource data it hands out is a pointer to the client cache that
`conns.NewBingoCloudClient` built.  The `Configure` of the resource that the
provider registers accepts it: it adds no diagnostic and sets the resource's
client to that cache.  The resource then comes by its service client through
the cache's `EC2Client`, which on this first call constructs the client,
stores it in the cache and returns it. -/
theorem Configure_hands_cache_to_resource (getenv : String → String)
    (NewSession : aws.Config → Except GoError Session) (data : BingoCloudProviderModel)
    (resp : ProviderConfigureResponse)
    (hok : Diagnostics.HasError
      (BingoCloudProvider.Configure getenv NewSession data resp).Diagnostics = false)
    (r : service.ec2.InstanceResource) (diags : Diagnostics) (constructed : Nat) :
    ∃ client endpoint accessKey secretKey region insecureSkipTLS,
      conns.NewBingoCloudClient NewSession endpoint accessKey secretKey region insecureSkipTLS
        = Except.ok client ∧
      (BingoCloudProvider.Configure getenv NewSession data resp).ResourceData
        = ProviderData.connsClient (some client) ∧
      service.ec2.InstanceResource.Configure r
          (BingoCloudProvider.Configure getenv NewSession data resp).ResourceData diags
        = ({ client := some client }, diags) ∧
      (service.ec2.InstanceResource.Configure r
          (BingoCloudProvider.Configure getenv NewSession data resp).ResourceData
          diags).1.serviceClient constructed
        = (client.EC2Client constructed).map
            (fun called => (called.1, { client := some called.2.1 }, called.2.2)) ∧
      client.EC2Client constructed
        = some (some (ec2.New client.Session constructed),
            { client with ec2Client := some (ec2.New client.Session constructed) },
            constructed + 1) := by
  obtain ⟨client, endpoint, accessKey, secretKey, region, insecureSkipTLS, hclient, hdata⟩ :=
    BingoCloudProvider.Configure_resource_data getenv NewSession data resp
      (BingoCloudProvider.Configure_entered_without_error getenv NewSession data resp hok) hok
  obtain ⟨hfresh, hlock⟩ := conns.NewBingoCloudClient_fresh hclient
  refine ⟨client, endpoint, accessKey, secretKey, region, insecureSkipTLS, hclient, hdata,
    ?_, ?_, conns.EC2Client_first client constructed hfresh hlock⟩
  · rw [hdata]
    rfl
  · rw [hdata]
    simp only [service.ec2.InstanceResource.Configure,
      service.ec2.InstanceResource.serviceClient]
    cases client.EC2Client constructed <;> rfl

/-- C14 at the provider configured from the environment, as the acceptance
tests configure it. -/
theorem Configure_hands_cache_to_resource_witness :
    Diagnostics.HasError
      (BingoCloudProvider.Configure sampleEnv sampleNewSession emptyProviderConfig
        freshProviderResponse).Diagnostics = false ∧
    (BingoCloudProvider.Configure sampleEnv sampleNewSession emptyProviderConfig
        freshProviderResponse).ResourceData = ProviderData.connsClient (some sampleCache) ∧
    service.ec2.InstanceResource.Configure { client := none }
        (BingoCloudProvider.Configure sampleEnv sampleNewSession emptyProviderConfig
          freshProviderResponse).ResourceData []
      = ({ client := some sampleCache }, []) ∧
    service.ec2.InstanceResource.serviceClient { client := some sampleCache } 0
      = some (some { address := 0, session := sampleCache.Session },
          { client := some
              { sampleCache with
                ec2Client := some { address := 0, session := sampleCache.Session } } },
          1) ∧
    ∃ client endpoint accessKey secretKey region insecureSkipTLS,
      conns.NewBingoCloudClient sampleNewSession endpoint accessKey secretKey region
          insecureSkipTLS
        = Except.ok client ∧
      (BingoCloudProvider.Configure sampleEnv sampleNewSession emptyProviderConfig
          freshProviderResponse).ResourceData
        = ProviderData.connsClient (some client) ∧
      service.ec2.InstanceResource.Configure { client := none }
          (BingoCloudProvider.Configure sampleEnv sampleNewSession emptyProviderConfig
            freshProviderResponse).ResourceData []
        = ({ client := some client }, []) ∧
      (service.ec2.InstanceResource.Configure { client := none }
          (BingoCloudProvider.Configure sampleEnv sampleNewSession emptyProviderConfig
            freshProviderResponse).ResourceData
          []).1.serviceClient 0
        = (client.EC2Client 0).map
            (fun called => (called.1, { client := some called.2.1 }, called.2.2)) ∧
      client.EC2Client 0
        = some (some (ec2.New client.Session 0),
            { client with ec2Client := some (ec2.New client.Session 0) },
            0 + 1) :=
  ⟨rfl, rfl, rfl, rfl,
    Configure_hands_cache_to_resource sampleEnv sampleNewSession emptyProviderConfig
      freshProviderResponse rfl { client := none } [] 0⟩

end KubeCloud
